import Mathlib

/-!
Shallow embedding of the ICE (RFC 5245) connectivity-check engine of
mediastreamer2 (src/ice.c), together with theorems settling the claims about
its specification.

Modelling conventions:
* Heap pointers to candidates and pairs are modelled as numeric ids (`cid`,
  `pid`) allocated by monotone counters; C pointer equality becomes id
  equality, and pointer dereference becomes lookup in the owning lists.
* C strings are modelled as `String` (for addresses, foundations) or
  `List Char` (for the byte-level USERNAME check, where strncmp/strchr
  semantics matter).
* The external STUN codec (parse, encode, HMAC) is out of scope of the source
  file; incoming messages arrive already parsed, the outcome of the
  MESSAGE-INTEGRITY verification is carried by the event, message encoding is
  modelled as always succeeding, and freshly generated transaction ids and
  peer-reflexive foundations are supplied by the event (they are produced by
  the codec / random source in C).
* The host-name resolver (stunParseHostName) is modelled as the identity on
  IP literal strings, so resolved-address comparisons become string
  comparisons.
* Ticker time is a `Nat`; the spec states that time never goes backwards, so
  C's `uint64` subtractions are modelled with truncated `Nat` subtraction.
-/

namespace Ice

/-- Candidate type, as in `IceCandidateType` (host, srflx, prflx, relay). -/
inductive IceCandidateType
  | host
  | srflx
  | prflx
  | relay
deriving DecidableEq, Repr

/-- Agent role, as in `IceRole`. -/
inductive IceRole
  | controlling
  | controlled
deriving DecidableEq, Repr

/-- Candidate pair state, as in `IceCandidatePairState`. -/
inductive IceCandidatePairState
  | waiting
  | inProgress
  | succeeded
  | failed
  | frozen
deriving DecidableEq, Repr

/-- Check list state, as in `IceCheckListState`. -/
inductive IceCheckListState
  | running
  | completed
  | failed
deriving DecidableEq, Repr

/-- Session state, as in `IceSessionState`. -/
inductive IceSessionState
  | stopped
  | running
  | completed
  | failed
deriving DecidableEq, Repr

/-- Transport address: IP literal and port (`IceTransportAddress`). -/
structure IceTransportAddress where
  ip : String
  port : Nat
deriving DecidableEq, Repr

/-- Candidate (`IceCandidate`); `cid` models the heap pointer, `base` the
base-candidate pointer. -/
structure IceCandidate where
  cid : Nat
  ctype : IceCandidateType
  taddr : IceTransportAddress
  componentID : Nat
  priority : Nat
  foundation : String
  base : Option Nat
  is_default : Bool
deriving DecidableEq, Repr

/-- Candidate pair (`IceCandidatePair`); `pid` models the heap pointer,
`localId`/`remoteId` the candidate pointers, `transactionID` the 96-bit STUN
transaction id (0 = cleared, as the C code memsets it to zero). -/
structure IceCandidatePair where
  pid : Nat
  localId : Nat
  remoteId : Nat
  pstate : IceCandidatePairState
  is_default : Bool
  is_nominated : Bool
  wait_transaction_timeout : Bool
  transactionID : Nat
  rto : Nat
  retransmissions : Nat
  prole : IceRole
  priority : Nat
  transmission_time : Nat
deriving DecidableEq, Repr

/-- Valid pair (`IceValidCandidatePair`): references to a pair and to the pair
the check was generated from. -/
structure IceValidCandidatePair where
  validId : Nat
  generatedFromId : Nat
deriving DecidableEq, Repr

/-- The whole mutable state: one check list (one media stream) together with
the session fields it reads and writes.  The influence of other media streams
of the same session is reduced to the externally triggered role change event
(a role switch recomputes pair priorities, and priorities are all the other
streams can affect here). -/
structure IceState where
  local_candidates : List IceCandidate
  remote_candidates : List IceCandidate
  pairs : List IceCandidatePair
  check_list : List Nat
  triggered_checks_queue : List Nat
  valid_list : List IceValidCandidatePair
  componentIDs : List Nat
  foundations : List (String × String)
  clstate : IceCheckListState
  ta_time : Nat
  keepalive_time : Nat
  foundation_generator : Nat
  sstate : IceSessionState
  role : IceRole
  tie_breaker : Nat
  ta : Nat
  keepalive_timeout : Nat
  max_connectivity_checks : Nat
  local_ufrag : List Char
  next_cid : Nat
  next_pid : Nat
deriving DecidableEq, Repr

/-- `ICE_MAX_NB_CANDIDATES` -/
def ICE_MAX_NB_CANDIDATES : Nat := 10

/-- `ICE_MAX_NB_CANDIDATE_PAIRS` -/
def ICE_MAX_NB_CANDIDATE_PAIRS : Nat := ICE_MAX_NB_CANDIDATES * ICE_MAX_NB_CANDIDATES

/-- `ICE_INVALID_COMPONENTID` -/
def ICE_INVALID_COMPONENTID : Nat := 0

/-- `ICE_DEFAULT_TA_DURATION` (ms) -/
def ICE_DEFAULT_TA_DURATION : Nat := 20

/-- `ICE_DEFAULT_RTO_DURATION` (ms) -/
def ICE_DEFAULT_RTO_DURATION : Nat := 100

/-- `ICE_DEFAULT_KEEPALIVE_TIMEOUT` (s) -/
def ICE_DEFAULT_KEEPALIVE_TIMEOUT : Nat := 15

/-- `ICE_MAX_RETRANSMISSIONS` -/
def ICE_MAX_RETRANSMISSIONS : Nat := 7

/-- Type preference values of `type_preference_values` (4.1.1.2). -/
def type_preference_values : IceCandidateType → Nat
  | .host => 126
  | .srflx => 100
  | .prflx => 110
  | .relay => 0

/-- Candidate lookup by id in a list (dereference of a candidate pointer). -/
def findCandidate (cands : List IceCandidate) (cid : Nat) : Option IceCandidate :=
  cands.find? (fun c => decide (c.cid = cid))

/-- Dereference a candidate pointer: search the local then the remote list. -/
def lookupCand (s : IceState) (cid : Nat) : Option IceCandidate :=
  match findCandidate s.local_candidates cid with
  | some c => some c
  | none => findCandidate s.remote_candidates cid

/-- Pair lookup by id (dereference of a pair pointer). -/
def findPair (ps : List IceCandidatePair) (pid : Nat) : Option IceCandidatePair :=
  ps.find? (fun p => decide (p.pid = pid))

/-- In-place mutation of the pair a pointer refers to. -/
def updatePair (ps : List IceCandidatePair) (pid : Nat)
    (f : IceCandidatePair → IceCandidatePair) : List IceCandidatePair :=
  ps.map (fun p => if p.pid = pid then f p else p)

/-- In-place mutation of a candidate in a candidate list. -/
def updateCandidate (cs : List IceCandidate) (cid : Nat)
    (f : IceCandidate → IceCandidate) : List IceCandidate :=
  cs.map (fun c => if c.cid = cid then f c else c)

/-- `ice_pair_set_state`: change the state of a pair; entering Failed or
Waiting clears the stored transaction ID. -/
def ice_pair_set_state (p : IceCandidatePair) (st : IceCandidatePairState) :
    IceCandidatePair :=
  if p.pstate = st then p
  else
    let p := { p with pstate := st }
    match st with
    | .failed => { p with transactionID := 0 }
    | .waiting => { p with transactionID := 0 }
    | _ => p

/-- `ice_check_list_queue_triggered_check`: append the pair to the triggered
checks queue unless it is already queued. -/
def ice_check_list_queue_triggered_check (q : List Nat) (pid : Nat) : List Nat :=
  if q.contains pid then q else q ++ [pid]

/-- `ice_check_list_pop_triggered_check`: pop the head of the queue. -/
def ice_check_list_pop_triggered_check (q : List Nat) : Option Nat × List Nat :=
  match q with
  | [] => (none, [])
  | pid :: rest => (some pid, rest)

/-- `ice_compute_pair_priority` (5.7.2): G is the candidate priority of the
controlling side, D of the controlled side; the pair priority is
`(MIN(G,D) << 32) | (MAX(G,D) << 1) | (G > D ? 1 : 0)`. -/
def ice_compute_pair_priority (localPrio remotePrio : Nat) (role : IceRole) : Nat :=
  let G : Nat := match role with
    | .controlling => localPrio
    | .controlled => remotePrio
  let D : Nat := match role with
    | .controlling => remotePrio
    | .controlled => localPrio
  ((min G D) <<< 32) ||| ((max G D) <<< 1) ||| (if G > D then 1 else 0)

/-- `ice_compute_candidate_priority` (4.1.2.1): type preference, local
preference 65535, and `256 - componentID` (the last term computed in C `int`
arithmetic and truncated to the `uint32_t` priority field). -/
def ice_compute_candidate_priority (ctype : IceCandidateType) (componentID : Nat) : Nat :=
  let type_preference := type_preference_values ctype
  let local_preference := 65535
  (type_preference <<< 24) ||| (local_preference <<< 8) |||
    (((256 - (componentID : Int)) % (2 ^ 32 : Int)).toNat)

/-- `ice_pair_new`: a fresh Frozen pair with priority computed under the
current session role; the caller appends it to the pair pool. -/
def ice_pair_new (s : IceState) (lc rc : IceCandidate) :
    IceState × IceCandidatePair :=
  let pair : IceCandidatePair :=
    { pid := s.next_pid
      localId := lc.cid
      remoteId := rc.cid
      pstate := .frozen
      is_default := lc.is_default && rc.is_default
      is_nominated := false
      wait_transaction_timeout := false
      transactionID := 0
      rto := ICE_DEFAULT_RTO_DURATION
      retransmissions := 0
      prole := s.role
      priority := ice_compute_pair_priority lc.priority rc.priority s.role
      transmission_time := 0 }
  ({ s with next_pid := s.next_pid + 1 }, pair)

/-- `ice_compare_transport_addresses` compares port, length and text of the
IP literal; this is plain equality of the modelled addresses. -/
def taddrEq (a b : IceTransportAddress) : Bool :=
  decide (a.port = b.port) && decide (a.ip = b.ip)

/-- `ice_compare_candidates` compares type, transport address, componentID and
priority by value. -/
def candEqVal (a b : IceCandidate) : Bool :=
  decide (a.ctype = b.ctype) && taddrEq a.taddr b.taddr &&
    decide (a.componentID = b.componentID) && decide (a.priority = b.priority)

/-- `ice_compare_pairs`: pairs are duplicates when both candidates compare
equal by value (candidate pointers dereferenced through the stores). -/
def pairEqVal (s : IceState) (p q : IceCandidatePair) : Bool :=
  match lookupCand s p.localId, lookupCand s q.localId,
        lookupCand s p.remoteId, lookupCand s q.remoteId with
  | some pl, some ql, some pr, some qr => candEqVal pl ql && candEqVal pr qr
  | _, _, _, _ => false

/-- Dereference the priority of a pair id (0 if dangling; C would dereference
an invalid pointer, which does not occur in reachable states). -/
def prioOf (ps : List IceCandidatePair) (pid : Nat) : Nat :=
  ((findPair ps pid).map (fun p => p.priority)).getD 0

/-- Modelled from the spec: the MSList primitive `ms_list_insert_sorted` is
not part of src/; the spec states the check list and the valid list are
"ordered by descending pair priority", so insertion places the element before
the first one whose key is not larger. -/
def insertSortedDescBy (key : α → Nat) (x : α) : List α → List α
  | [] => [x]
  | y :: ys => if key y ≤ key x then x :: y :: ys else y :: insertSortedDescBy key x ys

/-- Remove the last `n` elements of a list (the tail loop of
`ice_prune_candidate_pairs` frees the `n` lowest-priority links at the end of
the descending-ordered check list). -/
def removeLastN : Nat → List α → List α
  | 0, l => l
  | n + 1, l => removeLastN n l.dropLast

/-- The candidate type string parsed by `ice_add_candidate`. -/
def parseCandidateType : String → Option IceCandidateType
  | "host" => some .host
  | "srflx" => some .srflx
  | "prflx" => some .prflx
  | "relay" => some .relay
  | _ => none

/-- `ice_add_candidate`: refuse when the list already holds
`ICE_MAX_NB_CANDIDATES` candidates or the type string is invalid; otherwise
append a fresh candidate (host and relayed candidates are their own base). -/
def ice_add_candidate (lst : List IceCandidate) (ctype ip : String)
    (port componentID next_cid : Nat) :
    Option (List IceCandidate × IceCandidate) :=
  if lst.length ≥ ICE_MAX_NB_CANDIDATES then none
  else
    match parseCandidateType ctype with
    | none => none
    | some t =>
      let base : Option Nat :=
        match t with
        | .host => some next_cid
        | .relay => some next_cid
        | _ => none
      let cand : IceCandidate :=
        { cid := next_cid
          ctype := t
          taddr := { ip := ip, port := port }
          componentID := componentID
          priority := 0
          foundation := ""
          base := base
          is_default := false }
      some (lst ++ [cand], cand)

/-- `ice_add_componentID`: register a componentID unless already present. -/
def ice_add_componentID (ids : List Nat) (componentID : Nat) : List Nat :=
  if ids.contains componentID then ids else ids ++ [componentID]

/-- `ice_add_local_candidate`: add to the local list, set the base pointer if
the candidate is not its own base, compute the candidate priority, register
the componentID. -/
def ice_add_local_candidate (s : IceState) (ctype ip : String)
    (port componentID : Nat) (base : Option Nat) :
    IceState × Option IceCandidate :=
  match ice_add_candidate s.local_candidates ctype ip port componentID s.next_cid with
  | none => (s, none)
  | some (lst, cand) =>
    let cand :=
      { cand with
        base := if cand.base.isNone then base else cand.base }
    let cand :=
      { cand with
        priority := ice_compute_candidate_priority cand.ctype cand.componentID }
    let lst := updateCandidate lst cand.cid (fun _ => cand)
    ({ s with
        local_candidates := lst
        componentIDs := ice_add_componentID s.componentIDs cand.componentID
        next_cid := s.next_cid + 1 }, some cand)

/-- `ice_add_remote_candidate`: add to the remote list; a zero priority is
replaced by the computed one, the foundation string is copied (strncpy caps it
to 31 characters). -/
def ice_add_remote_candidate (s : IceState) (ctype ip : String)
    (port componentID priority : Nat) (foundationStr : String) :
    IceState × Option IceCandidate :=
  match ice_add_candidate s.remote_candidates ctype ip port componentID s.next_cid with
  | none => (s, none)
  | some (lst, cand) =>
    let cand :=
      { cand with
        priority := if priority = 0 then
            ice_compute_candidate_priority cand.ctype cand.componentID
          else priority
        foundation := foundationStr.take 31 }
    let lst := updateCandidate lst cand.cid (fun _ => cand)
    ({ s with
        remote_candidates := lst
        next_cid := s.next_cid + 1 }, some cand)

/-- The IP literal of the base of a candidate (dereferencing the base
pointer), used by the foundation rule. -/
def baseIpOf (s : IceState) (c : IceCandidate) : Option String :=
  (c.base.bind (lookupCand s)).map (fun b => b.taddr.ip)

/-- `ice_find_candidate_with_same_foundation`: a different candidate, both
with a base, same type and same base IP literal. -/
def sameFoundationCandidate (s : IceState) (c cand : IceCandidate) : Bool :=
  decide (¬c.cid = cand.cid) && c.base.isSome && cand.base.isSome &&
    decide (c.ctype = cand.ctype) && (baseIpOf s c).isSome &&
    decide (baseIpOf s c = baseIpOf s cand)

/-- `ice_compute_candidate_foundation`: copy the foundation of the first local
candidate that should share it (if that foundation is non-empty), else assign
the stringified monotone generator. -/
def ice_compute_candidate_foundation (s : IceState) (cid : Nat) : IceState :=
  match lookupCand s cid with
  | none => s
  | some cand =>
    let fresh : IceState :=
      { s with
        local_candidates := updateCandidate s.local_candidates cid
          (fun c => { c with foundation := toString s.foundation_generator })
        foundation_generator := s.foundation_generator + 1 }
    match s.local_candidates.find? (fun c => sameFoundationCandidate s c cand) with
    | some other =>
      if other.foundation.length > 0 then
        { s with
          local_candidates := updateCandidate s.local_candidates cid
            (fun c => { c with foundation := other.foundation.take 31 }) }
      else fresh
    | none => fresh

/-- `ice_check_list_compute_candidates_foundations`: compute the foundation of
every local candidate, in list order. -/
def ice_check_list_compute_candidates_foundations (s : IceState) : IceState :=
  (s.local_candidates.map (fun c => c.cid)).foldl ice_compute_candidate_foundation s

/-- `ice_form_candidate_pairs` (5.7.1): cartesian product of local and remote
candidates restricted to equal componentIDs, appended to the pair pool. -/
def ice_form_candidate_pairs (s : IceState) : IceState :=
  s.local_candidates.foldl
    (fun s1 lc =>
      s1.remote_candidates.foldl
        (fun s2 rc =>
          if lc.componentID = rc.componentID then
            let (s3, pair) := ice_pair_new s2 lc rc
            { s3 with pairs := s3.pairs ++ [pair] }
          else s2)
        s1)
    s

/-- `ice_replace_srflx_by_base_in_pair`: a local server-reflexive candidate of
a pair is replaced by its base. -/
def ice_replace_srflx_by_base_in_pair (s : IceState) (p : IceCandidatePair) :
    IceCandidatePair :=
  match lookupCand s p.localId with
  | some c =>
    if c.ctype = .srflx then { p with localId := c.base.getD p.localId } else p
  | none => p

/-- The duplicate-pruning loop of `ice_prune_candidate_pairs`: visit each pair
once; the first pair in the current list comparing equal by value decides
whether the visited pair is dropped (kept only when no strictly
higher-priority duplicate exists). -/
def ice_prune_duplicate_pairs_pass (s : IceState) :
    List IceCandidatePair → List IceCandidatePair → List IceCandidatePair
  | kept, [] => kept
  | kept, cur :: rest =>
    match (kept ++ cur :: rest).find? (fun p => pairEqVal s p cur) with
    | some other =>
      if other.priority > cur.priority then
        ice_prune_duplicate_pairs_pass s kept rest
      else
        ice_prune_duplicate_pairs_pass s (kept ++ [cur]) rest
    | none => ice_prune_duplicate_pairs_pass s (kept ++ [cur]) rest

/-- `ice_prune_candidate_pairs` (5.7.3): replace srflx locals by bases, drop
duplicates, build the descending-priority check list, and cap its size at
`max_connectivity_checks` by dropping the lowest-priority tail. -/
def ice_prune_candidate_pairs (s : IceState) : IceState :=
  let s1 := { s with pairs := s.pairs.map (ice_replace_srflx_by_base_in_pair s) }
  let s2 := { s1 with pairs := ice_prune_duplicate_pairs_pass s1 [] s1.pairs }
  let checkList :=
    s2.pairs.foldl (fun cl p => insertSortedDescBy (prioOf s2.pairs) p.pid cl)
      s2.check_list
  let nb := checkList.length
  let checkList :=
    if nb > s2.max_connectivity_checks then
      removeLastN (nb - s2.max_connectivity_checks) checkList
    else checkList
  { s2 with check_list := checkList }

/-- The pair foundation of a pair: the foundations of its two candidates. -/
def pairFoundationOf (s : IceState) (p : IceCandidatePair) : String × String :=
  (((lookupCand s p.localId).map (fun c => c.foundation)).getD "",
   ((lookupCand s p.remoteId).map (fun c => c.foundation)).getD "")

/-- `ice_generate_pair_foundations_list`: collect the distinct pair
foundations of the check list, in order of first appearance. -/
def ice_generate_pair_foundations_list (s : IceState) : IceState :=
  let step := fun (fnds : List (String × String)) (pid : Nat) =>
    match findPair s.pairs pid with
    | none => fnds
    | some p =>
      let f := pairFoundationOf s p
      if fnds.any (fun g => decide (g = f)) then fnds else fnds ++ [f]
  { s with foundations := s.check_list.foldl step s.foundations }

/-- Accumulator of `ice_find_lowest_componentid_pair_with_specified_foundation`
(`Foundations_Pair_Priority_ComponentID`); componentID 0 is the
`ICE_INVALID_COMPONENTID` sentinel. -/
structure FPPC where
  componentID : Nat
  priority : Nat
  pairId : Option Nat
deriving DecidableEq, Repr

/-- One step of `ice_find_lowest_componentid_pair_with_specified_foundation`:
the accumulator is replaced when unset, or when the pair has strictly lower
componentID AND strictly higher priority. -/
def ice_find_lowest_componentid_pair_step (s : IceState) (fc : FPPC) (pid : Nat) :
    FPPC :=
  match findPair s.pairs pid with
  | none => fc
  | some p =>
    let localCid := ((lookupCand s p.localId).map (fun c => c.componentID)).getD 0
    if fc.componentID = ICE_INVALID_COMPONENTID ∨
        (localCid < fc.componentID ∧ p.priority > fc.priority) then
      { componentID := localCid, priority := p.priority, pairId := some p.pid }
    else fc

/-- `ice_compute_pairs_states` (5.7.4): run the accumulator over the check
list and set the single selected pair to Waiting. -/
def ice_compute_pairs_states (s : IceState) : IceState :=
  let fc := s.check_list.foldl (ice_find_lowest_componentid_pair_step s)
    { componentID := ICE_INVALID_COMPONENTID, priority := 0, pairId := none }
  match fc.pairId with
  | some pid =>
    { s with pairs := updatePair s.pairs pid (fun p => ice_pair_set_state p .waiting) }
  | none => s

/-- `ice_check_list_pair_candidates`: form pairs, prune, collect pair
foundations, and compute the initial pair states for the first media stream
only. -/
def ice_check_list_pair_candidates (s : IceState) (first_media_stream : Bool) :
    IceState :=
  let s := ice_form_candidate_pairs s
  let s := ice_prune_candidate_pairs s
  let s := ice_generate_pair_foundations_list s
  if first_media_stream then ice_compute_pairs_states s else s

/-- `ice_session_pair_candidates`: pair the candidates of every stream (only
the head stream gets initial pair states) and set the session Running. -/
def ice_session_pair_candidates (streams : List IceState) : List IceState :=
  (streams.enum.map (fun ic =>
    ice_check_list_pair_candidates ic.2 (ic.1 = 0))).map
    (fun cl => { cl with sstate := .running })

/-- `ice_session_init` and `ice_check_list_init` defaults; the random local
ufrag and tie-breaker are supplied by the caller (random source is
external). -/
def initialIceState (localUfrag : List Char) (tieBreaker : Nat) : IceState :=
  { local_candidates := []
    remote_candidates := []
    pairs := []
    check_list := []
    triggered_checks_queue := []
    valid_list := []
    componentIDs := []
    foundations := []
    clstate := .running
    ta_time := 0
    keepalive_time := 0
    foundation_generator := 1
    sstate := .stopped
    role := .controlling
    tie_breaker := tieBreaker
    ta := ICE_DEFAULT_TA_DURATION
    keepalive_timeout := ICE_DEFAULT_KEEPALIVE_TIMEOUT
    max_connectivity_checks := ICE_MAX_NB_CANDIDATE_PAIRS
    local_ufrag := localUfrag
    next_cid := 0
    next_pid := 0 }

/-- `ice_session_set_max_connectivity_checks`. -/
def ice_session_set_max_connectivity_checks (s : IceState) (n : Nat) : IceState :=
  { s with max_connectivity_checks := n }

/-- `ice_session_set_keepalive_timeout`: clamped to at least the default. -/
def ice_session_set_keepalive_timeout (s : IceState) (timeout : Nat) : IceState :=
  { s with
    keepalive_timeout :=
      if timeout < ICE_DEFAULT_KEEPALIVE_TIMEOUT then ICE_DEFAULT_KEEPALIVE_TIMEOUT
      else timeout }

/-- `ice_compute_pair_priority` applied to a pair through its candidate
pointers (the body of `ice_check_list_compute_pair_priorities`). -/
def recomputePairPriority (s : IceState) (p : IceCandidatePair) : IceCandidatePair :=
  let lp := ((lookupCand s p.localId).map (fun c => c.priority)).getD 0
  let rp := ((lookupCand s p.remoteId).map (fun c => c.priority)).getD 0
  { p with priority := ice_compute_pair_priority lp rp s.role }

/-- `ice_session_set_role`: when the role changes, recompute every pair
priority (`ice_session_compute_pair_priorities`). -/
def ice_session_set_role (s : IceState) (role : IceRole) : IceState :=
  if s.role = role then s
  else
    let s := { s with role := role }
    { s with pairs := s.pairs.map (recomputePairPriority s) }

/-- The pairs of the check list, in check-list order (each link dereferenced
in the pair pool). -/
def clPairs (s : IceState) : List IceCandidatePair :=
  s.check_list.filterMap (findPair s.pairs)

/-- Parsed STUN binding request, as the fields of `StunMessage` read by the
request path. -/
structure StunRequestMsg where
  hasMessageIntegrity : Bool
  hasUsername : Bool
  hasFingerprint : Bool
  hasPriority : Bool
  hasIceControlling : Bool
  hasIceControlled : Bool
  hasUseCandidate : Bool
  iceControllingVal : Nat
  iceControlledVal : Nat
  username : List Char
  priority : Nat
  trId : Nat
deriving DecidableEq, Repr

/-- Parsed STUN binding success response fields read by the response path. -/
structure StunResponseMsg where
  trId : Nat
  hasUsername : Bool
  hasFingerprint : Bool
  hasXorMappedAddress : Bool
  xorMappedAddress : IceTransportAddress
deriving DecidableEq, Repr

/-- Parsed STUN binding error response fields read by the error path. -/
structure StunErrorMsg where
  trId : Nat
  hasErrorCode : Bool
  errorClass : Nat
  errorNumber : Nat
deriving DecidableEq, Repr

/-- The socket a packet arrived on (`OrtpRTPSocket` / `OrtpRTCPSocket` /
anything else). -/
inductive SocketKind
  | rtp
  | rtcp
  | other
deriving DecidableEq, Repr

/-- Delivery information of an incoming packet (`OrtpEventData`): receiving
socket, source address, destination interface IP, the RTP local port of the
stream, and the outcome of the MESSAGE-INTEGRITY verification (the HMAC
itself is computed by the external STUN codec over the raw packet). -/
structure PacketInfo where
  socketKind : SocketKind
  srcAddr : IceTransportAddress
  dstIp : String
  rtpLocPort : Nat
  integrityOk : Bool
deriving DecidableEq, Repr

/-- `ice_get_recv_port_from_rtp_session`: RTP local port for the RTP socket,
plus one for the RTCP socket, failure otherwise. -/
def ice_get_recv_port (pkt : PacketInfo) : Option Nat :=
  match pkt.socketKind with
  | .rtp => some pkt.rtpLocPort
  | .rtcp => some (pkt.rtpLocPort + 1)
  | .other => none

/-- The componentID derived from the receiving socket in
`ice_learn_peer_reflexive_candidate`. -/
def socketComponentID : SocketKind → Option Nat
  | .rtp => some 1
  | .rtcp => some 2
  | .other => none

/-- Observable actions of the engine (messages sent, callback invoked). -/
inductive IceOutput
  | errorResponse (errClass errNum : Nat)
  | bindingResponse (toAddr : IceTransportAddress)
  | requestSent (pid tid : Nat)
  | indicationSent (pid : Nat)
  | successCallback
deriving DecidableEq, Repr

/-- `ice_send_error_response` emits nothing when the receiving socket is
neither RTP nor RTCP. -/
def errorResponseOut (pkt : PacketInfo) (errClass errNum : Nat) : List IceOutput :=
  match pkt.socketKind with
  | .other => []
  | _ => [.errorResponse errClass errNum]

/-- C `strchr` on a NUL-terminated buffer: index of the first occurrence of
the character, scanning up to the first NUL. -/
def strchrIdx : List Char → Char → Option Nat
  | [], _ => none
  | c :: rest, t =>
    if c = t then some 0
    else if c.toNat = 0 then none
    else (strchrIdx rest t).map (fun i => i + 1)

/-- Head byte of a C string (0 past the end of the modelled buffer, which the
C code has zero-filled). -/
def cHead : List Char → Nat
  | [] => 0
  | c :: _ => c.toNat

/-- Tail of a C string buffer. -/
def cTail : List Char → List Char
  | [] => []
  | _ :: t => t

/-- C `strncmp(a, b, n) == 0`: compare at most `n` bytes, stopping early at a
NUL terminator. -/
def strncmpIsZero : List Char → List Char → Nat → Bool
  | _, _, 0 => true
  | a, b, n + 1 =>
    if cHead a ≠ cHead b then false
    else if cHead a = 0 then true
    else strncmpIsZero (cTail a) (cTail b) n

/-- `ice_check_received_binding_request_username`: accept iff the USERNAME
holds a colon and `strncmp(username, local_ufrag, colon - username) == 0`
(true = accepted, false = reply error (4,1) and drop). -/
def ice_check_received_binding_request_username (local_ufrag username : List Char) :
    Bool :=
  match strchrIdx username ':' with
  | none => false
  | some i => strncmpIsZero username local_ufrag i

/-- `ice_check_received_binding_request_attributes`: require
MESSAGE-INTEGRITY, USERNAME, FINGERPRINT, PRIORITY and at least one of
ICE-CONTROLLING / ICE-CONTROLLED (true = all present; any failure replies
error (4,0)). -/
def ice_check_received_binding_request_attributes (msg : StunRequestMsg) : Bool :=
  msg.hasMessageIntegrity && msg.hasUsername && msg.hasFingerprint &&
    msg.hasPriority && (msg.hasIceControlling || msg.hasIceControlled)

/-- Outcome of the role-conflict check: either reply error (4,87) and drop,
or continue processing under the (possibly switched) role. -/
inductive RoleConflictOutcome
  | reply487
  | continueWith (newRole : IceRole)
deriving DecidableEq, Repr

/-- `ice_check_received_binding_request_role_conflict` (7.2.1.1): a
controlling agent receiving ICE-CONTROLLING replies 487 when its tie-breaker
is not smaller, else switches to controlled; a controlled agent receiving
ICE-CONTROLLED switches to controlling when its tie-breaker is not smaller,
else replies 487. -/
def ice_check_received_binding_request_role_conflict (role : IceRole)
    (tie_breaker : Nat) (msg : StunRequestMsg) : RoleConflictOutcome :=
  if role = .controlling ∧ msg.hasIceControlling then
    if tie_breaker ≥ msg.iceControllingVal then .reply487
    else .continueWith .controlled
  else if role = .controlled ∧ msg.hasIceControlled then
    if tie_breaker ≥ msg.iceControlledVal then .continueWith .controlling
    else .reply487
  else .continueWith role

/-- `ice_send_binding_request` (7.1.2).  The wait-transaction-timeout case
re-queues the pair; a retransmission beyond `ICE_MAX_RETRANSMISSIONS` fails
the pair without sending; otherwise the request is sent (encoding by the
external codec is modelled as succeeding), the transaction id is stored on
the pair, and a first transmission initialises RTO, the role snapshot and the
InProgress state.  `freshTid` models the transaction id generated by
`stunBuildReqSimple`; a retransmission reuses the stored one. -/
def ice_send_binding_request (s : IceState) (pid freshTid time : Nat) :
    IceState × List IceOutput :=
  match findPair s.pairs pid with
  | none => (s, [])
  | some p0 =>
    if p0.pstate = .inProgress ∧ p0.wait_transaction_timeout then
      let p1 := ice_pair_set_state { p0 with wait_transaction_timeout := false } .waiting
      ({ s with
          pairs := updatePair s.pairs pid (fun _ => p1)
          triggered_checks_queue :=
            ice_check_list_queue_triggered_check s.triggered_checks_queue pid }, [])
    else if p0.pstate = .inProgress ∧
        p0.retransmissions + 1 > ICE_MAX_RETRANSMISSIONS then
      let p1 := ice_pair_set_state { p0 with retransmissions := p0.retransmissions + 1 }
        .failed
      ({ s with pairs := updatePair s.pairs pid (fun _ => p1) }, [])
    else
      let p1 :=
        if p0.pstate = .inProgress then
          { p0 with
            retransmissions := p0.retransmissions + 1
            rto := p0.rto * 2
            transmission_time := time }
        else p0
      let cidOpt : Option Nat := (lookupCand s p1.localId).map (fun c => c.componentID)
      if cidOpt = some 1 ∨ cidOpt = some 2 then
        let tid := if p1.pstate = .inProgress then p1.transactionID else freshTid
        let p2 := { p1 with transactionID := tid }
        let p3 :=
          if ¬(p2.pstate = .inProgress) then
            ice_pair_set_state
              { p2 with
                rto := ICE_DEFAULT_RTO_DURATION
                retransmissions := 0
                prole := s.role } .inProgress
          else p2
        ({ s with pairs := updatePair s.pairs pid (fun _ => p3) },
          [.requestSent pid tid])
      else
        ({ s with pairs := updatePair s.pairs pid (fun _ => p1) }, [])

/-- `ice_learn_peer_reflexive_candidate`: when the source address of a
binding request is unknown among the remote candidates, add a peer-reflexive
remote candidate carrying the PRIORITY attribute value; `prflxFoundation`
models the fresh random foundation of `ice_generate_arbitrary_foundation`. -/
def ice_learn_peer_reflexive_candidate (s : IceState) (pkt : PacketInfo)
    (msg : StunRequestMsg) (taddr : IceTransportAddress) (prflxFoundation : String) :
    IceState × Option IceCandidate :=
  match socketComponentID pkt.socketKind with
  | none => (s, none)
  | some componentID =>
    if s.remote_candidates.any (fun c => taddrEq c.taddr taddr) then (s, none)
    else ice_add_remote_candidate s "prflx" taddr.ip taddr.port componentID
      msg.priority prflxFoundation

/-- `ice_trigger_connectivity_check_on_binding_request` (7.2.1.4): resolve
the local candidate from the receiving interface and port; find (or create,
priority-insert, set Waiting and queue) the pair; an existing
Waiting/Frozen/Failed pair is set Waiting and queued, an InProgress pair gets
the wait-transaction-timeout flag, a Succeeded pair is untouched. -/
def ice_trigger_connectivity_check_on_binding_request (s : IceState)
    (pkt : PacketInfo) (prflx : Option IceCandidate)
    (remote_taddr : IceTransportAddress) : IceState × Option Nat :=
  match ice_get_recv_port pkt with
  | none => (s, none)
  | some recvport =>
    let local_taddr : IceTransportAddress := { ip := pkt.dstIp, port := recvport }
    match s.local_candidates.find? (fun c => taddrEq c.taddr local_taddr) with
    | none => (s, none)
    | some localCand =>
      let remoteOpt :=
        match prflx with
        | some c => some c
        | none => s.remote_candidates.find? (fun c => taddrEq c.taddr remote_taddr)
      match remoteOpt with
      | none => (s, none)
      | some remoteCand =>
        match (clPairs s).find? (fun p =>
            decide (p.localId = localCand.cid) && decide (p.remoteId = remoteCand.cid)) with
        | none =>
          let (s1, pair) := ice_pair_new s localCand remoteCand
          let s2 := { s1 with pairs := s1.pairs ++ [pair] }
          let s3 := { s2 with
            check_list := insertSortedDescBy (prioOf s2.pairs) pair.pid s2.check_list }
          let s4 := { s3 with
            pairs := updatePair s3.pairs pair.pid (fun p => ice_pair_set_state p .waiting) }
          let s5 := { s4 with
            triggered_checks_queue :=
              ice_check_list_queue_triggered_check s4.triggered_checks_queue pair.pid }
          (s5, some pair.pid)
        | some p =>
          if p.pstate = .waiting ∨ p.pstate = .frozen ∨ p.pstate = .failed then
            ({ s with
                pairs := updatePair s.pairs p.pid (fun q => ice_pair_set_state q .waiting)
                triggered_checks_queue :=
                  ice_check_list_queue_triggered_check s.triggered_checks_queue p.pid },
              some p.pid)
          else if p.pstate = .inProgress then
            ({ s with
                pairs := updatePair s.pairs p.pid
                  (fun q => { q with wait_transaction_timeout := true }) }, some p.pid)
          else (s, some p.pid)

/-- `ice_update_nominated_flag_on_binding_request` (7.2.1.5): a controlled
agent receiving USE-CANDIDATE nominates the pair only if it is Succeeded. -/
def ice_update_nominated_flag_on_binding_request (s : IceState)
    (msg : StunRequestMsg) (pid : Nat) : IceState :=
  if msg.hasUseCandidate ∧ s.role = .controlled then
    { s with
      pairs := updatePair s.pairs pid (fun p =>
        if p.pstate = .succeeded then { p with is_nominated := true } else p) }
  else s

/-- Insertion of a valid pair (`ice_construct_valid_pair`, tail): wrap and
insert into the valid list ordered by descending priority of the valid pair,
unless an entry with the same (valid, generated_from) pointers exists. -/
def addValidPair (s : IceState) (validPid generatedFromPid : Nat) : IceState :=
  let vp : IceValidCandidatePair :=
    { validId := validPid, generatedFromId := generatedFromPid }
  if s.valid_list.any (fun v => decide (v = vp)) then s
  else
    { s with
      valid_list := insertSortedDescBy (fun v => prioOf s.pairs v.validId) vp
        s.valid_list }

/-- The symmetric-address condition of
`ice_check_received_binding_response_addresses` (7.1.3.1): the response
source must equal the pair's remote address, the packet destination and
receive port must equal the pair's local address (the resolver is the
identity on IP literals).  Dangling candidate pointers do not occur in
reachable states; they are treated as matching. -/
def responseAddressesMismatch (s : IceState) (pkt : PacketInfo) (recvport : Nat)
    (p : IceCandidatePair) : Bool :=
  match lookupCand s p.localId, lookupCand s p.remoteId with
  | some lc, some rc =>
    decide (¬pkt.srcAddr.ip = rc.taddr.ip) || decide (¬pkt.srcAddr.port = rc.taddr.port) ||
      decide (¬pkt.dstIp = lc.taddr.ip) || decide (¬recvport = lc.taddr.port)
  | _, _ => false

/-- `ice_discover_peer_reflexive_candidate` (7.1.3.2.1): when the
XOR-MAPPED-ADDRESS is not among the local candidates, add a peer-reflexive
local candidate based on the succeeded pair's local candidate and compute its
foundation (skipped if the candidate-list limit refused the addition, which
the C code does not guard against). -/
def ice_discover_peer_reflexive_candidate (s : IceState) (p : IceCandidatePair)
    (msg : StunResponseMsg) : IceState × Option IceCandidate :=
  let taddr := msg.xorMappedAddress
  if s.local_candidates.any (fun c => taddrEq c.taddr taddr) then (s, none)
  else
    let componentID := (((lookupCand s p.localId).map (fun c => c.componentID))).getD 0
    let (s1, candOpt) :=
      ice_add_local_candidate s "prflx" taddr.ip taddr.port componentID (some p.localId)
    match candOpt with
    | none => (s1, none)
    | some cand => (ice_compute_candidate_foundation s1 cand.cid, some cand)

/-- `ice_construct_valid_pair` (7.1.3.2.2): the valid pair's local candidate
is the discovered peer-reflexive one, or else the local candidate matching
the packet destination; the remote is the succeeded pair's remote.  A pair
not present in the check list is created and appended to the pool only.  The
result is recorded in the valid list. -/
def ice_construct_valid_pair (s : IceState) (pkt : PacketInfo)
    (prflx : Option IceCandidate) (succeededPid : Nat) : IceState × Option Nat :=
  match findPair s.pairs succeededPid with
  | none => (s, none)
  | some sp =>
    let localOpt : Option IceCandidate :=
      match prflx with
      | some c => some c
      | none =>
        match ice_get_recv_port pkt with
        | none => none
        | some recvport =>
          s.local_candidates.find? (fun c =>
            taddrEq c.taddr { ip := pkt.dstIp, port := recvport })
    match localOpt with
    | none => (s, none)
    | some localCand =>
      match (clPairs s).find? (fun p =>
          decide (p.localId = localCand.cid) && decide (p.remoteId = sp.remoteId)) with
      | some p => (addValidPair s p.pid succeededPid, some p.pid)
      | none =>
        match lookupCand s sp.remoteId with
        | none => (s, none)
        | some remoteCand =>
          let (s1, pair) := ice_pair_new s localCand remoteCand
          let s2 := { s1 with pairs := s1.pairs ++ [pair] }
          (addValidPair s2 pair.pid succeededPid, some pair.pid)

/-- `ice_update_pair_states_on_binding_response` (7.1.3.2.3): the pair that
generated the check becomes Succeeded, and every other Frozen pair of the
check list with the same pair foundation becomes Waiting. -/
def ice_update_pair_states_on_binding_response (s : IceState) (pid : Nat) :
    IceState :=
  let s1 :=
    { s with pairs := updatePair s.pairs pid (fun p => ice_pair_set_state p .succeeded) }
  match findPair s1.pairs pid with
  | none => s1
  | some sp =>
    let f := pairFoundationOf s1 sp
    { s1 with
      pairs := s1.pairs.map (fun p =>
        if s1.check_list.contains p.pid ∧ ¬p.pid = pid ∧ p.pstate = .frozen ∧
            pairFoundationOf s1 p = f then
          ice_pair_set_state p .waiting
        else p) }

/-- `ice_update_nominated_flag_on_binding_response` (7.1.3.2.4): controlling,
the valid pair inherits the nomination of the succeeded pair; controlled, it
is nominated iff the succeeded pair was InProgress before the response.  (The
C code dereferences the valid pair only in those cases; a missing valid pair
is a no-op.) -/
def ice_update_nominated_flag_on_binding_response (s : IceState)
    (validPidOpt : Option Nat) (succeededPid : Nat)
    (prevState : IceCandidatePairState) : IceState :=
  match validPidOpt with
  | none => s
  | some vpid =>
    match s.role with
    | .controlling =>
      match findPair s.pairs succeededPid with
      | some sp =>
        if sp.is_nominated then
          { s with pairs := updatePair s.pairs vpid (fun p => { p with is_nominated := true }) }
        else s
      | none => s
    | .controlled =>
      if prevState = .inProgress then
        { s with pairs := updatePair s.pairs vpid (fun p => { p with is_nominated := true }) }
      else s

/-- `ice_perform_regular_nomination` (8.1, controlling only): for each valid
pair whose valid pair is not nominated, nominate the pair it was generated
from and queue a triggered check for it. -/
def ice_perform_regular_nomination (s : IceState) : IceState :=
  s.valid_list.foldl
    (fun s1 vp =>
      match findPair s1.pairs vp.validId with
      | none => s1
      | some vpair =>
        if vpair.is_nominated = false then
          { s1 with
            pairs := updatePair s1.pairs vp.generatedFromId
              (fun p => { p with is_nominated := true })
            triggered_checks_queue :=
              ice_check_list_queue_triggered_check s1.triggered_checks_queue
                vp.generatedFromId }
        else s1)
    s

/-- The componentID of a pair's local candidate (0 when dangling, which does
not occur in reachable states). -/
def pairLocalComponentID (s : IceState) (p : IceCandidatePair) : Nat :=
  (((lookupCand s p.localId).map (fun c => c.componentID))).getD 0

/-- `ice_remove_waiting_and_frozen_pairs_from_list`: drop from a pair-pointer
list every Waiting or Frozen pair of the given componentID. -/
def ice_remove_waiting_and_frozen_pairs_from_list (s : IceState) (lst : List Nat)
    (componentID : Nat) : List Nat :=
  lst.filter (fun pid =>
    match findPair s.pairs pid with
    | some p =>
      !((decide (p.pstate = .waiting) || decide (p.pstate = .frozen)) &&
        decide (pairLocalComponentID s p = componentID))
    | none => true)

/-- `ice_conclude_waiting_frozen_and_inprogress_pairs`: for each nominated
valid pair, remove Waiting and Frozen pairs of its componentID from the check
list and the triggered-check queue, and force the retransmission count of its
InProgress pairs to the maximum. -/
def ice_conclude_waiting_frozen_and_inprogress_pairs (s : IceState) : IceState :=
  s.valid_list.foldl
    (fun s1 vp =>
      match findPair s1.pairs vp.validId with
      | none => s1
      | some vpair =>
        if vpair.is_nominated then
          let cid := pairLocalComponentID s1 vpair
          let s2 :=
            { s1 with
              check_list :=
                ice_remove_waiting_and_frozen_pairs_from_list s1 s1.check_list cid
              triggered_checks_queue :=
                ice_remove_waiting_and_frozen_pairs_from_list s1
                  s1.triggered_checks_queue cid }
          { s2 with
            pairs := s2.pairs.map (fun p =>
              if s2.check_list.contains p.pid ∧ p.pstate = .inProgress ∧
                  pairLocalComponentID s2 p = cid then
                { p with retransmissions := ICE_MAX_RETRANSMISSIONS }
              else p) }
        else s1)
    s

/-- `ice_find_nominated_valid_pair_from_componentID`: a nominated valid pair
whose valid pair has the given componentID exists in the valid list. -/
def nominatedValidPairExistsFor (s : IceState) (componentID : Nat) : Bool :=
  s.valid_list.any (fun vp =>
    match findPair s.pairs vp.validId with
    | some p => p.is_nominated && decide (pairLocalComponentID s p = componentID)
    | none => false)

/-- The completion test of `ice_conclude_processing`: every registered
componentID has a nominated valid pair. -/
def allComponentsNominated (s : IceState) : Bool :=
  s.componentIDs.all (fun cid => nominatedValidPairExistsFor s cid)

/-- The failure test of `ice_conclude_processing`: no pair of the check list
is outside Failed/Succeeded (vacuously true on an empty check list). -/
def allPairsFailedOrSucceeded (s : IceState) : Bool :=
  (clPairs s).all (fun p => decide (p.pstate = .failed) || decide (p.pstate = .succeeded))

/-- `ice_conclude_processing` (8.1): regular nomination (controlling), prune
Waiting/Frozen pairs of nominated components, then either complete the check
list (invoking the success callback once, at the transition) or fail it when
every pair is Failed or Succeeded. -/
def ice_conclude_processing (s : IceState) (time : Nat) : IceState × List IceOutput :=
  let s1 := if s.role = .controlling then ice_perform_regular_nomination s else s
  let s2 := ice_conclude_waiting_frozen_and_inprogress_pairs s1
  if allComponentsNominated s2 then
    if ¬s2.clstate = .completed then
      ({ s2 with clstate := .completed, keepalive_time := time }, [.successCallback])
    else (s2, [])
  else
    if allPairsFailedOrSucceeded s2 then
      if ¬s2.clstate = .failed then ({ s2 with clstate := .failed }, [])
      else (s2, [])
    else (s2, [])

/-- `ice_handle_received_binding_request`: attribute, integrity, username and
role-conflict checks (each failure replies an error and drops), then learn a
peer-reflexive remote candidate, trigger a check, update the nomination,
reply with a binding success and conclude. -/
def ice_handle_received_binding_request (s : IceState) (msg : StunRequestMsg)
    (pkt : PacketInfo) (prflxFoundation : String) (time : Nat) :
    IceState × List IceOutput :=
  if ¬ice_check_received_binding_request_attributes msg then
    (s, errorResponseOut pkt 4 0)
  else if ¬pkt.integrityOk then (s, errorResponseOut pkt 4 1)
  else if ¬ice_check_received_binding_request_username s.local_ufrag msg.username then
    (s, errorResponseOut pkt 4 1)
  else
    match ice_check_received_binding_request_role_conflict s.role s.tie_breaker msg with
    | .reply487 => (s, errorResponseOut pkt 4 87)
    | .continueWith newRole =>
      let s := ice_session_set_role s newRole
      let taddr := pkt.srcAddr
      let (s, prflx) := ice_learn_peer_reflexive_candidate s pkt msg taddr prflxFoundation
      let (s, pairOpt) := ice_trigger_connectivity_check_on_binding_request s pkt prflx taddr
      let s :=
        match pairOpt with
        | some pid => ice_update_nominated_flag_on_binding_request s msg pid
        | none => s
      let respOut : List IceOutput :=
        match pkt.socketKind with
        | .other => []
        | _ => [.bindingResponse pkt.srcAddr]
      let (s, couts) := ice_conclude_processing s time
      (s, respOut ++ couts)

/-- `ice_handle_received_binding_response`: match the pair by transaction id
(drop when unknown), check symmetric addresses (failing the pair on
mismatch), check response attributes, then discover a peer-reflexive local
candidate, construct the valid pair, update pair states and nomination, and
conclude. -/
def ice_handle_received_binding_response (s : IceState) (msg : StunResponseMsg)
    (pkt : PacketInfo) (time : Nat) : IceState × List IceOutput :=
  match (clPairs s).find? (fun p => decide (p.transactionID = msg.trId)) with
  | none => (s, [])
  | some sp =>
    match ice_get_recv_port pkt with
    | none => (s, [])
    | some recvport =>
      if responseAddressesMismatch s pkt recvport sp then
        ({ s with pairs := updatePair s.pairs sp.pid (fun p => ice_pair_set_state p .failed) },
          [])
      else if ¬(msg.hasUsername && msg.hasFingerprint && msg.hasXorMappedAddress) then
        (s, [])
      else
        let prevState := sp.pstate
        let (s1, prflx) := ice_discover_peer_reflexive_candidate s sp msg
        let (s2, validPidOpt) := ice_construct_valid_pair s1 pkt prflx sp.pid
        let s3 := ice_update_pair_states_on_binding_response s2 sp.pid
        let s4 := ice_update_nominated_flag_on_binding_response s3 validPidOpt sp.pid prevState
        ice_conclude_processing s4 time

/-- `ice_handle_received_error_response`: match the pair by transaction id,
set it Failed; on error 487 switch the session role (based on the pair's role
snapshot), put the pair back to Waiting and queue a triggered check; then
conclude. -/
def ice_handle_received_error_response (s : IceState) (msg : StunErrorMsg)
    (time : Nat) : IceState × List IceOutput :=
  match (clPairs s).find? (fun p => decide (p.transactionID = msg.trId)) with
  | none => (s, [])
  | some p =>
    let s1 := { s with pairs := updatePair s.pairs p.pid (fun q => ice_pair_set_state q .failed) }
    let s2 :=
      if msg.hasErrorCode ∧ msg.errorClass = 4 ∧ msg.errorNumber = 87 then
        let newRole :=
          match p.prole with
          | .controlling => IceRole.controlled
          | .controlled => IceRole.controlling
        let sA := ice_session_set_role s1 newRole
        let sB :=
          { sA with pairs := updatePair sA.pairs p.pid (fun q => ice_pair_set_state q .waiting) }
        { sB with
          triggered_checks_queue :=
            ice_check_list_queue_triggered_check sB.triggered_checks_queue p.pid }
      else s1
    ice_conclude_processing s2 time

/-- `ice_send_keepalive_packets`: a STUN indication over the nominated valid
pair of each registered componentID (`ice_send_indication` only emits on the
RTP/RTCP sockets, componentIDs 1 and 2). -/
def ice_send_keepalive_packets (s : IceState) : List IceOutput :=
  s.componentIDs.filterMap (fun cid =>
    (s.valid_list.find? (fun vp =>
      match findPair s.pairs vp.validId with
      | some p => p.is_nominated && decide (pairLocalComponentID s p = cid)
      | none => false)).bind (fun vp =>
      match findPair s.pairs vp.validId with
      | some p =>
        if pairLocalComponentID s p = 1 ∨ pairLocalComponentID s p = 2 then
          some (.indicationSent p.pid)
        else none
      | none => none))

/-- The retransmission scan of `ice_check_list_process`: every InProgress
pair of the check list whose RTO elapsed is retransmitted. -/
def ice_handle_retransmissions (s : IceState) (time : Nat) :
    IceState × List IceOutput :=
  s.check_list.foldl
    (fun acc pid =>
      match findPair acc.1.pairs pid with
      | none => acc
      | some p =>
        if p.pstate = .inProgress ∧ time - p.transmission_time ≥ p.rto then
          let (s2, o2) := ice_send_binding_request acc.1 pid 0 time
          (s2, acc.2 ++ o2)
        else acc)
    (s, [])

/-- `ice_check_list_process` (5.8): keep-alives when Completed, the
retransmission scan, the Ta pacing guard, one triggered check, else one
ordinary check (Waiting then Frozen, Running only), else conclusion when no
retransmission is pending. -/
def ice_check_list_process (s : IceState) (time freshTid : Nat) :
    IceState × List IceOutput :=
  if s.sstate = .stopped ∨ s.sstate = .failed then (s, [])
  else
    match s.clstate with
    | .failed => (s, [])
    | _ =>
      let ka :=
        if s.clstate = .completed then
          if time - s.keepalive_time ≥ s.keepalive_timeout * 1000 then
            ({ s with keepalive_time := time }, ice_send_keepalive_packets s)
          else (s, ([] : List IceOutput))
        else (s, ([] : List IceOutput))
      let s := ka.1
      let kouts := ka.2
      let rt := ice_handle_retransmissions s time
      let s := rt.1
      let routs := kouts ++ rt.2
      if time - s.ta_time < s.ta then (s, routs)
      else
        let s := { s with ta_time := time }
        match ice_check_list_pop_triggered_check s.triggered_checks_queue with
        | (some pid, q) =>
          let s := { s with triggered_checks_queue := q }
          let r := ice_send_binding_request s pid freshTid time
          (r.1, routs ++ r.2)
        | (none, _) =>
          let ord : Option Nat :=
            if s.clstate = .running then
              match (clPairs s).find? (fun p => decide (p.pstate = .waiting)) with
              | some p => some p.pid
              | none =>
                match (clPairs s).find? (fun p => decide (p.pstate = .frozen)) with
                | some p => some p.pid
                | none => none
            else none
          match ord with
          | some pid =>
            let r := ice_send_binding_request s pid freshTid time
            (r.1, routs ++ r.2)
          | none =>
            let pending := (clPairs s).any (fun p =>
              decide (p.pstate = .inProgress) &&
                decide (p.retransmissions ≤ ICE_MAX_RETRANSMISSIONS))
            if pending then (s, routs)
            else
              let r := ice_conclude_processing s time
              (r.1, routs ++ r.2)

/-- Engine events: delivery of a parsed STUN message (`ice_handle_stun_packet`
dispatch), a scheduler tick, or an externally triggered role change (the
session API, or a role conflict resolved on another media stream of the same
session). -/
inductive IceEvent
  | request (msg : StunRequestMsg) (pkt : PacketInfo) (prflxFoundation : String) (time : Nat)
  | response (msg : StunResponseMsg) (pkt : PacketInfo) (time : Nat)
  | errorResp (msg : StunErrorMsg) (time : Nat)
  | tick (time freshTid : Nat)
  | setRole (role : IceRole)
deriving Repr

/-- One engine step. -/
def step (s : IceState) : IceEvent → IceState × List IceOutput
  | .request msg pkt f time => ice_handle_received_binding_request s msg pkt f time
  | .response msg pkt time => ice_handle_received_binding_response s msg pkt time
  | .errorResp msg time => ice_handle_received_error_response s msg time
  | .tick time freshTid => ice_check_list_process s time freshTid
  | .setRole r => (ice_session_set_role s r, [])

/-- Number of success-callback invocations among outputs. -/
def cbCount (outs : List IceOutput) : Nat :=
  (outs.filter (fun o => decide (o = .successCallback))).length

/-- Run a list of engine events, accumulating the number of success-callback
invocations. -/
def runEvents (s : IceState) : List IceEvent → IceState × Nat
  | [] => (s, 0)
  | e :: es =>
    let r := step s e
    let r2 := runEvents r.1 es
    (r2.1, cbCount r.2 + r2.2)

/-! ### Basic lemmas about the list primitives -/

theorem removeLastN_length (n : Nat) (l : List α) :
    (removeLastN n l).length = l.length - n := by
  induction n generalizing l with
  | zero => simp [removeLastN]
  | succ n ih =>
    simp only [removeLastN, ih, List.length_dropLast]
    omega

theorem mem_insertSortedDescBy (key : α → Nat) (x y : α) (l : List α)
    (h : y ∈ l) : y ∈ insertSortedDescBy key x l := by
  induction l with
  | nil => simp at h
  | cons z zs ih =>
    simp only [insertSortedDescBy]
    by_cases hk : key z ≤ key x
    · simp [hk, h]
    · simp only [hk, if_false, List.mem_cons]
      rcases List.mem_cons.mp h with h1 | h1
      · exact Or.inl h1
      · exact Or.inr (ih h1)

theorem self_mem_insertSortedDescBy (key : α → Nat) (x : α) (l : List α) :
    x ∈ insertSortedDescBy key x l := by
  induction l with
  | nil => simp [insertSortedDescBy]
  | cons z zs ih =>
    simp only [insertSortedDescBy]
    by_cases hk : key z ≤ key x
    · simp [hk]
    · simp only [hk, if_false, List.mem_cons]
      exact Or.inr ih

theorem length_insertSortedDescBy (key : α → Nat) (x : α) (l : List α) :
    (insertSortedDescBy key x l).length = l.length + 1 := by
  induction l with
  | nil => simp [insertSortedDescBy]
  | cons z zs ih =>
    simp only [insertSortedDescBy]
    by_cases hk : key z ≤ key x
    · simp [hk]
    · simp only [hk, if_false, List.length_cons, ih]

theorem updatePair_length (ps : List IceCandidatePair) (pid : Nat)
    (f : IceCandidatePair → IceCandidatePair) :
    (updatePair ps pid f).length = ps.length := by
  simp [updatePair]

theorem updateCandidate_length (cs : List IceCandidate) (cid : Nat)
    (f : IceCandidate → IceCandidate) :
    (updateCandidate cs cid f).length = cs.length := by
  simp [updateCandidate]

theorem mem_updatePair (ps : List IceCandidatePair) (pid : Nat)
    (f : IceCandidatePair → IceCandidatePair) (q : IceCandidatePair)
    (h : q ∈ updatePair ps pid f) :
    ∃ p ∈ ps, q = if p.pid = pid then f p else p := by
  simp only [updatePair, List.mem_map] at h
  rcases h with ⟨p, hp, he⟩
  exact ⟨p, hp, he.symm⟩

theorem findPair_eq_some (ps : List IceCandidatePair) (pid : Nat)
    (p : IceCandidatePair) (h : findPair ps pid = some p) :
    p ∈ ps ∧ p.pid = pid := by
  have h1 := List.find?_some h
  have h2 := List.mem_of_find?_eq_some h
  simp only [decide_eq_true_eq] at h1
  exact ⟨h2, h1⟩

theorem clPairs_find?_some (s : IceState) (pred : IceCandidatePair → Bool)
    (p : IceCandidatePair) (h : (clPairs s).find? pred = some p) :
    p ∈ s.pairs ∧ pred p = true := by
  have h1 := List.find?_some h
  have h2 := List.mem_of_find?_eq_some h
  simp only [clPairs, List.mem_filterMap] at h2
  rcases h2 with ⟨pid, _, hf⟩
  exact ⟨(findPair_eq_some _ _ _ hf).1, h1⟩

/-- Elements of distinct-pid pair pools are determined by their pid. -/
theorem eq_of_mem_of_pid_eq {ps : List IceCandidatePair}
    (hnd : (ps.map (fun p => p.pid)).Nodup) {p q : IceCandidatePair}
    (hp : p ∈ ps) (hq : q ∈ ps) (hpq : p.pid = q.pid) : p = q := by
  induction ps with
  | nil => simp at hp
  | cons r rs ih =>
    simp only [List.map_cons, List.nodup_cons] at hnd
    rcases List.mem_cons.mp hp with hp1 | hp1 <;>
      rcases List.mem_cons.mp hq with hq1 | hq1
    · rw [hp1, hq1]
    · exfalso
      apply hnd.1
      rw [List.mem_map]
      exact ⟨q, hq1, by rw [← hpq, hp1]⟩
    · exfalso
      apply hnd.1
      rw [List.mem_map]
      exact ⟨p, hp1, by rw [hpq, hq1]⟩
    · exact ih hnd.2 hp1 hq1

/-- `ice_pair_set_state` only changes the state and the transaction id. -/
theorem ice_pair_set_state_fields (p : IceCandidatePair) (st : IceCandidatePairState) :
    (ice_pair_set_state p st).pid = p.pid ∧
    (ice_pair_set_state p st).localId = p.localId ∧
    (ice_pair_set_state p st).remoteId = p.remoteId ∧
    (ice_pair_set_state p st).is_nominated = p.is_nominated ∧
    (ice_pair_set_state p st).retransmissions = p.retransmissions ∧
    (ice_pair_set_state p st).priority = p.priority := by
  unfold ice_pair_set_state
  split
  · exact ⟨rfl, rfl, rfl, rfl, rfl, rfl⟩
  · cases st <;> exact ⟨rfl, rfl, rfl, rfl, rfl, rfl⟩

/-- `ice_pair_set_state` reaches the requested state. -/
theorem ice_pair_set_state_pstate (p : IceCandidatePair) (st : IceCandidatePairState) :
    (ice_pair_set_state p st).pstate = st := by
  unfold ice_pair_set_state
  split
  · assumption
  · cases st <;> rfl

/-- Finding the updated pid after an update whose function preserves pids. -/
theorem findPair_updatePair (ps : List IceCandidatePair) (pid : Nat)
    (f : IceCandidatePair → IceCandidatePair)
    (hf : ∀ q, q.pid = pid → (f q).pid = pid) :
    findPair (updatePair ps pid f) pid = (findPair ps pid).map f := by
  induction ps with
  | nil => rfl
  | cons r rs ih =>
    by_cases hr : r.pid = pid
    · simp only [updatePair, List.map_cons, if_pos hr, findPair]
      rw [List.find?_cons_of_pos _ (by simp [hf r hr]),
          List.find?_cons_of_pos _ (by simp [hr])]
      simp
    · simp only [updatePair, List.map_cons, if_neg hr, findPair]
      rw [List.find?_cons_of_neg _ (by simp [hr]),
          List.find?_cons_of_neg _ (by simp [hr])]
      exact ih

theorem findPair_updatePair_ne (ps : List IceCandidatePair) (pid pid' : Nat)
    (f : IceCandidatePair → IceCandidatePair)
    (hf : ∀ q, q.pid = pid → (f q).pid = pid)
    (hne : ¬pid' = pid) :
    findPair (updatePair ps pid f) pid' = findPair ps pid' := by
  induction ps with
  | nil => rfl
  | cons r rs ih =>
    by_cases hr : r.pid = pid
    · have hfr : ¬(f r).pid = pid' := by
        rw [hf r hr]
        exact fun h => hne h.symm
      have hr' : ¬r.pid = pid' := by
        rw [hr]
        exact fun h => hne h.symm
      simp only [updatePair, List.map_cons, if_pos hr, findPair]
      rw [List.find?_cons_of_neg _ (by simp [hfr]),
          List.find?_cons_of_neg _ (by simp [hr'])]
      exact ih
    · by_cases hr' : r.pid = pid'
      · simp only [updatePair, List.map_cons, if_neg hr, findPair]
        rw [List.find?_cons_of_pos _ (by simp [hr']),
            List.find?_cons_of_pos _ (by simp [hr'])]
      · simp only [updatePair, List.map_cons, if_neg hr, findPair]
        rw [List.find?_cons_of_neg _ (by simp [hr']),
            List.find?_cons_of_neg _ (by simp [hr'])]
        exact ih

theorem ice_send_binding_request_frame (s : IceState) (pid tid time : Nat) :
    (ice_send_binding_request s pid tid time).1.local_candidates = s.local_candidates ∧
    (ice_send_binding_request s pid tid time).1.remote_candidates = s.remote_candidates ∧
    (ice_send_binding_request s pid tid time).1.check_list = s.check_list ∧
    (ice_send_binding_request s pid tid time).1.valid_list = s.valid_list ∧
    (ice_send_binding_request s pid tid time).1.componentIDs = s.componentIDs ∧
    (ice_send_binding_request s pid tid time).1.clstate = s.clstate ∧
    (ice_send_binding_request s pid tid time).1.role = s.role ∧
    (ice_send_binding_request s pid tid time).1.max_connectivity_checks =
      s.max_connectivity_checks := by
  rcases h : findPair s.pairs pid with _ | p
  · simp only [ice_send_binding_request, h]
    simp
  · simp only [ice_send_binding_request, h]
    repeat' split
    all_goals simp

/-- Candidate lookups only read the candidate lists. -/
theorem lookupCand_congr (s s' : IceState) (cid : Nat)
    (h1 : s'.local_candidates = s.local_candidates)
    (h2 : s'.remote_candidates = s.remote_candidates) :
    lookupCand s' cid = lookupCand s cid := by
  simp [lookupCand, findCandidate, h1, h2]

/-! ### Concrete states exercising the embedding -/

/-- A fresh session/check list with ufrag "aaaaaaaa" and tie-breaker 10. -/
def demoBase : IceState := initialIceState "aaaaaaaa".toList 10

/-- One local host candidate, two remote candidates with distinct
foundations, paired as the first (and only) check list of the session. -/
def c1State : IceState :=
  let s := demoBase
  let s := (ice_add_local_candidate s "host" "10.0.0.1" 5000 1 none).1
  let s := ice_check_list_compute_candidates_foundations s
  let s := (ice_add_remote_candidate s "host" "10.0.0.2" 6000 1 1000 "f1").1
  let s := (ice_add_remote_candidate s "host" "10.0.0.3" 6000 1 500 "f2").1
  (ice_session_pair_candidates [s]).getD 0 demoBase

/-- One local host candidate and one remote candidate, paired as the first
check list of the session. -/
def onePairState : IceState :=
  let s := demoBase
  let s := (ice_add_local_candidate s "host" "10.0.0.1" 5000 1 none).1
  let s := ice_check_list_compute_candidates_foundations s
  let s := (ice_add_remote_candidate s "host" "10.0.0.2" 6000 1 1000 "f1").1
  (ice_session_pair_candidates [s]).getD 0 demoBase

/-- `onePairState` with the connectivity-check budget lowered to one pair
before pairing (`ice_session_set_max_connectivity_checks`). -/
def c3State : IceState :=
  let s := ice_session_set_max_connectivity_checks demoBase 1
  let s := (ice_add_local_candidate s "host" "10.0.0.1" 5000 1 none).1
  let s := ice_check_list_compute_candidates_foundations s
  let s := (ice_add_remote_candidate s "host" "10.0.0.2" 6000 1 1000 "f1").1
  (ice_session_pair_candidates [s]).getD 0 demoBase

/-- A well-formed binding request from an unknown source (carrying
ICE-CONTROLLED, so a controlling receiver has no role conflict). -/
def demoReqMsg : StunRequestMsg :=
  { hasMessageIntegrity := true
    hasUsername := true
    hasFingerprint := true
    hasPriority := true
    hasIceControlling := false
    hasIceControlled := true
    hasUseCandidate := false
    iceControllingVal := 0
    iceControlledVal := 20
    username := "aaaaaaaa:bbbbbbbb".toList
    priority := 777
    trId := 99 }

/-- Packet delivery of `demoReqMsg`: RTP socket of the candidate
10.0.0.1:5000, source 10.0.0.9:7000 (no such remote candidate). -/
def demoReqPkt : PacketInfo :=
  { socketKind := .rtp
    srcAddr := { ip := "10.0.0.9", port := 7000 }
    dstIp := "10.0.0.1"
    rtpLocPort := 5000
    integrityOk := true }

/-- `c3State` after the binding request from the unknown source triggered a
check on a freshly created pair. -/
def c3AfterRequest : IceState :=
  (step c3State (.request demoReqMsg demoReqPkt "pf" 100)).1

/-! ### C1 -/

set_option maxRecDepth 100000 in
/-- C1: evidence against the claim, evaluated on the code.  After pairing the
first check list of a session holding two pairs with two distinct pair
foundations, only the single head pair of the check list is Waiting and the
other pair stays Frozen, although the claim requires one Waiting
representative per distinct foundation (here two).  The fold of
`ice_find_lowest_componentid_pair_with_specified_foundation` never reads the
foundations, and its accumulator advances only on strictly lower componentID
combined with strictly higher priority. -/
theorem C1_single_pair_set_waiting :
    c1State.foundations = [("1", "f1"), ("1", "f2")] ∧
    c1State.check_list = [0, 1] ∧
    c1State.pairs.map (fun p => p.pstate) = [.waiting, .frozen] ∧
    (c1State.pairs.filter (fun p => decide (p.pstate = .waiting))).length = 1 := by
  refine ⟨?_, ?_, ?_, ?_⟩ <;> rfl

/-! ### C2 -/

/-- A binding request carrying ICE-CONTROLLED with tie-breaker value 10. -/
def c2ControlledMsg : StunRequestMsg :=
  { demoReqMsg with hasIceControlled := true, iceControlledVal := 10 }

/-- C2: counterexample to the claim as stated.  A Controlled agent with
tie-breaker 20 receiving ICE-CONTROLLED with tie-breaker 10 has the greater
tie-breaker; the claim ("the side with the lesser tie-breaker yields and
switches role; the other replies (4,87)") requires it to reply (4,87), but
the code switches it to the Controlling role and continues. -/
theorem C2_controlled_greater_tiebreaker_switches :
    ice_check_received_binding_request_role_conflict .controlled 20 c2ControlledMsg =
      .continueWith .controlling ∧
    ¬ice_check_received_binding_request_role_conflict .controlled 20 c2ControlledMsg =
      .reply487 := by
  exact ⟨rfl, by decide⟩

/-- C2 (amended): on a role conflict, a Controlling agent receiving
ICE-CONTROLLING replies (4,87) and drops when its tie-breaker is greater or
equal, else switches to Controlled; a Controlled agent receiving
ICE-CONTROLLED switches to Controlling when its tie-breaker is greater or
equal, else replies (4,87) and drops. -/
theorem C2_role_conflict_behaviour (tie : Nat) (msg : StunRequestMsg) :
    (msg.hasIceControlling = true →
      ice_check_received_binding_request_role_conflict .controlling tie msg =
        (if tie ≥ msg.iceControllingVal then .reply487 else .continueWith .controlled)) ∧
    (msg.hasIceControlled = true →
      ice_check_received_binding_request_role_conflict .controlled tie msg =
        (if tie ≥ msg.iceControlledVal then .continueWith .controlling else .reply487)) := by
  constructor
  · intro h
    simp [ice_check_received_binding_request_role_conflict, h]
  · intro h
    simp [ice_check_received_binding_request_role_conflict, h]

/-- C2 witness: the amended behaviour evaluated at tie-breaker 20 against
remote tie-breaker 10 on the controlling side. -/
theorem C2_role_conflict_behaviour_witness :
    ice_check_received_binding_request_role_conflict .controlling 20
      { demoReqMsg with hasIceControlling := true, iceControllingVal := 10 } =
      .reply487 := by
  have h := (C2_role_conflict_behaviour 20
    { demoReqMsg with hasIceControlling := true, iceControllingVal := 10 }).1 rfl
  simpa using h

/-! ### C3 -/

/-- C3 (amended): immediately after `ice_prune_candidate_pairs` the check
list never exceeds `max_connectivity_checks` (the tail loop drops the
lowest-priority excess). -/
theorem C3_prune_bounds_check_list (s : IceState) :
    (ice_prune_candidate_pairs s).check_list.length ≤ s.max_connectivity_checks := by
  simp only [ice_prune_candidate_pairs]
  split
  · rw [removeLastN_length]
    omega
  · omega

/-- C3: counterexample to the claimed invariant.  With the budget set to one
connectivity check, the pruned check list holds one pair, and the pair
created by the triggered check on a binding request from an unknown source is
priority-inserted into the check list without re-checking the limit, leaving
two pairs in a one-pair-budget check list. -/
theorem C3_trigger_exceeds_limit :
    c3State.max_connectivity_checks = 1 ∧
    c3State.check_list.length = 1 ∧
    c3AfterRequest.max_connectivity_checks = 1 ∧
    c3AfterRequest.check_list.length = 2 := by
  refine ⟨?_, ?_, ?_, ?_⟩ <;> rfl

/-! ### C6 -/

/-- C6: evidence against the claim, evaluated on the code.  With local ufrag
"aaaaaaaa", a USERNAME whose part left of the first colon is the strict
prefix "aaaa" is accepted by `ice_check_received_binding_request_username`
(the `strncmp` is bounded by the length of the left part only), and the full
request handler replies with a binding success instead of error (4,1),
although the left part differs from the local ufrag. -/
theorem C6_username_prefix_accepted :
    strchrIdx "aaaa:bbbbbbbb".toList ':' = some 4 ∧
    ¬("aaaa:bbbbbbbb".toList.take 4 = "aaaaaaaa".toList) ∧
    ice_check_received_binding_request_username "aaaaaaaa".toList
      "aaaa:bbbbbbbb".toList = true ∧
    (step onePairState
      (.request { demoReqMsg with username := "aaaa:bbbbbbbb".toList }
        demoReqPkt "pf" 100)).2 =
      [.bindingResponse { ip := "10.0.0.9", port := 7000 }] := by
  refine ⟨rfl, by decide, rfl, ?_⟩
  rfl

/-! ### C9 -/

/-- Spec wording: the priority of the candidate owned by the Controlling
side. -/
def controllingSidePriority (role : IceRole) (localPrio remotePrio : Nat) : Nat :=
  match role with
  | .controlling => localPrio
  | .controlled => remotePrio

/-- Spec wording: the priority of the candidate owned by the Controlled
side. -/
def controlledSidePriority (role : IceRole) (localPrio remotePrio : Nat) : Nat :=
  match role with
  | .controlling => remotePrio
  | .controlled => localPrio

/-- Spec wording of the pair priority formula:
`(min(G,D) << 32) | (max(G,D) << 1) | (1 if G > D else 0)`. -/
def pairPrioritySpec (G D : Nat) : Nat :=
  ((min G D) <<< 32) ||| ((max G D) <<< 1) ||| (if G > D then 1 else 0)

/-- C9: `ice_compute_pair_priority` computes exactly the claimed formula with
G the priority of the candidate owned by the side that is Controlling under
the role current at computation time, and D the other side's; and this is the
priority stored on every pair built by `ice_pair_new`. -/
theorem C9_pair_priority_formula (role : IceRole) (lp rp : Nat) (s : IceState)
    (lc rc : IceCandidate) :
    ice_compute_pair_priority lp rp role =
      pairPrioritySpec (controllingSidePriority role lp rp)
        (controlledSidePriority role lp rp) ∧
    (ice_pair_new s lc rc).2.priority =
      ice_compute_pair_priority lc.priority rc.priority s.role := by
  constructor
  · cases role <;> rfl
  · rfl

/-! ### C10 -/

/-- C10: a candidate list already holding `ICE_MAX_NB_CANDIDATES` (10)
candidates refuses the addition — `ice_add_local_candidate` and
`ice_add_remote_candidate` return NULL and leave the state unchanged,
whatever the componentID — and an addition never pushes a list beyond 10
candidates. -/
theorem C10_candidate_list_limit (s : IceState) (t ip : String)
    (port cid prio : Nat) (base : Option Nat) (fnd : String) :
    (s.local_candidates.length ≥ ICE_MAX_NB_CANDIDATES →
      ice_add_local_candidate s t ip port cid base = (s, none)) ∧
    (s.remote_candidates.length ≥ ICE_MAX_NB_CANDIDATES →
      ice_add_remote_candidate s t ip port cid prio fnd = (s, none)) ∧
    ((ice_add_local_candidate s t ip port cid base).1.local_candidates.length ≤
      max s.local_candidates.length ICE_MAX_NB_CANDIDATES) ∧
    ((ice_add_remote_candidate s t ip port cid prio fnd).1.remote_candidates.length ≤
      max s.remote_candidates.length ICE_MAX_NB_CANDIDATES) := by
  refine ⟨?_, ?_, ?_, ?_⟩
  · intro h
    simp [ice_add_local_candidate, ice_add_candidate, h]
  · intro h
    simp [ice_add_remote_candidate, ice_add_candidate, h]
  · by_cases h : s.local_candidates.length ≥ ICE_MAX_NB_CANDIDATES
    · simp [ice_add_local_candidate, ice_add_candidate, h]
    · cases hp : parseCandidateType t
      · simp [ice_add_local_candidate, ice_add_candidate, h, hp]
      · simp [ice_add_local_candidate, ice_add_candidate, h, hp, updateCandidate_length]
        have h10 : ICE_MAX_NB_CANDIDATES = 10 := rfl
        omega
  · by_cases h : s.remote_candidates.length ≥ ICE_MAX_NB_CANDIDATES
    · simp [ice_add_remote_candidate, ice_add_candidate, h]
    · cases hp : parseCandidateType t
      · simp [ice_add_remote_candidate, ice_add_candidate, h, hp]
      · simp [ice_add_remote_candidate, ice_add_candidate, h, hp, updateCandidate_length]
        have h10 : ICE_MAX_NB_CANDIDATES = 10 := rfl
        omega

/-- Ten host candidates for the C10 witness. -/
def tenCandidates : List IceCandidate :=
  (List.range 10).map (fun i =>
    { cid := i
      ctype := .host
      taddr := { ip := "10.0.0.1", port := 5000 + i }
      componentID := 1
      priority := 100
      foundation := "1"
      base := some i
      is_default := false })

/-- A state whose local candidate list is full. -/
def tenCandState : IceState :=
  { demoBase with local_candidates := tenCandidates, next_cid := 10 }

/-- C10 witness: adding an eleventh local candidate to a full list fails and
leaves the state unchanged. -/
theorem C10_candidate_list_limit_witness :
    ice_add_local_candidate tenCandState "host" "10.0.0.99" 9000 7 none =
      (tenCandState, none) :=
  (C10_candidate_list_limit tenCandState "host" "10.0.0.99" 9000 7 0 none "f").1
    (by decide)

/-! ### C5 -/

instance : Inhabited IceCandidatePair :=
  ⟨{ pid := 0, localId := 0, remoteId := 0, pstate := .frozen, is_default := false,
     is_nominated := false, wait_transaction_timeout := false, transactionID := 0,
     rto := 0, retransmissions := 0, prole := .controlling, priority := 0,
     transmission_time := 0 }⟩

/-- C5: a binding success response matched to a pair by transaction id whose
source or destination address does not match the pair (symmetric-address
check of 7.1.3.1) sets exactly that pair to Failed and stops: the result
state differs from the input only by that single pair update, the valid list
and check list are untouched, every other pair is unchanged, and nothing is
emitted. -/
theorem C5_nonsymmetric_response_fails_pair (s : IceState) (msg : StunResponseMsg)
    (pkt : PacketInfo) (time : Nat) (sp : IceCandidatePair) (recvport : Nat)
    (hfind : (clPairs s).find? (fun p => decide (p.transactionID = msg.trId)) = some sp)
    (hport : ice_get_recv_port pkt = some recvport)
    (hmm : responseAddressesMismatch s pkt recvport sp = true) :
    ice_handle_received_binding_response s msg pkt time =
      ({ s with
          pairs := updatePair s.pairs sp.pid (fun p => ice_pair_set_state p .failed) },
        []) ∧
    (ice_handle_received_binding_response s msg pkt time).1.valid_list = s.valid_list ∧
    (ice_handle_received_binding_response s msg pkt time).1.check_list = s.check_list ∧
    ∀ q ∈ (ice_handle_received_binding_response s msg pkt time).1.pairs,
      ¬q.pid = sp.pid → q ∈ s.pairs := by
  have hres : ice_handle_received_binding_response s msg pkt time =
      ({ s with
          pairs := updatePair s.pairs sp.pid (fun p => ice_pair_set_state p .failed) },
        []) := by
    simp only [ice_handle_received_binding_response, hfind, hport, hmm, if_true]
  refine ⟨hres, by rw [hres], by rw [hres], ?_⟩
  rw [hres]
  intro q hq hne
  rcases mem_updatePair _ _ _ _ hq with ⟨p, hp, he⟩
  by_cases hpid : p.pid = sp.pid
  · exfalso
    apply hne
    rw [he, if_pos hpid, (ice_pair_set_state_fields p .failed).1, hpid]
  · rw [he, if_neg hpid]
    exact hp

/-- An ill-sourced binding success response for `onePairState`: transaction
id 0 matches the Waiting pair, but the source is not the pair's remote. -/
def c5Msg : StunResponseMsg :=
  { trId := 0, hasUsername := true, hasFingerprint := true,
    hasXorMappedAddress := true, xorMappedAddress := { ip := "10.0.0.1", port := 5000 } }

/-- The delivery of `c5Msg` from the wrong source address. -/
def c5Pkt : PacketInfo :=
  { socketKind := .rtp, srcAddr := { ip := "10.9.9.9", port := 6000 },
    dstIp := "10.0.0.1", rtpLocPort := 5000, integrityOk := true }

/-- The pair of `onePairState` matched by the transaction id of `c5Msg`. -/
def c5Sp : IceCandidatePair :=
  ((clPairs onePairState).find? (fun p => decide (p.transactionID = c5Msg.trId))).getD
    default

set_option maxRecDepth 100000 in
/-- C5 witness: the non-symmetric response applied to the concrete one-pair
state fails exactly the matched pair. -/
theorem C5_nonsymmetric_response_fails_pair_witness :
    ice_handle_received_binding_response onePairState c5Msg c5Pkt 50 =
      ({ onePairState with
          pairs := updatePair onePairState.pairs c5Sp.pid
            (fun p => ice_pair_set_state p .failed) },
        []) :=
  (C5_nonsymmetric_response_fails_pair onePairState c5Msg c5Pkt 50 c5Sp 5000
    (by rfl) (by rfl) (by rfl)).1


/-! ### C4 -/

/-- Forced retransmissions: apply `ice_send_binding_request` to the same pair
k times (as the scheduler does on successive expired RTOs). -/
def iterateForcedRetransmit (s : IceState) (pid time : Nat) : Nat → IceState
  | 0 => s
  | n + 1 => (ice_send_binding_request (iterateForcedRetransmit s pid time n) pid 0 time).1

/-- The pair value after k forced retransmissions of an InProgress pair. -/
def forcedRetransmitPair (p : IceCandidatePair) (time : Nat) : Nat → IceCandidatePair
  | 0 => p
  | k + 1 =>
    { p with
      retransmissions := p.retransmissions + (k + 1)
      rto := p.rto * 2 ^ (k + 1)
      transmission_time := time }

/-- A retransmission step of an InProgress pair below the limit: increment
the count, double the RTO, stamp the transmission time, resend with the
stored transaction id. -/
theorem send_retransmit_step (s : IceState) (pid tid time : Nat) (p : IceCandidatePair)
    (hfind : findPair s.pairs pid = some p)
    (hstate : p.pstate = .inProgress)
    (hwait : p.wait_transaction_timeout = false)
    (hcid : (lookupCand s p.localId).map (fun c => c.componentID) = some 1 ∨
            (lookupCand s p.localId).map (fun c => c.componentID) = some 2)
    (hlt : p.retransmissions + 1 ≤ ICE_MAX_RETRANSMISSIONS) :
    ice_send_binding_request s pid tid time =
      ({ s with
          pairs := updatePair s.pairs pid (fun _ =>
            { p with
              retransmissions := p.retransmissions + 1
              rto := p.rto * 2
              transmission_time := time }) },
        [.requestSent pid p.transactionID]) := by
  have hgt : ¬(p.retransmissions + 1 > ICE_MAX_RETRANSMISSIONS) := by omega
  simp only [ice_send_binding_request, hfind]
  rw [if_neg (by simp [hwait]), if_neg (by simp [hgt]), if_pos hstate]
  simp only [hstate]
  rw [if_pos (by simpa using hcid)]
  simp

theorem send_retransmit_exhausted (s : IceState) (pid tid time : Nat) (p : IceCandidatePair)
    (hfind : findPair s.pairs pid = some p)
    (hstate : p.pstate = .inProgress)
    (hwait : p.wait_transaction_timeout = false)
    (hge : p.retransmissions + 1 > ICE_MAX_RETRANSMISSIONS) :
    ice_send_binding_request s pid tid time =
      ({ s with
          pairs := updatePair s.pairs pid (fun _ =>
            ice_pair_set_state { p with retransmissions := p.retransmissions + 1 } .failed) },
        []) := by
  simp only [ice_send_binding_request, hfind]
  rw [if_neg (by simp [hwait]), if_pos (by exact ⟨hstate, hge⟩)]

/-- The pair after k forced retransmissions (k below the limit) of a fresh
InProgress pair is InProgress with count k and doubled RTO, and the candidate
lists are untouched. -/
theorem iterateForcedRetransmit_spec (s : IceState) (pid time : Nat) (p : IceCandidatePair)
    (hfind : findPair s.pairs pid = some p)
    (hstate : p.pstate = .inProgress)
    (hwait : p.wait_transaction_timeout = false)
    (hcid : (lookupCand s p.localId).map (fun c => c.componentID) = some 1 ∨
            (lookupCand s p.localId).map (fun c => c.componentID) = some 2)
    (h0 : p.retransmissions = 0) :
    ∀ k, k ≤ ICE_MAX_RETRANSMISSIONS →
      findPair (iterateForcedRetransmit s pid time k).pairs pid = some (forcedRetransmitPair p time k) ∧
      (iterateForcedRetransmit s pid time k).local_candidates = s.local_candidates ∧
      (iterateForcedRetransmit s pid time k).remote_candidates = s.remote_candidates := by
  intro k
  induction k with
  | zero =>
    intro _
    exact ⟨by simpa [iterateForcedRetransmit, forcedRetransmitPair] using hfind, rfl, rfl⟩
  | succ k ih =>
    intro hk
    obtain ⟨hf, hlc, hrc⟩ := ih (Nat.le_of_succ_le hk)
    have hppid : (forcedRetransmitPair p time k).pid = pid := by
      have := (findPair_eq_some _ _ _ hf).2
      exact this
    have hpk_state : (forcedRetransmitPair p time k).pstate = .inProgress := by
      cases k <;> simpa [forcedRetransmitPair] using hstate
    have hpk_wait : (forcedRetransmitPair p time k).wait_transaction_timeout = false := by
      cases k <;> simpa [forcedRetransmitPair] using hwait
    have hpk_local : (forcedRetransmitPair p time k).localId = p.localId := by
      cases k <;> simp [forcedRetransmitPair]
    have hpk_retr : (forcedRetransmitPair p time k).retransmissions = k := by
      cases k <;> simp [forcedRetransmitPair, h0]
    have hcid' : (lookupCand (iterateForcedRetransmit s pid time k)
          ((forcedRetransmitPair p time k).localId)).map (fun c => c.componentID) = some 1 ∨
        (lookupCand (iterateForcedRetransmit s pid time k)
          ((forcedRetransmitPair p time k).localId)).map (fun c => c.componentID) = some 2 := by
      rw [hpk_local, lookupCand_congr s (iterateForcedRetransmit s pid time k) p.localId hlc hrc]
      exact hcid
    have hstep := send_retransmit_step (iterateForcedRetransmit s pid time k) pid 0 time _ hf hpk_state
      hpk_wait hcid' (by rw [hpk_retr]; omega)
    have hiter : iterateForcedRetransmit s pid time (k + 1) =
        (ice_send_binding_request (iterateForcedRetransmit s pid time k) pid 0 time).1 := rfl
    rw [hiter, hstep]
    refine ⟨?_, by simpa using hlc, by simpa using hrc⟩
    dsimp only
    rw [findPair_updatePair _ _ _ (fun q hq => by simpa using hppid), hf]
    show some _ = some _
    congr 1
    cases k with
    | zero =>
      simp only [forcedRetransmitPair, IceCandidatePair.mk.injEq]
      refine ⟨?_, ?_, ?_, ?_, ?_, ?_, ?_, ?_, ?_, ?_, ?_, ?_, ?_⟩ <;>
        first | rfl | ring | omega
    | succ j =>
      simp only [forcedRetransmitPair, IceCandidatePair.mk.injEq]
      refine ⟨?_, ?_, ?_, ?_, ?_, ?_, ?_, ?_, ?_, ?_, ?_, ?_, ?_⟩ <;>
        first | rfl | ring | omega

/-- C4: for an InProgress pair (not flagged wait-transaction-timeout, on the
RTP or RTCP socket): a retransmission attempt beyond `ICE_MAX_RETRANSMISSIONS`
(7) sets the pair to Failed and sends nothing; below the limit each
retransmission increments the count, doubles the RTO and resends with the
stored transaction id; and starting from a fresh transmission, the pair is
still InProgress with count k after k ≤ 7 forced retransmissions and Failed
after the 8th attempt, so at most 7 retransmissions are ever sent. -/
theorem C4_retransmission_terminates (s : IceState) (pid tid time : Nat)
    (p : IceCandidatePair)
    (hfind : findPair s.pairs pid = some p)
    (hstate : p.pstate = .inProgress)
    (hwait : p.wait_transaction_timeout = false)
    (hcid : (lookupCand s p.localId).map (fun c => c.componentID) = some 1 ∨
            (lookupCand s p.localId).map (fun c => c.componentID) = some 2) :
    (p.retransmissions + 1 > ICE_MAX_RETRANSMISSIONS →
      ((findPair (ice_send_binding_request s pid tid time).1.pairs pid).map
          (fun q => q.pstate) = some .failed ∧
        (ice_send_binding_request s pid tid time).2 = [])) ∧
    (p.retransmissions + 1 ≤ ICE_MAX_RETRANSMISSIONS →
      (findPair (ice_send_binding_request s pid tid time).1.pairs pid =
        some { p with
               retransmissions := p.retransmissions + 1
               rto := p.rto * 2
               transmission_time := time } ∧
       (ice_send_binding_request s pid tid time).2 = [.requestSent pid p.transactionID])) ∧
    (p.retransmissions = 0 →
      (∀ k, k ≤ ICE_MAX_RETRANSMISSIONS →
        (findPair (iterateForcedRetransmit s pid time k).pairs pid).map
            (fun q => (q.pstate, q.retransmissions, q.rto)) =
          some (.inProgress, k, p.rto * 2 ^ k)) ∧
      (findPair (iterateForcedRetransmit s pid time (ICE_MAX_RETRANSMISSIONS + 1)).pairs pid).map
          (fun q => q.pstate) = some .failed) := by
  have hpid : p.pid = pid := (findPair_eq_some _ _ _ hfind).2
  refine ⟨?_, ?_, ?_⟩
  · intro hge
    rw [send_retransmit_exhausted s pid tid time p hfind hstate hwait hge]
    dsimp only
    rw [findPair_updatePair _ _ _ (fun q hq =>
      ((ice_pair_set_state_fields { p with retransmissions := p.retransmissions + 1 }
        .failed).1).trans hpid), hfind]
    refine ⟨?_, rfl⟩
    simp [ice_pair_set_state_pstate]
  · intro hlt
    rw [send_retransmit_step s pid tid time p hfind hstate hwait hcid hlt]
    dsimp only
    rw [findPair_updatePair _ _ _ (fun q hq => by simpa using hpid), hfind]
    exact ⟨rfl, rfl⟩
  · intro h0
    have hspec := iterateForcedRetransmit_spec s pid time p hfind hstate hwait hcid h0
    constructor
    · intro k hk
      obtain ⟨hf, _, _⟩ := hspec k hk
      rw [hf]
      have h1 : (forcedRetransmitPair p time k).pstate = .inProgress := by
        cases k <;> simpa [forcedRetransmitPair] using hstate
      have h2 : (forcedRetransmitPair p time k).retransmissions = k := by
        cases k <;> simp [forcedRetransmitPair, h0]
      have h3 : (forcedRetransmitPair p time k).rto = p.rto * 2 ^ k := by
        cases k <;> simp [forcedRetransmitPair]
      simp [h1, h2, h3]
    · obtain ⟨hf, hlc, hrc⟩ := hspec ICE_MAX_RETRANSMISSIONS (le_refl _)
      have h1 : (forcedRetransmitPair p time ICE_MAX_RETRANSMISSIONS).pstate = .inProgress := by
        simpa [forcedRetransmitPair, ICE_MAX_RETRANSMISSIONS] using hstate
      have h2 : (forcedRetransmitPair p time ICE_MAX_RETRANSMISSIONS).wait_transaction_timeout = false := by
        simpa [forcedRetransmitPair, ICE_MAX_RETRANSMISSIONS] using hwait
      have h3 : (forcedRetransmitPair p time ICE_MAX_RETRANSMISSIONS).retransmissions + 1 >
          ICE_MAX_RETRANSMISSIONS := by
        simp [forcedRetransmitPair, ICE_MAX_RETRANSMISSIONS, h0]
      have hppid : (forcedRetransmitPair p time ICE_MAX_RETRANSMISSIONS).pid = pid :=
        (findPair_eq_some _ _ _ hf).2
      have hstep := send_retransmit_exhausted (iterateForcedRetransmit s pid time ICE_MAX_RETRANSMISSIONS)
        pid 0 time _ hf h1 h2 h3
      have hiter : iterateForcedRetransmit s pid time (ICE_MAX_RETRANSMISSIONS + 1) =
          (ice_send_binding_request (iterateForcedRetransmit s pid time ICE_MAX_RETRANSMISSIONS) pid 0 time).1 := rfl
      rw [hiter, hstep]
      dsimp only
      rw [findPair_updatePair _ _ _ (fun q hq =>
        ((ice_pair_set_state_fields
          { forcedRetransmitPair p time ICE_MAX_RETRANSMISSIONS with
            retransmissions :=
              (forcedRetransmitPair p time ICE_MAX_RETRANSMISSIONS).retransmissions + 1 }
          .failed).1).trans hppid), hf]
      simp [ice_pair_set_state_pstate]

/-- `onePairState` after one scheduler tick: the single Waiting pair was sent
and is InProgress with transaction id 555. -/
def c4State : IceState := (step onePairState (.tick 100 555)).1

/-- The InProgress pair of `c4State`. -/
def c4Pair : IceCandidatePair := (findPair c4State.pairs 0).getD default

set_option maxRecDepth 100000 in
/-- C4 witness: the concrete InProgress pair of `c4State` is Failed after the
eighth forced retransmission attempt. -/
theorem C4_retransmission_terminates_witness :
    (findPair (iterateForcedRetransmit c4State 0 200 (ICE_MAX_RETRANSMISSIONS + 1)).pairs 0).map
      (fun q => q.pstate) = some .failed :=
  ((C4_retransmission_terminates c4State 0 555 200 c4Pair (by rfl) (by rfl) (by rfl)
    (Or.inl (by rfl))).2.2 (by rfl)).2


/-! ### C7: transaction-id lifecycle invariant -/

/-- The per-pair transaction-id discipline: a Waiting or Failed pair has a
cleared (zero) transaction id, and a Succeeded pair has a nonzero one. -/
def pairOK (p : IceCandidatePair) : Prop :=
  ((p.pstate = .waiting ∨ p.pstate = .failed) → p.transactionID = 0) ∧
  (p.pstate = .succeeded → ¬p.transactionID = 0)

/-- The discipline over a pair pool. -/
def pairsOK (ps : List IceCandidatePair) : Prop := ∀ p ∈ ps, pairOK p

/-- Well-formedness of the pair pool: pair ids are distinct and below the
allocator (heap pointers are distinct, and fresh allocations are fresh). -/
def StateWF (s : IceState) : Prop :=
  (s.pairs.map (fun p => p.pid)).Nodup ∧ ∀ p ∈ s.pairs, p.pid < s.next_pid

theorem pairOK_set_state (p : IceCandidatePair) (st : IceCandidatePairState)
    (hp : pairOK p) (hsucc : st = .succeeded → ¬p.transactionID = 0) :
    pairOK (ice_pair_set_state p st) := by
  unfold ice_pair_set_state
  split
  · exact hp
  · rename_i hne
    cases st <;> simp [pairOK] <;> try exact hsucc rfl
  
theorem pairOK_pair_new (s : IceState) (lc rc : IceCandidate) :
    pairOK (ice_pair_new s lc rc).2 := by
  simp [ice_pair_new, pairOK]

theorem pairsOK_updatePair (ps : List IceCandidatePair) (pid : Nat)
    (f : IceCandidatePair → IceCandidatePair) (hok : pairsOK ps)
    (hf : ∀ p ∈ ps, p.pid = pid → pairOK (f p)) :
    pairsOK (updatePair ps pid f) := by
  intro q hq
  rcases mem_updatePair _ _ _ _ hq with ⟨p, hp, he⟩
  by_cases hpid : p.pid = pid
  · rw [he, if_pos hpid]
    exact hf p hp hpid
  · rw [he, if_neg hpid]
    exact hok p hp

theorem pairsOK_map (ps : List IceCandidatePair)
    (g : IceCandidatePair → IceCandidatePair) (hok : pairsOK ps)
    (hg : ∀ p ∈ ps, pairOK p → pairOK (g p)) :
    pairsOK (ps.map g) := by
  intro q hq
  rcases List.mem_map.mp hq with ⟨p, hp, he⟩
  exact he ▸ hg p hp (hok p hp)

theorem pairsOK_append (ps : List IceCandidatePair) (p : IceCandidatePair)
    (hok : pairsOK ps) (hp : pairOK p) : pairsOK (ps ++ [p]) := by
  intro q hq
  rcases List.mem_append.mp hq with h | h
  · exact hok q h
  · rw [List.mem_singleton.mp h]
    exact hp

/-- Updates whose function preserves the pid of matching pairs leave the pid
listing unchanged. -/
theorem pidsMap_updatePair (ps : List IceCandidatePair) (pid : Nat)
    (f : IceCandidatePair → IceCandidatePair)
    (hf : ∀ q, q.pid = pid → (f q).pid = pid) :
    (updatePair ps pid f).map (fun p => p.pid) = ps.map (fun p => p.pid) := by
  induction ps with
  | nil => rfl
  | cons r rs ih =>
    simp only [updatePair, List.map_cons] at *
    by_cases hr : r.pid = pid
    · rw [if_pos hr, hf r hr, hr, ih]
    · rw [if_neg hr, ih]


/-- The combined C7 induction invariant. -/
def Inv7 (s : IceState) : Prop := StateWF s ∧ pairsOK s.pairs

/-- `ice_session_set_role` preserves the invariant (it only rewrites pair
priorities). -/
theorem Inv7_set_role (s : IceState) (r : IceRole) (h : Inv7 s) :
    Inv7 (ice_session_set_role s r) := by
  unfold ice_session_set_role
  split
  · exact h
  · obtain ⟨⟨hnd, hbound⟩, hok⟩ := h
    refine ⟨⟨?_, ?_⟩, ?_⟩
    · simpa [List.map_map] using hnd
    · intro p hp
      rcases List.mem_map.mp hp with ⟨q, hq, he⟩
      exact he ▸ hbound q hq
    · apply pairsOK_map _ _ hok
      intro p _ hp
      exact hp

/-- Candidate-list operations do not touch the pair pool or the pair
allocator. -/
theorem ice_add_local_candidate_pairs (s : IceState) (t ip : String)
    (port cid : Nat) (base : Option Nat) :
    (ice_add_local_candidate s t ip port cid base).1.pairs = s.pairs ∧
    (ice_add_local_candidate s t ip port cid base).1.next_pid = s.next_pid := by
  unfold ice_add_local_candidate
  split
  · exact ⟨rfl, rfl⟩
  · exact ⟨rfl, rfl⟩

theorem ice_add_remote_candidate_pairs (s : IceState) (t ip : String)
    (port cid prio : Nat) (fnd : String) :
    (ice_add_remote_candidate s t ip port cid prio fnd).1.pairs = s.pairs ∧
    (ice_add_remote_candidate s t ip port cid prio fnd).1.next_pid = s.next_pid := by
  unfold ice_add_remote_candidate
  split
  · exact ⟨rfl, rfl⟩
  · exact ⟨rfl, rfl⟩

theorem ice_compute_candidate_foundation_pairs (s : IceState) (cid : Nat) :
    (ice_compute_candidate_foundation s cid).pairs = s.pairs ∧
    (ice_compute_candidate_foundation s cid).next_pid = s.next_pid := by
  unfold ice_compute_candidate_foundation
  repeat' split
  all_goals exact ⟨rfl, rfl⟩

theorem ice_learn_peer_reflexive_candidate_pairs (s : IceState) (pkt : PacketInfo)
    (msg : StunRequestMsg) (taddr : IceTransportAddress) (fnd : String) :
    (ice_learn_peer_reflexive_candidate s pkt msg taddr fnd).1.pairs = s.pairs ∧
    (ice_learn_peer_reflexive_candidate s pkt msg taddr fnd).1.next_pid = s.next_pid := by
  unfold ice_learn_peer_reflexive_candidate
  split
  · exact ⟨rfl, rfl⟩
  · split
    · exact ⟨rfl, rfl⟩
    · exact ice_add_remote_candidate_pairs ..

theorem ice_discover_peer_reflexive_candidate_pairs (s : IceState)
    (p : IceCandidatePair) (msg : StunResponseMsg) :
    (ice_discover_peer_reflexive_candidate s p msg).1.pairs = s.pairs ∧
    (ice_discover_peer_reflexive_candidate s p msg).1.next_pid = s.next_pid := by
  rcases hadd : ice_add_local_candidate s "prflx" msg.xorMappedAddress.ip
      msg.xorMappedAddress.port
      (((lookupCand s p.localId).map (fun c => c.componentID)).getD 0) (some p.localId)
    with ⟨s1, candOpt⟩
  have h1 : s1.pairs = s.pairs ∧ s1.next_pid = s.next_pid := by
    have h2 := ice_add_local_candidate_pairs s "prflx" msg.xorMappedAddress.ip
      msg.xorMappedAddress.port
      (((lookupCand s p.localId).map (fun c => c.componentID)).getD 0) (some p.localId)
    rw [hadd] at h2
    exact h2
  unfold ice_discover_peer_reflexive_candidate
  simp only [hadd]
  split
  · exact ⟨rfl, rfl⟩
  · cases candOpt with
    | none => exact h1
    | some cand =>
      have h2 := ice_compute_candidate_foundation_pairs s1 cand.cid
      exact ⟨h2.1.trans h1.1, h2.2.trans h1.2⟩

/-- A state whose pair pool and allocator agree with an invariant state
satisfies the invariant. -/
theorem Inv7_of_pairs_eq (s s2 : IceState) (h : Inv7 s)
    (hp : s2.pairs = s.pairs) (hn : s2.next_pid = s.next_pid) : Inv7 s2 := by
  obtain ⟨⟨hnd, hbound⟩, hok⟩ := h
  refine ⟨⟨by rw [hp]; exact hnd, ?_⟩, by rw [hp]; exact hok⟩
  intro p hpm
  rw [hn]
  exact hbound p (hp ▸ hpm)


theorem pairOK_of_pstate_inProgress (p : IceCandidatePair)
    (h : p.pstate = .inProgress) : pairOK p := by
  simp [pairOK, h]

theorem pairOK_of_pstate_frozen (p : IceCandidatePair)
    (h : p.pstate = .frozen) : pairOK p := by
  simp [pairOK, h]

/-- Replacing the pair a pointer refers to by a well-formed value preserves
the invariant. -/
theorem Inv7_updatePair_const (s s2 : IceState) (pid : Nat) (c : IceCandidatePair)
    (h : Inv7 s) (hc : c.pid = pid) (hcok : pairOK c) (hclt : c.pid < s.next_pid)
    (hp : s2.pairs = updatePair s.pairs pid (fun _ => c))
    (hn : s2.next_pid = s.next_pid) : Inv7 s2 := by
  obtain ⟨⟨hnd, hbound⟩, hok⟩ := h
  refine ⟨⟨?_, ?_⟩, ?_⟩
  · rw [hp, pidsMap_updatePair _ _ _ (fun q _ => hc)]
    exact hnd
  · intro p hpm
    rw [hp] at hpm
    rw [hn]
    rcases mem_updatePair _ _ _ _ hpm with ⟨q, hq, he⟩
    by_cases hqpid : q.pid = pid
    · rw [he, if_pos hqpid]
      exact hclt
    · rw [he, if_neg hqpid]
      exact hbound q hq
  · rw [hp]
    exact pairsOK_updatePair _ _ _ hok (fun p _ _ => hcok)

/-- A pointwise pid-preserving, discipline-preserving update of the pool
preserves the invariant. -/
theorem Inv7_updatePair_pointwise (s s2 : IceState) (pid : Nat)
    (f : IceCandidatePair → IceCandidatePair) (h : Inv7 s)
    (hf_pid : ∀ q, (f q).pid = q.pid)
    (hf_ok : ∀ q ∈ s.pairs, pairOK q → pairOK (f q))
    (hp : s2.pairs = updatePair s.pairs pid f)
    (hn : s2.next_pid = s.next_pid) : Inv7 s2 := by
  obtain ⟨⟨hnd, hbound⟩, hok⟩ := h
  refine ⟨⟨?_, ?_⟩, ?_⟩
  · rw [hp, pidsMap_updatePair _ _ _ (fun q hq => (hf_pid q).trans hq)]
    exact hnd
  · intro p hpm
    rw [hp] at hpm
    rw [hn]
    rcases mem_updatePair _ _ _ _ hpm with ⟨q, hq, he⟩
    by_cases hqpid : q.pid = pid
    · rw [he, if_pos hqpid]
      rw [hf_pid q]
      exact hbound q hq
    · rw [he, if_neg hqpid]
      exact hbound q hq
  · rw [hp]
    exact pairsOK_updatePair _ _ _ hok (fun p hpm _ => hf_ok p hpm (hok p hpm))

/-- A pointwise pid-preserving, discipline-preserving map of the whole pool
preserves the invariant. -/
theorem Inv7_map (s s2 : IceState) (g : IceCandidatePair → IceCandidatePair)
    (h : Inv7 s) (hg_pid : ∀ p, (g p).pid = p.pid)
    (hg_ok : ∀ p ∈ s.pairs, pairOK p → pairOK (g p))
    (hp : s2.pairs = s.pairs.map g)
    (hn : s2.next_pid = s.next_pid) : Inv7 s2 := by
  obtain ⟨⟨hnd, hbound⟩, hok⟩ := h
  refine ⟨⟨?_, ?_⟩, ?_⟩
  · rw [hp, List.map_map]
    have he : ((fun p => p.pid) ∘ g) = (fun p : IceCandidatePair => p.pid) := by
      funext q
      exact hg_pid q
    rw [he]
    exact hnd
  · intro p hpm
    rw [hp] at hpm
    rw [hn]
    rcases List.mem_map.mp hpm with ⟨q, hq, he⟩
    rw [← he, hg_pid q]
    exact hbound q hq
  · rw [hp]
    exact pairsOK_map _ _ hok hg_ok

/-- Appending a freshly allocated well-formed pair preserves the invariant. -/
theorem Inv7_append_new (s s2 : IceState) (p : IceCandidatePair)
    (h : Inv7 s) (hpid : p.pid = s.next_pid) (hok : pairOK p)
    (hp : s2.pairs = s.pairs ++ [p])
    (hn : s2.next_pid = s.next_pid + 1) : Inv7 s2 := by
  obtain ⟨⟨hnd, hbound⟩, hok0⟩ := h
  refine ⟨⟨?_, ?_⟩, ?_⟩
  · rw [hp, List.map_append]
    refine List.Nodup.append hnd (List.nodup_singleton _) ?_
    intro x hx hy
    simp only [List.map_cons, List.map_nil, List.mem_singleton] at hy
    rcases List.mem_map.mp hx with ⟨q, hq, he⟩
    have := hbound q hq
    omega
  · intro q hqm
    rw [hp] at hqm
    rw [hn]
    rcases List.mem_append.mp hqm with hq | hq
    · have := hbound q hq
      omega
    · rw [List.mem_singleton.mp hq, hpid]
      omega
  · rw [hp]
    exact pairsOK_append _ _ hok0 hok

end Ice

namespace Ice

theorem Inv7_send (s : IceState) (pid tid time : Nat) (h : Inv7 s) :
    Inv7 (ice_send_binding_request s pid tid time).1 := by
  rcases hfind : findPair s.pairs pid with _ | p0
  · simp only [ice_send_binding_request, hfind]
    exact h
  · obtain ⟨hp0mem, hp0pid⟩ := findPair_eq_some _ _ _ hfind
    have hp0lt : p0.pid < s.next_pid := h.1.2 p0 hp0mem
    have hp0ok : pairOK p0 := h.2 p0 hp0mem
    unfold ice_send_binding_request
    simp only [hfind]
    split
    · -- wait_transaction_timeout branch
      refine Inv7_updatePair_const s _ pid _ h ?_ ?_ ?_ rfl rfl
      · exact (ice_pair_set_state_fields _ _).1.trans hp0pid
      · exact pairOK_set_state _ _ hp0ok (by intro hst; cases hst)
      · rw [(ice_pair_set_state_fields _ _).1]
        exact hp0lt
    · split
      · -- retransmission exhausted branch
        refine Inv7_updatePair_const s _ pid _ h ?_ ?_ ?_ rfl rfl
        · exact (ice_pair_set_state_fields _ _).1.trans hp0pid
        · exact pairOK_set_state _ _ ⟨hp0ok.1, hp0ok.2⟩ (by intro hst; cases hst)
        · rw [(ice_pair_set_state_fields _ _).1]
          exact hp0lt
      · -- send path
        split
        · -- p0 is InProgress: plain retransmission resend
          rename_i hps
          split
          · refine Inv7_updatePair_const s _ pid _ h ?_ ?_ ?_ rfl rfl
            · simp [hp0pid]
            · exact pairOK_of_pstate_inProgress _ (by simp [hps])
            · simp [hp0lt]
          · refine Inv7_updatePair_const s _ pid _ h ?_ ?_ ?_ rfl rfl
            · simp [hp0pid]
            · exact pairOK_of_pstate_inProgress _ (by simp [hps])
            · simp [hp0lt]
        · -- p0 not InProgress: first transmission
          rename_i hps
          split
          · refine Inv7_updatePair_const s _ pid _ h ?_ ?_ ?_ rfl rfl
            · simp [hps, (ice_pair_set_state_fields _ _).1, hp0pid]
            · refine pairOK_of_pstate_inProgress _ ?_
              simp [hps, ice_pair_set_state_pstate]
            · simp [hps, (ice_pair_set_state_fields _ _).1, hp0lt]
          · refine Inv7_updatePair_const s _ pid _ h ?_ ?_ ?_ rfl rfl
            · exact hp0pid
            · exact hp0ok
            · exact hp0lt

end Ice

namespace Ice

theorem Inv7_foldl {β : Type} (step : IceState → β → IceState) (l : List β) (s : IceState)
    (hstep : ∀ s1 b, Inv7 s1 → Inv7 (step s1 b)) (h : Inv7 s) :
    Inv7 (l.foldl step s) := by
  induction l generalizing s with
  | nil => exact h
  | cons b l ih => exact ih _ (hstep s b h)

theorem Inv7_regular_nomination (s : IceState) (h : Inv7 s) :
    Inv7 (ice_perform_regular_nomination s) := by
  unfold ice_perform_regular_nomination
  refine Inv7_foldl _ _ _ ?_ h
  intro s1 vp h1
  cases hf : findPair s1.pairs vp.validId with
  | none => simpa [hf] using h1
  | some vpair =>
    simp only [hf]
    split
    · refine Inv7_updatePair_pointwise s1 _ vp.generatedFromId
        (fun p => { p with is_nominated := true }) h1 (fun q => rfl) ?_ rfl rfl
      intro q _ hqok
      exact hqok
    · exact h1

theorem Inv7_conclude_wfip (s : IceState) (h : Inv7 s) :
    Inv7 (ice_conclude_waiting_frozen_and_inprogress_pairs s) := by
  unfold ice_conclude_waiting_frozen_and_inprogress_pairs
  refine Inv7_foldl _ _ _ ?_ h
  intro s1 vp h1
  cases hf : findPair s1.pairs vp.validId with
  | none => simpa [hf] using h1
  | some vpair =>
    simp only [hf]
    split
    · have h2 : Inv7 { s1 with
          check_list := ice_remove_waiting_and_frozen_pairs_from_list s1 s1.check_list
            (pairLocalComponentID s1 vpair)
          triggered_checks_queue := ice_remove_waiting_and_frozen_pairs_from_list s1
            s1.triggered_checks_queue (pairLocalComponentID s1 vpair) } :=
        Inv7_of_pairs_eq s1 _ h1 rfl rfl
      refine Inv7_map _ _ _ h2 ?_ ?_ rfl rfl
      · intro q
        split <;> rfl
      · intro q _ hqok
        split
        · exact hqok
        · exact hqok
    · exact h1

theorem Inv7_conclude (s : IceState) (time : Nat) (h : Inv7 s) :
    Inv7 (ice_conclude_processing s time).1 := by
  have h1 : Inv7 (if s.role = .controlling then ice_perform_regular_nomination s else s) := by
    split
    · exact Inv7_regular_nomination s h
    · exact h
  have h2 := Inv7_conclude_wfip _ h1
  simp only [ice_conclude_processing]
  generalize hX : ice_conclude_waiting_frozen_and_inprogress_pairs
      (if s.role = IceRole.controlling then ice_perform_regular_nomination s else s) = X at h2 ⊢
  split
  · split
    · exact Inv7_of_pairs_eq _ _ h2 rfl rfl
    · exact h2
  · split
    · split
      · exact Inv7_of_pairs_eq _ _ h2 rfl rfl
      · exact h2
    · exact h2

theorem Inv7_learn (s : IceState) (pkt : PacketInfo) (msg : StunRequestMsg)
    (taddr : IceTransportAddress) (fnd : String) (h : Inv7 s) :
    Inv7 (ice_learn_peer_reflexive_candidate s pkt msg taddr fnd).1 := by
  have hfr := ice_learn_peer_reflexive_candidate_pairs s pkt msg taddr fnd
  exact Inv7_of_pairs_eq s _ h hfr.1 hfr.2

theorem Inv7_trigger_some_branch (s : IceState) (p : IceCandidatePair) (h : Inv7 s) :
    Inv7 (if p.pstate = .waiting ∨ p.pstate = .frozen ∨ p.pstate = .failed then
        ({ s with
            pairs := updatePair s.pairs p.pid (fun q => ice_pair_set_state q .waiting)
            triggered_checks_queue :=
              ice_check_list_queue_triggered_check s.triggered_checks_queue p.pid },
          some p.pid)
      else if p.pstate = .inProgress then
        ({ s with
            pairs := updatePair s.pairs p.pid
              (fun q => { q with wait_transaction_timeout := true }) }, some p.pid)
      else (s, some p.pid)).1 := by
  split
  · refine Inv7_updatePair_pointwise s _ p.pid (fun q => ice_pair_set_state q .waiting) h
      (fun q => (ice_pair_set_state_fields q .waiting).1) ?_ rfl rfl
    intro q _ hqok
    exact pairOK_set_state _ _ hqok (by intro hst; cases hst)
  · split
    · refine Inv7_updatePair_pointwise s _ p.pid
        (fun q => { q with wait_transaction_timeout := true }) h (fun q => rfl) ?_ rfl rfl
      intro q _ hqok
      exact hqok
    · exact h

theorem Inv7_trigger_new_branch (s : IceState) (localCand remoteCand : IceCandidate)
    (h : Inv7 s) :
    Inv7 (let r := ice_pair_new s localCand remoteCand
      let s2 := { r.1 with pairs := r.1.pairs ++ [r.2] }
      let s3 := { s2 with
        check_list := insertSortedDescBy (prioOf s2.pairs) r.2.pid s2.check_list }
      let s4 := { s3 with
        pairs := updatePair s3.pairs r.2.pid (fun p => ice_pair_set_state p .waiting) }
      { s4 with
        triggered_checks_queue :=
          ice_check_list_queue_triggered_check s4.triggered_checks_queue r.2.pid }) := by
  have hA : Inv7 { s with
      pairs := s.pairs ++ [(ice_pair_new s localCand remoteCand).2]
      next_pid := s.next_pid + 1 } :=
    Inv7_append_new s _ _ h rfl (pairOK_pair_new s localCand remoteCand) rfl rfl
  refine Inv7_updatePair_pointwise
    { s with
      pairs := s.pairs ++ [(ice_pair_new s localCand remoteCand).2]
      next_pid := s.next_pid + 1 } _
    (ice_pair_new s localCand remoteCand).2.pid
    (fun q => ice_pair_set_state q .waiting) hA
    (fun q => (ice_pair_set_state_fields q .waiting).1) ?_ rfl rfl
  intro q _ hqok
  exact pairOK_set_state _ _ hqok (by intro hst; cases hst)

theorem Inv7_trigger (s : IceState) (pkt : PacketInfo) (prflx : Option IceCandidate)
    (remote_taddr : IceTransportAddress) (h : Inv7 s) :
    Inv7 (ice_trigger_connectivity_check_on_binding_request s pkt prflx remote_taddr).1 := by
  unfold ice_trigger_connectivity_check_on_binding_request
  rcases hrp : ice_get_recv_port pkt with _ | recvport
  · simp only [hrp]
    exact h
  simp only [hrp]
  rcases hloc : s.local_candidates.find? (fun c =>
      taddrEq c.taddr { ip := pkt.dstIp, port := recvport }) with _ | localCand
  · simp only [hloc]
    exact h
  simp only [hloc]
  rcases hrem : (match prflx with
      | some c => some c
      | none => s.remote_candidates.find? (fun c => taddrEq c.taddr remote_taddr)) with
    _ | remoteCand
  · simp only [hrem]
    exact h
  simp only [hrem]
  rcases hcl : (clPairs s).find? (fun p =>
      decide (p.localId = localCand.cid) && decide (p.remoteId = remoteCand.cid)) with _ | p
  · simp only [hcl]
    exact Inv7_trigger_new_branch s localCand remoteCand h
  · simp only [hcl]
    exact Inv7_trigger_some_branch s p h

end Ice

namespace Ice

theorem Inv7_nominate_req (s : IceState) (msg : StunRequestMsg) (pid : Nat) (h : Inv7 s) :
    Inv7 (ice_update_nominated_flag_on_binding_request s msg pid) := by
  unfold ice_update_nominated_flag_on_binding_request
  split
  · refine Inv7_updatePair_pointwise s _ pid
      (fun p => if p.pstate = .succeeded then { p with is_nominated := true } else p) h
      (fun q => by by_cases hq : q.pstate = .succeeded <;> simp [hq]) ?_ rfl rfl
    intro q _ hqok
    by_cases hq : q.pstate = .succeeded
    · simp only [if_pos hq]
      refine ⟨fun hc => ?_, fun _ => hqok.2 hq⟩
      exact absurd hc (by simp [hq])
    · simp only [if_neg hq]
      exact hqok
  · exact h

theorem Inv7_request (s : IceState) (msg : StunRequestMsg) (pkt : PacketInfo)
    (fnd : String) (time : Nat) (h : Inv7 s) :
    Inv7 (ice_handle_received_binding_request s msg pkt fnd time).1 := by
  unfold ice_handle_received_binding_request
  split
  · exact h
  split
  · exact h
  split
  · exact h
  cases hrc : ice_check_received_binding_request_role_conflict s.role s.tie_breaker msg with
  | reply487 => simp only [hrc]; exact h
  | continueWith newRole =>
    simp only [hrc]
    have h1 : Inv7 (ice_session_set_role s newRole) := Inv7_set_role s newRole h
    rcases hlearn : ice_learn_peer_reflexive_candidate (ice_session_set_role s newRole) pkt
        msg pkt.srcAddr fnd with ⟨sL, prflx⟩
    simp only [hlearn]
    have h2 : Inv7 sL := by
      have := Inv7_learn (ice_session_set_role s newRole) pkt msg pkt.srcAddr fnd h1
      rw [hlearn] at this
      exact this
    rcases htrig : ice_trigger_connectivity_check_on_binding_request sL pkt prflx pkt.srcAddr
      with ⟨sT, pairOpt⟩
    simp only [htrig]
    have h3 : Inv7 sT := by
      have := Inv7_trigger sL pkt prflx pkt.srcAddr h2
      rw [htrig] at this
      exact this
    cases pairOpt with
    | none =>
      rcases hconc : ice_conclude_processing sT time with ⟨sC, couts⟩
      simp only [hconc]
      have h5 := Inv7_conclude sT time h3
      rw [hconc] at h5
      exact h5
    | some pid =>
      rcases hconc : ice_conclude_processing
          (ice_update_nominated_flag_on_binding_request sT msg pid) time with ⟨sC, couts⟩
      simp only [hconc]
      have h5 := Inv7_conclude _ time (Inv7_nominate_req sT msg pid h3)
      rw [hconc] at h5
      exact h5

end Ice

namespace Ice

theorem ite_pair_pid (c : Prop) [Decidable c] (f : IceCandidatePair → IceCandidatePair)
    (q : IceCandidatePair) (hf : (f q).pid = q.pid) :
    (if c then f q else q).pid = q.pid := by
  split
  · exact hf
  · rfl

theorem ite_pairOK (c : Prop) [Decidable c] (f : IceCandidatePair → IceCandidatePair)
    (q : IceCandidatePair) (hq : pairOK q) (hf : pairOK q → pairOK (f q)) :
    pairOK (if c then f q else q) := by
  split
  · exact hf hq
  · exact hq

theorem addValidPair_pairs (s : IceState) (a b : Nat) :
    (addValidPair s a b).pairs = s.pairs ∧ (addValidPair s a b).next_pid = s.next_pid := by
  simp only [addValidPair]
  split
  · exact ⟨rfl, rfl⟩
  · exact ⟨rfl, rfl⟩

theorem Inv7_construct (s1 : IceState) (pkt : PacketInfo) (prflx : Option IceCandidate)
    (spid : Nat) (h1 : Inv7 s1) :
    Inv7 (ice_construct_valid_pair s1 pkt prflx spid).1 ∧
    (∀ q ∈ (ice_construct_valid_pair s1 pkt prflx spid).1.pairs,
      q ∈ s1.pairs ∨ s1.next_pid ≤ q.pid) := by
  unfold ice_construct_valid_pair
  rcases hsp : findPair s1.pairs spid with _ | sp
  · simp only [hsp]
    exact ⟨h1, fun q hq => Or.inl hq⟩
  simp only [hsp]
  rcases hloc : (match prflx with
      | some c => some c
      | none =>
        match ice_get_recv_port pkt with
        | none => none
        | some recvport =>
          s1.local_candidates.find? (fun c =>
            taddrEq c.taddr { ip := pkt.dstIp, port := recvport })) with _ | localCand
  · simp only [hloc]
    exact ⟨h1, fun q hq => Or.inl hq⟩
  simp only [hloc]
  rcases hcl : (clPairs s1).find? (fun p =>
      decide (p.localId = localCand.cid) && decide (p.remoteId = sp.remoteId)) with _ | p
  · simp only [hcl]
    rcases hrem : lookupCand s1 sp.remoteId with _ | remoteCand
    · simp only [hrem]
      exact ⟨h1, fun q hq => Or.inl hq⟩
    · simp only [hrem, ice_pair_new]
      constructor
      · refine Inv7_of_pairs_eq _ _ ?_ (addValidPair_pairs _ _ _).1 (addValidPair_pairs _ _ _).2
        exact Inv7_append_new s1 _ _ h1 rfl (pairOK_pair_new s1 localCand remoteCand) rfl rfl
      · intro q hq
        rw [(addValidPair_pairs _ _ _).1] at hq
        rcases List.mem_append.mp hq with hq1 | hq1
        · exact Or.inl hq1
        · right
          rw [List.mem_singleton.mp hq1]
  · simp only [hcl]
    constructor
    · exact Inv7_of_pairs_eq _ _ h1 (addValidPair_pairs _ _ _).1 (addValidPair_pairs _ _ _).2
    · intro q hq
      rw [(addValidPair_pairs _ _ _).1] at hq
      exact Or.inl hq

theorem Inv7_update_pair_states (s2 : IceState) (pid : Nat) (h2 : Inv7 s2)
    (hmatch : ∀ p ∈ s2.pairs, p.pid = pid → ¬p.transactionID = 0) :
    Inv7 (ice_update_pair_states_on_binding_response s2 pid) := by
  unfold ice_update_pair_states_on_binding_response
  have hstep1 : Inv7 { s2 with
      pairs := updatePair s2.pairs pid (fun p => ice_pair_set_state p .succeeded) } := by
    obtain ⟨⟨hnd, hbound⟩, hok⟩ := h2
    refine ⟨⟨?_, ?_⟩, ?_⟩
    · rw [pidsMap_updatePair _ _ _ (fun q hq => ((ice_pair_set_state_fields q _).1).trans hq)]
      exact hnd
    · intro p hpm
      rcases mem_updatePair _ _ _ _ hpm with ⟨q, hq, he⟩
      by_cases hqpid : q.pid = pid
      · rw [he, if_pos hqpid, (ice_pair_set_state_fields q _).1]
        exact hbound q hq
      · rw [he, if_neg hqpid]
        exact hbound q hq
    · refine pairsOK_updatePair _ _ _ hok ?_
      intro p hpm hppid
      exact pairOK_set_state _ _ (hok p hpm) (fun _ => hmatch p hpm hppid)
  rcases hf2 : findPair (updatePair s2.pairs pid
      (fun p => ice_pair_set_state p .succeeded)) pid with _ | sp2
  · simp only [hf2]
    exact hstep1
  · simp only [hf2]
    refine Inv7_map _ _ _ hstep1 ?_ ?_ rfl rfl
    · intro q
      dsimp only
      split
      · exact (ice_pair_set_state_fields _ _).1
      · rfl
    · intro q _ hqok
      dsimp only
      split
      · exact pairOK_set_state _ _ hqok (by intro hst; cases hst)
      · exact hqok

theorem Inv7_nominate_resp (s3 : IceState) (validPidOpt : Option Nat) (spid : Nat)
    (prev : IceCandidatePairState) (h3 : Inv7 s3) :
    Inv7 (ice_update_nominated_flag_on_binding_response s3 validPidOpt spid prev) := by
  unfold ice_update_nominated_flag_on_binding_response
  cases validPidOpt with
  | none => exact h3
  | some vpid =>
    simp only
    rcases hr : s3.role with _ | _
    · simp only [hr]
      rcases hsp : findPair s3.pairs spid with _ | sp
      · simp only [hsp]
        exact h3
      · simp only [hsp]
        split
        · refine Inv7_updatePair_pointwise s3 _ vpid
            (fun p => { p with is_nominated := true }) h3 (fun q => rfl) ?_ rfl rfl
          intro q _ hqok
          exact ⟨hqok.1, hqok.2⟩
        · exact h3
    · simp only [hr]
      split
      · refine Inv7_updatePair_pointwise s3 _ vpid
          (fun p => { p with is_nominated := true }) h3 (fun q => rfl) ?_ rfl rfl
        intro q _ hqok
        exact ⟨hqok.1, hqok.2⟩
      · exact h3

end Ice

namespace Ice

theorem Inv7_response (s : IceState) (msg : StunResponseMsg) (pkt : PacketInfo)
    (time : Nat) (h : Inv7 s) (htid : ¬msg.trId = 0) :
    Inv7 (ice_handle_received_binding_response s msg pkt time).1 := by
  unfold ice_handle_received_binding_response
  rcases hfind : (clPairs s).find? (fun p => decide (p.transactionID = msg.trId)) with _ | sp
  · simp only [hfind]
    exact h
  simp only [hfind]
  have hsp := clPairs_find?_some s _ sp hfind
  rcases hrp : ice_get_recv_port pkt with _ | recvport
  · simp only [hrp]
    exact h
  simp only [hrp]
  split
  · refine Inv7_updatePair_pointwise s _ sp.pid
      (fun p => ice_pair_set_state p .failed) h
      (fun q => (ice_pair_set_state_fields q _).1) ?_ rfl rfl
    intro q _ hqok
    exact pairOK_set_state _ _ hqok (by intro hst; cases hst)
  split
  · exact h
  rcases hdisc : ice_discover_peer_reflexive_candidate s sp msg with ⟨s1, prflx⟩
  simp only [hdisc]
  have hfr1 := ice_discover_peer_reflexive_candidate_pairs s sp msg
  rw [hdisc] at hfr1
  have h1 : Inv7 s1 := Inv7_of_pairs_eq s s1 h hfr1.1 hfr1.2
  rcases hcon : ice_construct_valid_pair s1 pkt prflx sp.pid with ⟨s2, validPidOpt⟩
  simp only [hcon]
  have hc := Inv7_construct s1 pkt prflx sp.pid h1
  rw [hcon] at hc
  have hmatch : ∀ p ∈ s2.pairs, p.pid = sp.pid → ¬p.transactionID = 0 := by
    intro p hpm hpid
    rcases hc.2 p hpm with hin | hge
    · rw [hfr1.1] at hin
      have hps : p = sp := eq_of_mem_of_pid_eq h.1.1 hin hsp.1 hpid
      rw [hps, of_decide_eq_true hsp.2]
      exact htid
    · rw [hfr1.2] at hge
      have := h.1.2 sp hsp.1
      omega
  have h3 := Inv7_update_pair_states s2 sp.pid hc.1 hmatch
  have h4 := Inv7_nominate_resp _ validPidOpt sp.pid sp.pstate h3
  exact Inv7_conclude _ time h4

theorem Inv7_error_branch (s1 : IceState) (pid : Nat) (r : IceRole) (h1 : Inv7 s1) :
    Inv7 (let sA := ice_session_set_role s1 r
          let sB := { sA with
            pairs := updatePair sA.pairs pid
              (fun q => ice_pair_set_state q IceCandidatePairState.waiting) }
          { sB with
            triggered_checks_queue :=
              ice_check_list_queue_triggered_check sB.triggered_checks_queue pid }) := by
  have hA : Inv7 (ice_session_set_role s1 r) := Inv7_set_role s1 r h1
  exact Inv7_updatePair_pointwise (ice_session_set_role s1 r) _ pid _ hA
    (fun q => (ice_pair_set_state_fields q _).1)
    (fun q _ hqok => pairOK_set_state q _ hqok (by intro hst; cases hst)) rfl rfl

theorem Inv7_error (s : IceState) (msg : StunErrorMsg) (time : Nat) (h : Inv7 s) :
    Inv7 (ice_handle_received_error_response s msg time).1 := by
  unfold ice_handle_received_error_response
  rcases hfind : (clPairs s).find? (fun p => decide (p.transactionID = msg.trId)) with _ | p
  · simp only [hfind]
    exact h
  simp only [hfind]
  have h1 : Inv7 { s with
      pairs := updatePair s.pairs p.pid (fun q => ice_pair_set_state q .failed) } :=
    Inv7_updatePair_pointwise s _ p.pid _ h
      (fun q => (ice_pair_set_state_fields q _).1)
      (fun q _ hqok => pairOK_set_state q _ hqok (by intro hst; cases hst)) rfl rfl
  refine Inv7_conclude _ time ?_
  split
  · exact Inv7_error_branch _ p.pid _ h1
  · exact h1

theorem Inv7_foldl_prod {β : Type} (stepf : IceState × List IceOutput → β → IceState × List IceOutput)
    (l : List β) (acc : IceState × List IceOutput)
    (hstep : ∀ a b, Inv7 a.1 → Inv7 (stepf a b).1) (h : Inv7 acc.1) :
    Inv7 (l.foldl stepf acc).1 := by
  induction l generalizing acc with
  | nil => exact h
  | cons b t ih => exact ih _ (hstep acc b h)

theorem Inv7_retransmissions (s : IceState) (time : Nat) (h : Inv7 s) :
    Inv7 (ice_handle_retransmissions s time).1 := by
  unfold ice_handle_retransmissions
  refine Inv7_foldl_prod _ _ _ ?_ h
  intro a pid ha
  rcases hf : findPair a.1.pairs pid with _ | p
  · simp only [hf]
    exact ha
  · simp only [hf]
    split
    · rcases hs : ice_send_binding_request a.1 pid 0 time with ⟨s2, o2⟩
      simp only [hs]
      have hsv := Inv7_send a.1 pid 0 time ha
      rw [hs] at hsv
      exact hsv
    · exact ha

theorem Inv7_process (s : IceState) (time freshTid : Nat) (h : Inv7 s) :
    Inv7 (ice_check_list_process s time freshTid).1 := by
  unfold ice_check_list_process
  split
  · exact h
  split
  · exact h
  dsimp only
  rcases hka : (if s.clstate = IceCheckListState.completed then
      if time - s.keepalive_time ≥ s.keepalive_timeout * 1000 then
        ({ s with keepalive_time := time }, ice_send_keepalive_packets s)
      else (s, ([] : List IceOutput))
    else (s, ([] : List IceOutput))) with ⟨sk, kouts⟩
  simp only [hka]
  have hk : Inv7 sk := by
    split at hka
    · split at hka
      · injection hka with h1 h2
        subst h1
        exact h
      · injection hka with h1 h2
        subst h1
        exact h
    · injection hka with h1 h2
      subst h1
      exact h
  rcases hrt : ice_handle_retransmissions sk time with ⟨sr, routs⟩
  simp only [hrt]
  have hr : Inv7 sr := by
    have hx := Inv7_retransmissions sk time hk
    rw [hrt] at hx
    exact hx
  repeat'
    split
  all_goals
    first
    | exact hr
    | exact Inv7_send _ _ freshTid time (by exact hr)
    | exact Inv7_conclude _ time (by exact hr)

theorem Inv7_step (s : IceState) (e : IceEvent) (h : Inv7 s)
    (he : ∀ msg pkt time, e = .response msg pkt time → ¬msg.trId = 0) :
    Inv7 (step s e).1 := by
  rcases e with ⟨msg, pkt, pf, time⟩ | ⟨msg, pkt, time⟩ | ⟨msg, time⟩ | ⟨time, ftid⟩ | r
  · exact Inv7_request s msg pkt pf time h
  · exact Inv7_response s msg pkt time h (he msg pkt time rfl)
  · exact Inv7_error s msg time h
  · exact Inv7_process s time ftid h
  · exact Inv7_set_role s r h

theorem Inv7_runEvents (s : IceState) (es : List IceEvent) (h : Inv7 s)
    (he : ∀ e ∈ es, ∀ msg pkt time, e = IceEvent.response msg pkt time → ¬msg.trId = 0) :
    Inv7 (runEvents s es).1 := by
  induction es generalizing s with
  | nil => exact h
  | cons e t ih =>
    simp only [runEvents]
    exact ih _ (Inv7_step s e h (he e (List.mem_cons_self e t)))
      (fun e2 he2 => he e2 (List.mem_cons_of_mem e he2))

end Ice

namespace Ice

/-! ### C7 -/

/-- A binding success response whose transaction id is zero, with matching
symmetric addresses for the pair of `onePairState`. -/
def c7Msg : StunResponseMsg :=
  { trId := 0, hasUsername := true, hasFingerprint := true,
    hasXorMappedAddress := true, xorMappedAddress := { ip := "10.0.0.1", port := 5000 } }

/-- Delivery of `c7Msg` from the pair's remote address to the pair's local
address. -/
def c7Pkt : PacketInfo :=
  { socketKind := .rtp, srcAddr := { ip := "10.0.0.2", port := 6000 },
    dstIp := "10.0.0.1", rtpLocPort := 5000, integrityOk := true }

set_option maxRecDepth 100000 in
/-- C7: evidence against the claim as stated, evaluated on the code.  The
response dispatch matches a pair by comparing the stored transaction id with
the response's transaction id even when both are zero: a zero-transaction-id
response delivered to the one-pair state (whose pair is Frozen and has never
sent a check, so its stored id is zero) matches the pair and drives it to
Succeeded with a zero stored transaction id, contradicting "a pair in the
Succeeded state has a non-zero stored transaction ID" in a reachable state. -/
theorem C7_zero_tid_response_counterexample :
    ((step onePairState (IceEvent.response c7Msg c7Pkt 50)).1.pairs.map
      (fun p => (p.pstate, p.transactionID))) =
      [(IceCandidatePairState.succeeded, 0)] := by
  rfl

/-- C7 (amended): if every received binding success response carries a
non-zero transaction id, then in every state the engine reaches from a
well-formed state, a Succeeded pair has a non-zero stored transaction id and
a Waiting or Failed pair has a zero stored transaction id; and
`ice_pair_set_state` clears the stored transaction id on every transition
into Waiting or Failed. -/
theorem C7_transaction_id_discipline (s : IceState) (es : List IceEvent)
    (h : Inv7 s)
    (he : ∀ e ∈ es, ∀ msg pkt time, e = IceEvent.response msg pkt time → ¬msg.trId = 0) :
    (∀ p ∈ (runEvents s es).1.pairs,
      (p.pstate = IceCandidatePairState.succeeded → ¬p.transactionID = 0) ∧
      ((p.pstate = IceCandidatePairState.waiting ∨
        p.pstate = IceCandidatePairState.failed) → p.transactionID = 0)) ∧
    (∀ (p : IceCandidatePair) (st : IceCandidatePairState), ¬p.pstate = st →
      (st = IceCandidatePairState.waiting ∨ st = IceCandidatePairState.failed) →
      (ice_pair_set_state p st).transactionID = 0) := by
  constructor
  · intro p hp
    have hI := Inv7_runEvents s es h he
    exact ⟨(hI.2 p hp).2, (hI.2 p hp).1⟩
  · intro p st hne hst
    unfold ice_pair_set_state
    rw [if_neg hne]
    rcases hst with rfl | rfl
    · rfl
    · rfl

set_option maxRecDepth 100000 in
/-- C7 witness: the discipline holds concretely after a scheduler tick on the
well-formed one-pair state. -/
theorem C7_transaction_id_discipline_witness :
    (∀ p ∈ (runEvents onePairState [IceEvent.tick 100 555]).1.pairs,
      (p.pstate = IceCandidatePairState.succeeded → ¬p.transactionID = 0) ∧
      ((p.pstate = IceCandidatePairState.waiting ∨
        p.pstate = IceCandidatePairState.failed) → p.transactionID = 0)) ∧
    (∀ (p : IceCandidatePair) (st : IceCandidatePairState), ¬p.pstate = st →
      (st = IceCandidatePairState.waiting ∨ st = IceCandidatePairState.failed) →
      (ice_pair_set_state p st).transactionID = 0) :=
  C7_transaction_id_discipline onePairState [IceEvent.tick 100 555]
    (by simp only [Inv7, StateWF, pairsOK, pairOK]; decide)
    (by
      intro e he2 msg pkt time heq
      rcases List.mem_singleton.mp he2 with rfl
      cases heq)

end Ice

namespace Ice

/-! ### C8: the success callback fires exactly at the transition to Completed -/

/-- 1 when the check list is Completed. -/
def completedFlag (s : IceState) : Nat :=
  if s.clstate = IceCheckListState.completed then 1 else 0

theorem cbCount_append (a b : List IceOutput) :
    cbCount (a ++ b) = cbCount a + cbCount b := by
  simp [cbCount, List.filter_append]

theorem cbCount_eq_zero (l : List IceOutput)
    (h : ∀ o ∈ l, ¬o = IceOutput.successCallback) : cbCount l = 0 := by
  simp only [cbCount, List.length_eq_zero, List.filter_eq_nil]
  intro a ha
  simpa using h a ha

/-- Local candidate dereference is stable with the componentID intact. -/
def candMono (s s2 : IceState) : Prop :=
  ∀ cid c, findCandidate s.local_candidates cid = some c →
    ∃ c2, findCandidate s2.local_candidates cid = some c2 ∧
      c2.componentID = c.componentID

/-- Pair dereference is stable, keeping the local candidate pointer and never
clearing the nomination. -/
def pairMono (s s2 : IceState) : Prop :=
  ∀ pid p, findPair s.pairs pid = some p →
    ∃ p2, findPair s2.pairs pid = some p2 ∧ p2.localId = p.localId ∧
      (p.is_nominated = true → p2.is_nominated = true)

/-- The facts that keep `allComponentsNominated` true once it holds. -/
def Mono (s s2 : IceState) : Prop :=
  s2.componentIDs = s.componentIDs ∧
  (∀ vp ∈ s.valid_list, vp ∈ s2.valid_list) ∧
  candMono s s2 ∧ pairMono s s2

/-- Well-formedness consumed by the conclusion argument: pair local pointers
resolve in the local candidate list, componentIDs of local candidates are
registered, and local candidate ids are below the allocator. -/
def C8WF (s : IceState) : Prop :=
  (∀ p ∈ s.pairs, (findCandidate s.local_candidates p.localId).isSome) ∧
  (∀ c ∈ s.local_candidates, c.componentID ∈ s.componentIDs) ∧
  (∀ c ∈ s.local_candidates, c.cid < s.next_cid)

/-- One engine-internal operation: monotone, well-formed, check-list state
untouched. -/
def Pstep (s s2 : IceState) : Prop :=
  Mono s s2 ∧ C8WF s2 ∧ s2.clstate = s.clstate

theorem Mono_trans {s s2 s3 : IceState} (h1 : Mono s s2) (h2 : Mono s2 s3) :
    Mono s s3 := by
  obtain ⟨hc1, hv1, hcand1, hp1⟩ := h1
  obtain ⟨hc2, hv2, hcand2, hp2⟩ := h2
  refine ⟨hc2.trans hc1, fun vp hvp => hv2 vp (hv1 vp hvp), ?_, ?_⟩
  · intro cid c hf
    obtain ⟨c2, hf2, hcomp⟩ := hcand1 cid c hf
    obtain ⟨c3, hf3, hcomp2⟩ := hcand2 cid c2 hf2
    exact ⟨c3, hf3, hcomp2.trans hcomp⟩
  · intro pid p hf
    obtain ⟨p2, hf2, hl2, hn2⟩ := hp1 pid p hf
    obtain ⟨p3, hf3, hl3, hn3⟩ := hp2 pid p2 hf2
    exact ⟨p3, hf3, hl3.trans hl2, fun hn => hn3 (hn2 hn)⟩

theorem Pstep_trans {s s2 s3 : IceState} (h1 : Pstep s s2) (h2 : Pstep s2 s3) :
    Pstep s s3 :=
  ⟨Mono_trans h1.1 h2.1, h2.2.1, h2.2.2.trans h1.2.2⟩

theorem Pstep_refl (s : IceState) (h : C8WF s) : Pstep s s :=
  ⟨⟨rfl, fun _ hvp => hvp, fun cid c hf => ⟨c, hf, rfl⟩,
    fun pid p hf => ⟨p, hf, rfl, fun hn => hn⟩⟩, h, rfl⟩

theorem findPair_map (ps : List IceCandidatePair) (g : IceCandidatePair → IceCandidatePair)
    (hg : ∀ p, (g p).pid = p.pid) (pid : Nat) :
    findPair (ps.map g) pid = (findPair ps pid).map g := by
  induction ps with
  | nil => rfl
  | cons r rs ih =>
    simp only [List.map_cons, findPair] at *
    by_cases hr : r.pid = pid
    · rw [List.find?_cons_of_pos _ (by simp [hg, hr]),
        List.find?_cons_of_pos _ (by simp [hr])]
      rfl
    · rw [List.find?_cons_of_neg _ (by simp [hg, hr]),
        List.find?_cons_of_neg _ (by simp [hr])]
      exact ih

theorem findCandidate_map (l : List IceCandidate) (g : IceCandidate → IceCandidate)
    (hg : ∀ c, (g c).cid = c.cid) (cid : Nat) :
    findCandidate (l.map g) cid = (findCandidate l cid).map g := by
  induction l with
  | nil => rfl
  | cons r rs ih =>
    simp only [List.map_cons, findCandidate] at *
    by_cases hr : r.cid = cid
    · rw [List.find?_cons_of_pos _ (by simp [hg, hr]),
        List.find?_cons_of_pos _ (by simp [hr])]
      rfl
    · rw [List.find?_cons_of_neg _ (by simp [hg, hr]),
        List.find?_cons_of_neg _ (by simp [hr])]
      exact ih

theorem findPair_append_left (l l2 : List IceCandidatePair) (pid : Nat)
    (p : IceCandidatePair) (h : findPair l pid = some p) :
    findPair (l ++ l2) pid = some p := by
  induction l with
  | nil => simp [findPair] at h
  | cons r rs ih =>
    simp only [findPair, List.cons_append] at *
    by_cases hr : r.pid = pid
    · rw [List.find?_cons_of_pos _ (by simp [hr])] at h ⊢
      exact h
    · rw [List.find?_cons_of_neg _ (by simp [hr])] at h ⊢
      exact ih h

theorem findCandidate_append_left (l l2 : List IceCandidate) (cid : Nat)
    (c : IceCandidate) (h : findCandidate l cid = some c) :
    findCandidate (l ++ l2) cid = some c := by
  induction l with
  | nil => simp [findCandidate] at h
  | cons r rs ih =>
    simp only [findCandidate, List.cons_append] at *
    by_cases hr : r.cid = cid
    · rw [List.find?_cons_of_pos _ (by simp [hr])] at h ⊢
      exact h
    · rw [List.find?_cons_of_neg _ (by simp [hr])] at h ⊢
      exact ih h

theorem findCandidate_isSome_of_mem (l : List IceCandidate) (c : IceCandidate)
    (h : c ∈ l) : (findCandidate l c.cid).isSome := by
  induction l with
  | nil => simp at h
  | cons r rs ih =>
    by_cases hr : r.cid = c.cid
    · rw [findCandidate, List.find?_cons_of_pos _ (by simp [hr])]
      rfl
    · rcases List.mem_cons.mp h with h1 | h1
      · exact absurd (h1 ▸ rfl) hr
      · rw [findCandidate, List.find?_cons_of_neg _ (by simp [hr])]
        exact ih h1

theorem findCandidate_mem (l : List IceCandidate) (cid : Nat) (c : IceCandidate)
    (h : findCandidate l cid = some c) : c ∈ l ∧ c.cid = cid := by
  have h1 := List.find?_some h
  have h2 := List.mem_of_find?_eq_some h
  simp only [decide_eq_true_eq] at h1
  exact ⟨h2, h1⟩

end Ice

namespace Ice

theorem Pstep_pairs_map (s s2 : IceState) (g : IceCandidatePair → IceCandidatePair)
    (h : C8WF s)
    (hpid : ∀ p, (g p).pid = p.pid)
    (hlid : ∀ p, (g p).localId = p.localId)
    (hnom : ∀ p, p.is_nominated = true → (g p).is_nominated = true)
    (hp : s2.pairs = s.pairs.map g)
    (hlc : s2.local_candidates = s.local_candidates)
    (hcids : s2.componentIDs = s.componentIDs)
    (hvl : s2.valid_list = s.valid_list)
    (hcl : s2.clstate = s.clstate)
    (hnc : s.next_cid ≤ s2.next_cid) : Pstep s s2 := by
  obtain ⟨hW2, hW3, hB⟩ := h
  refine ⟨⟨hcids, fun vp hvp => hvl ▸ hvp, ?_, ?_⟩, ⟨?_, ?_, ?_⟩, hcl⟩
  · intro cid c hf
    exact ⟨c, hlc ▸ hf, rfl⟩
  · intro pid p hf
    refine ⟨g p, ?_, hlid p, hnom p⟩
    rw [hp, findPair_map _ _ hpid, hf]
    rfl
  · intro p2 hp2
    rw [hp] at hp2
    rcases List.mem_map.mp hp2 with ⟨p, hpm, he⟩
    rw [hlc, ← he, hlid p]
    exact hW2 p hpm
  · intro c hc
    rw [hlc] at hc
    rw [hcids]
    exact hW3 c hc
  · intro c hc
    rw [hlc] at hc
    exact lt_of_lt_of_le (hB c hc) hnc

theorem Pstep_updatePair (s s2 : IceState) (pid : Nat)
    (f : IceCandidatePair → IceCandidatePair) (h : C8WF s)
    (hpid : ∀ p, p.pid = pid → (f p).pid = p.pid)
    (hlid : ∀ p, p.pid = pid → (f p).localId = p.localId)
    (hnom : ∀ p, p.pid = pid → p.is_nominated = true → (f p).is_nominated = true)
    (hp : s2.pairs = updatePair s.pairs pid f)
    (hlc : s2.local_candidates = s.local_candidates)
    (hcids : s2.componentIDs = s.componentIDs)
    (hvl : s2.valid_list = s.valid_list)
    (hcl : s2.clstate = s.clstate)
    (hnc : s.next_cid ≤ s2.next_cid) : Pstep s s2 := by
  refine Pstep_pairs_map s s2 (fun p => if p.pid = pid then f p else p) h ?_ ?_ ?_
    hp hlc hcids hvl hcl hnc
  · intro p
    by_cases hc : p.pid = pid
    · simp only [if_pos hc, hpid p hc]
    · simp only [if_neg hc]
  · intro p
    by_cases hc : p.pid = pid
    · simp only [if_pos hc, hlid p hc]
    · simp only [if_neg hc]
  · intro p hn
    by_cases hc : p.pid = pid
    · simp only [if_pos hc]
      exact hnom p hc hn
    · simp only [if_neg hc]
      exact hn

theorem Pstep_pairs_append (s s2 : IceState) (new : List IceCandidatePair)
    (h : C8WF s)
    (hres : ∀ q ∈ new, (findCandidate s.local_candidates q.localId).isSome)
    (hp : s2.pairs = s.pairs ++ new)
    (hlc : s2.local_candidates = s.local_candidates)
    (hcids : s2.componentIDs = s.componentIDs)
    (hvl : s2.valid_list = s.valid_list)
    (hcl : s2.clstate = s.clstate)
    (hnc : s.next_cid ≤ s2.next_cid) : Pstep s s2 := by
  obtain ⟨hW2, hW3, hB⟩ := h
  refine ⟨⟨hcids, fun vp hvp => hvl ▸ hvp, ?_, ?_⟩, ⟨?_, ?_, ?_⟩, hcl⟩
  · intro cid c hf
    exact ⟨c, hlc ▸ hf, rfl⟩
  · intro pid p hf
    exact ⟨p, hp ▸ findPair_append_left _ _ _ _ hf, rfl, fun hn => hn⟩
  · intro p2 hp2
    rw [hp] at hp2
    rw [hlc]
    rcases List.mem_append.mp hp2 with h1 | h1
    · exact hW2 p2 h1
    · exact hres p2 h1
  · intro c hc
    rw [hlc] at hc
    rw [hcids]
    exact hW3 c hc
  · intro c hc
    rw [hlc] at hc
    exact lt_of_lt_of_le (hB c hc) hnc

theorem Pstep_fields (s s2 : IceState) (h : C8WF s)
    (hp : s2.pairs = s.pairs)
    (hlc : s2.local_candidates = s.local_candidates)
    (hcids : s2.componentIDs = s.componentIDs)
    (hvl : s2.valid_list = s.valid_list)
    (hcl : s2.clstate = s.clstate)
    (hnc : s.next_cid ≤ s2.next_cid) : Pstep s s2 := by
  have h2 := Pstep_pairs_append s s2 [] h (by intro q hq; simp at hq)
    (by rw [hp, List.append_nil]) hlc hcids hvl hcl hnc
  exact h2

theorem Pstep_valid_insert (s s2 : IceState) (key : IceValidCandidatePair → Nat)
    (vp : IceValidCandidatePair) (h : C8WF s)
    (hp : s2.pairs = s.pairs)
    (hlc : s2.local_candidates = s.local_candidates)
    (hcids : s2.componentIDs = s.componentIDs)
    (hvl : s2.valid_list = insertSortedDescBy key vp s.valid_list)
    (hcl : s2.clstate = s.clstate)
    (hnc : s.next_cid ≤ s2.next_cid) : Pstep s s2 := by
  obtain ⟨hW2, hW3, hB⟩ := h
  refine ⟨⟨hcids, ?_, ?_, ?_⟩, ⟨?_, ?_, ?_⟩, hcl⟩
  · intro v hv
    rw [hvl]
    exact mem_insertSortedDescBy key vp v _ hv
  · intro cid c hf
    exact ⟨c, hlc ▸ hf, rfl⟩
  · intro pid p hf
    exact ⟨p, hp ▸ hf, rfl, fun hn => hn⟩
  · intro p2 hp2
    rw [hp] at hp2
    rw [hlc]
    exact hW2 p2 hp2
  · intro c hc
    rw [hlc] at hc
    rw [hcids]
    exact hW3 c hc
  · intro c hc
    rw [hlc] at hc
    exact lt_of_lt_of_le (hB c hc) hnc

theorem Pstep_foldl {β : Type} (f : IceState → β → IceState) (l : List β) (s : IceState)
    (hf : ∀ s1 b, C8WF s1 → Pstep s1 (f s1 b)) (h : C8WF s) :
    Pstep s (l.foldl f s) := by
  induction l generalizing s with
  | nil => exact Pstep_refl s h
  | cons b t ih =>
    have h1 := hf s b h
    exact Pstep_trans h1 (ih _ h1.2.1)

end Ice

namespace Ice

theorem allComponentsNominated_mono (s s2 : IceState) (hm : Mono s s2)
    (hW2 : ∀ p ∈ s.pairs, (findCandidate s.local_candidates p.localId).isSome)
    (h : allComponentsNominated s = true) : allComponentsNominated s2 = true := by
  obtain ⟨hcids, hvl, hcand, hpair⟩ := hm
  unfold allComponentsNominated at h ⊢
  rw [hcids]
  rw [List.all_eq_true] at h ⊢
  intro cid hcid
  have h1 := h cid hcid
  unfold nominatedValidPairExistsFor at h1 ⊢
  rw [List.any_eq_true] at h1 ⊢
  obtain ⟨vp, hvp, hpred⟩ := h1
  refine ⟨vp, hvl vp hvp, ?_⟩
  rcases hfp : findPair s.pairs vp.validId with _ | p
  · rw [hfp] at hpred
    simp at hpred
  simp only [hfp, Bool.and_eq_true, decide_eq_true_eq] at hpred
  obtain ⟨p2, hfp2, hlid, hnom⟩ := hpair vp.validId p hfp
  simp only [hfp2, Bool.and_eq_true, decide_eq_true_eq]
  refine ⟨hnom hpred.1, ?_⟩
  have hpm := (findPair_eq_some _ _ _ hfp).1
  have hsome := hW2 p hpm
  rcases hflc : findCandidate s.local_candidates p.localId with _ | c
  · rw [hflc] at hsome
    simp at hsome
  obtain ⟨c2, hflc2, hcomp⟩ := hcand p.localId c hflc
  have e1 : pairLocalComponentID s p = c.componentID := by
    unfold pairLocalComponentID lookupCand
    rw [hflc]
    rfl
  have e2 : pairLocalComponentID s2 p2 = c2.componentID := by
    unfold pairLocalComponentID lookupCand
    rw [hlid, hflc2]
    rfl
  rw [e2, hcomp, ← e1]
  exact hpred.2

theorem Pstep_set_role (s : IceState) (r : IceRole) (h : C8WF s) :
    Pstep s (ice_session_set_role s r) := by
  unfold ice_session_set_role
  split
  · exact Pstep_refl s h
  · exact Pstep_pairs_map s _ (recomputePairPriority { s with role := r }) h
      (fun p => rfl) (fun p => rfl) (fun p hn => hn) rfl rfl rfl rfl rfl (le_refl _)

theorem Pstep_learn (s : IceState) (pkt : PacketInfo) (msg : StunRequestMsg)
    (taddr : IceTransportAddress) (fnd : String) (h : C8WF s) :
    Pstep s (ice_learn_peer_reflexive_candidate s pkt msg taddr fnd).1 := by
  unfold ice_learn_peer_reflexive_candidate
  rcases hsc : socketComponentID pkt.socketKind with _ | cid
  · simp only [hsc]
    exact Pstep_refl s h
  · simp only [hsc]
    split
    · exact Pstep_refl s h
    · unfold ice_add_remote_candidate
      rcases hadd : ice_add_candidate s.remote_candidates "prflx" taddr.ip taddr.port cid
          s.next_cid with _ | ⟨lst, cand⟩
      · simp only [hadd]
        exact Pstep_refl s h
      · simp only [hadd]
        exact Pstep_fields s _ h rfl rfl rfl rfl rfl (Nat.le_succ _)

theorem Pstep_nominate_req (s : IceState) (msg : StunRequestMsg) (pid : Nat)
    (h : C8WF s) :
    Pstep s (ice_update_nominated_flag_on_binding_request s msg pid) := by
  unfold ice_update_nominated_flag_on_binding_request
  split
  · refine Pstep_updatePair s _ pid _ h ?_ ?_ ?_ rfl rfl rfl rfl rfl (le_refl _)
    · intro p _
      dsimp only
      split
      · rfl
      · rfl
    · intro p _
      dsimp only
      split
      · rfl
      · rfl
    · intro p _ hn
      dsimp only
      split
      · rfl
      · exact hn
  · exact Pstep_refl s h

theorem Pstep_nominate_resp (s : IceState) (validPidOpt : Option Nat) (spid : Nat)
    (prev : IceCandidatePairState) (h : C8WF s) :
    Pstep s (ice_update_nominated_flag_on_binding_response s validPidOpt spid prev) := by
  unfold ice_update_nominated_flag_on_binding_response
  cases validPidOpt with
  | none => exact Pstep_refl s h
  | some vpid =>
    simp only
    rcases hr : s.role with _ | _
    · simp only [hr]
      rcases hsp : findPair s.pairs spid with _ | sp
      · simp only [hsp]
        exact Pstep_refl s h
      · simp only [hsp]
        split
        · exact Pstep_updatePair s _ vpid (fun p => { p with is_nominated := true }) h
            (fun p _ => rfl) (fun p _ => rfl)
            (fun p _ _ => rfl) rfl rfl rfl rfl rfl (le_refl _)
        · exact Pstep_refl s h
    · simp only [hr]
      split
      · exact Pstep_updatePair s _ vpid (fun p => { p with is_nominated := true }) h
          (fun p _ => rfl) (fun p _ => rfl)
          (fun p _ _ => rfl) rfl rfl rfl rfl rfl (le_refl _)
      · exact Pstep_refl s h

theorem Pstep_regular_nomination (s : IceState) (h : C8WF s) :
    Pstep s (ice_perform_regular_nomination s) := by
  unfold ice_perform_regular_nomination
  refine Pstep_foldl _ _ s ?_ h
  intro s1 vp h1
  rcases hf : findPair s1.pairs vp.validId with _ | vpair
  · simp only [hf]
    exact Pstep_refl s1 h1
  · simp only [hf]
    split
    · exact Pstep_updatePair s1 _ vp.generatedFromId
        (fun p => { p with is_nominated := true }) h1 (fun p _ => rfl)
        (fun p _ => rfl) (fun p _ _ => rfl) rfl rfl rfl rfl rfl (le_refl _)
    · exact Pstep_refl s1 h1

theorem Pstep_wfip (s : IceState) (h : C8WF s) :
    Pstep s (ice_conclude_waiting_frozen_and_inprogress_pairs s) := by
  unfold ice_conclude_waiting_frozen_and_inprogress_pairs
  refine Pstep_foldl _ _ s ?_ h
  intro s1 vp h1
  rcases hf : findPair s1.pairs vp.validId with _ | vpair
  · simp only [hf]
    exact Pstep_refl s1 h1
  · simp only [hf]
    split
    · refine Pstep_pairs_map s1 _ _ h1 ?_ ?_ ?_ rfl rfl rfl rfl rfl (le_refl _)
      · intro p
        dsimp only
        split
        · rfl
        · rfl
      · intro p
        dsimp only
        split
        · rfl
        · rfl
      · intro p hn
        dsimp only
        split
        · exact hn
        · exact hn
    · exact Pstep_refl s1 h1

theorem Pstep_update_pair_states (s : IceState) (pid : Nat) (h : C8WF s) :
    Pstep s (ice_update_pair_states_on_binding_response s pid) := by
  unfold ice_update_pair_states_on_binding_response
  have h1 : Pstep s { s with
      pairs := updatePair s.pairs pid (fun p => ice_pair_set_state p .succeeded) } :=
    Pstep_updatePair s _ pid _ h
      (fun p _ => (ice_pair_set_state_fields p _).1)
      (fun p _ => (ice_pair_set_state_fields p _).2.1)
      (fun p _ hn => ((ice_pair_set_state_fields p _).2.2.2.1).trans hn)
      rfl rfl rfl rfl rfl (le_refl _)
  rcases hf2 : findPair (updatePair s.pairs pid
      (fun p => ice_pair_set_state p .succeeded)) pid with _ | sp2
  · simp only [hf2]
    exact h1
  · simp only [hf2]
    refine Pstep_trans h1 ?_
    refine Pstep_pairs_map _ _ _ h1.2.1 ?_ ?_ ?_ rfl rfl rfl rfl rfl (le_refl _)
    · intro p
      dsimp only
      split
      · exact (ice_pair_set_state_fields p _).1
      · rfl
    · intro p
      dsimp only
      split
      · exact (ice_pair_set_state_fields p _).2.1
      · rfl
    · intro p hn
      dsimp only
      split
      · exact ((ice_pair_set_state_fields p _).2.2.2.1).trans hn
      · exact hn

end Ice

namespace Ice

theorem findPair_append_new (ps : List IceCandidatePair) (p : IceCandidatePair)
    (h : ∀ q ∈ ps, ¬q.pid = p.pid) : findPair (ps ++ [p]) p.pid = some p := by
  induction ps with
  | nil =>
    simp [findPair]
  | cons r rs ih =>
    rw [List.cons_append, findPair,
      List.find?_cons_of_neg _ (by simp [h r (List.mem_cons_self r rs)])]
    exact ih (fun q hq => h q (List.mem_cons_of_mem _ hq))

theorem Pstep_updatePair_const (s s2 : IceState) (pid : Nat)
    (c p0 : IceCandidatePair)
    (hfind : findPair s.pairs pid = some p0) (h : C8WF s)
    (hcpid : c.pid = pid)
    (hlid : c.localId = p0.localId)
    (hnom : p0.is_nominated = true → c.is_nominated = true)
    (hp : s2.pairs = updatePair s.pairs pid (fun _ => c))
    (hlc : s2.local_candidates = s.local_candidates)
    (hcids : s2.componentIDs = s.componentIDs)
    (hvl : s2.valid_list = s.valid_list)
    (hcl : s2.clstate = s.clstate)
    (hnc : s.next_cid ≤ s2.next_cid) : Pstep s s2 := by
  obtain ⟨hW2, hW3, hB⟩ := h
  have hp0 := findPair_eq_some _ _ _ hfind
  refine ⟨⟨hcids, fun vp hvp => hvl ▸ hvp, ?_, ?_⟩, ⟨?_, ?_, ?_⟩, hcl⟩
  · exact fun cid cc hf => ⟨cc, hlc ▸ hf, rfl⟩
  · intro pid' p hf
    by_cases hpe : pid' = pid
    · subst hpe
      have hpp : p = p0 := Option.some.inj (hf.symm.trans hfind)
      refine ⟨c, ?_, by rw [hlid, hpp], fun hn => hnom (hpp ▸ hn)⟩
      rw [hp, findPair_updatePair _ _ _ (fun q _ => hcpid), hfind]
      rfl
    · refine ⟨p, ?_, rfl, fun hn => hn⟩
      rw [hp, findPair_updatePair_ne _ _ _ _ (fun q _ => hcpid) hpe]
      exact hf
  · intro p2 hp2
    rw [hp] at hp2
    rcases mem_updatePair _ _ _ _ hp2 with ⟨q, hq, he⟩
    rw [hlc]
    by_cases hqe : q.pid = pid
    · rw [he, if_pos hqe, hlid]
      exact hW2 p0 hp0.1
    · rw [he, if_neg hqe]
      exact hW2 q hq
  · intro cc hcc
    rw [hlc] at hcc
    rw [hcids]
    exact hW3 cc hcc
  · intro cc hcc
    rw [hlc] at hcc
    exact lt_of_lt_of_le (hB cc hcc) hnc

theorem Pstep_send (s : IceState) (pid tid time : Nat) (h : C8WF s) :
    Pstep s (ice_send_binding_request s pid tid time).1 := by
  rcases hfind : findPair s.pairs pid with _ | p0
  · simp only [ice_send_binding_request, hfind]
    exact Pstep_refl s h
  · obtain ⟨hp0mem, hp0pid⟩ := findPair_eq_some _ _ _ hfind
    unfold ice_send_binding_request
    simp only [hfind]
    repeat'
      split
    all_goals
      refine Pstep_updatePair_const s _ pid _ p0 hfind h ?_ ?_ ?_
        rfl rfl rfl rfl rfl (le_refl _)
    all_goals
      simp [(ice_pair_set_state_fields _ _).1, (ice_pair_set_state_fields _ _).2.1,
        (ice_pair_set_state_fields _ _).2.2.2.1, hp0pid]

theorem cbCount_send (s : IceState) (pid tid time : Nat) :
    cbCount (ice_send_binding_request s pid tid time).2 = 0 := by
  unfold ice_send_binding_request
  rcases hfind : findPair s.pairs pid with _ | p0
  · rfl
  · simp only
    repeat'
      split
    all_goals rfl

end Ice

namespace Ice

theorem Pstep_trigger_some_branch (s : IceState) (p : IceCandidatePair) (h : C8WF s) :
    Pstep s (if p.pstate = .waiting ∨ p.pstate = .frozen ∨ p.pstate = .failed then
        ({ s with
            pairs := updatePair s.pairs p.pid (fun q => ice_pair_set_state q .waiting)
            triggered_checks_queue :=
              ice_check_list_queue_triggered_check s.triggered_checks_queue p.pid },
          some p.pid)
      else if p.pstate = .inProgress then
        ({ s with
            pairs := updatePair s.pairs p.pid
              (fun q => { q with wait_transaction_timeout := true }) }, some p.pid)
      else (s, some p.pid)).1 := by
  split
  · exact Pstep_updatePair s _ p.pid (fun q => ice_pair_set_state q .waiting) h
      (fun q _ => (ice_pair_set_state_fields q .waiting).1)
      (fun q _ => (ice_pair_set_state_fields q .waiting).2.1)
      (fun q _ hn => ((ice_pair_set_state_fields q .waiting).2.2.2.1).trans hn)
      rfl rfl rfl rfl rfl (le_refl _)
  · split
    · exact Pstep_updatePair s _ p.pid
        (fun q => { q with wait_transaction_timeout := true }) h
        (fun q _ => rfl) (fun q _ => rfl) (fun q _ hn => hn)
        rfl rfl rfl rfl rfl (le_refl _)
    · exact Pstep_refl s h

theorem Pstep_trigger_new_branch (s : IceState) (localCand remoteCand : IceCandidate)
    (h : C8WF s) (hmem : localCand ∈ s.local_candidates) :
    Pstep s (let r := ice_pair_new s localCand remoteCand
      let s2 := { r.1 with pairs := r.1.pairs ++ [r.2] }
      let s3 := { s2 with
        check_list := insertSortedDescBy (prioOf s2.pairs) r.2.pid s2.check_list }
      let s4 := { s3 with
        pairs := updatePair s3.pairs r.2.pid (fun p => ice_pair_set_state p .waiting) }
      { s4 with
        triggered_checks_queue :=
          ice_check_list_queue_triggered_check s4.triggered_checks_queue r.2.pid }) := by
  have hA : Pstep s { s with
      pairs := s.pairs ++ [(ice_pair_new s localCand remoteCand).2]
      next_pid := s.next_pid + 1 } := by
    refine Pstep_pairs_append s _ [(ice_pair_new s localCand remoteCand).2] h ?_
      rfl rfl rfl rfl rfl (le_refl _)
    intro q hq
    rw [List.mem_singleton.mp hq]
    exact findCandidate_isSome_of_mem _ _ hmem
  refine Pstep_trans hA ?_
  exact Pstep_updatePair
    { s with
      pairs := s.pairs ++ [(ice_pair_new s localCand remoteCand).2]
      next_pid := s.next_pid + 1 } _
    (ice_pair_new s localCand remoteCand).2.pid
    (fun q => ice_pair_set_state q .waiting) hA.2.1
    (fun q _ => (ice_pair_set_state_fields q .waiting).1)
    (fun q _ => (ice_pair_set_state_fields q .waiting).2.1)
    (fun q _ hn => ((ice_pair_set_state_fields q .waiting).2.2.2.1).trans hn)
    rfl rfl rfl rfl rfl (le_refl _)

theorem Pstep_trigger (s : IceState) (pkt : PacketInfo) (prflx : Option IceCandidate)
    (remote_taddr : IceTransportAddress) (h : C8WF s) :
    Pstep s (ice_trigger_connectivity_check_on_binding_request s pkt prflx remote_taddr).1 := by
  unfold ice_trigger_connectivity_check_on_binding_request
  rcases hrp : ice_get_recv_port pkt with _ | recvport
  · simp only [hrp]
    exact Pstep_refl s h
  simp only [hrp]
  rcases hloc : s.local_candidates.find? (fun c =>
      taddrEq c.taddr { ip := pkt.dstIp, port := recvport }) with _ | localCand
  · simp only [hloc]
    exact Pstep_refl s h
  simp only [hloc]
  rcases hrem : (match prflx with
      | some c => some c
      | none => s.remote_candidates.find? (fun c => taddrEq c.taddr remote_taddr)) with
    _ | remoteCand
  · simp only [hrem]
    exact Pstep_refl s h
  simp only [hrem]
  rcases hcl : (clPairs s).find? (fun p =>
      decide (p.localId = localCand.cid) && decide (p.remoteId = remoteCand.cid)) with _ | p
  · simp only [hcl]
    exact Pstep_trigger_new_branch s localCand remoteCand h
      (List.mem_of_find?_eq_some hloc)
  · simp only [hcl]
    exact Pstep_trigger_some_branch s p h

theorem add_componentID_mem (ids : List Nat) (x : Nat) (h : x ∈ ids) :
    ice_add_componentID ids x = ids := by
  unfold ice_add_componentID
  rw [if_pos]
  simpa using h

theorem Pstep_updateCandidate (s s2 : IceState) (cid : Nat)
    (f : IceCandidate → IceCandidate) (h : C8WF s)
    (hcid : ∀ c, (f c).cid = c.cid)
    (hcomp : ∀ c, (f c).componentID = c.componentID)
    (hlc : s2.local_candidates = updateCandidate s.local_candidates cid f)
    (hp : s2.pairs = s.pairs)
    (hcids : s2.componentIDs = s.componentIDs)
    (hvl : s2.valid_list = s.valid_list)
    (hcl : s2.clstate = s.clstate)
    (hnc : s.next_cid ≤ s2.next_cid) : Pstep s s2 := by
  obtain ⟨hW2, hW3, hB⟩ := h
  have hg : ∀ c : IceCandidate, ((fun c => if c.cid = cid then f c else c) c).cid = c.cid := by
    intro c
    dsimp only
    split
    · exact hcid c
    · rfl
  have hfind : ∀ cid' c, findCandidate s.local_candidates cid' = some c →
      ∃ c2, findCandidate s2.local_candidates cid' = some c2 ∧
        c2.componentID = c.componentID ∧ c2.cid = c.cid := by
    intro cid' c hf
    rw [hlc, updateCandidate, findCandidate_map _ _ hg, hf]
    by_cases hc : c.cid = cid
    · exact ⟨f c, by simp [hc], hcomp c, hcid c⟩
    · exact ⟨c, by simp [hc], rfl, rfl⟩
  refine ⟨⟨hcids, fun vp hvp => hvl ▸ hvp, ?_, ?_⟩, ⟨?_, ?_, ?_⟩, hcl⟩
  · intro cid' c hf
    obtain ⟨c2, hf2, hcomp2, _⟩ := hfind cid' c hf
    exact ⟨c2, hf2, hcomp2⟩
  · intro pid p hf
    exact ⟨p, hp ▸ hf, rfl, fun hn => hn⟩
  · intro p2 hp2
    rw [hp] at hp2
    have hsome := hW2 p2 hp2
    rcases hflc : findCandidate s.local_candidates p2.localId with _ | c
    · rw [hflc] at hsome
      simp at hsome
    · obtain ⟨c2, hf2, _, _⟩ := hfind p2.localId c hflc
      rw [hf2]
      rfl
  · intro c hc
    rw [hlc, updateCandidate] at hc
    rcases List.mem_map.mp hc with ⟨c0, hc0, he⟩
    rw [hcids, ← he]
    by_cases hcc : c0.cid = cid
    · simp only [if_pos hcc, hcomp c0]
      exact hW3 c0 hc0
    · simp only [if_neg hcc]
      exact hW3 c0 hc0
  · intro c hc
    rw [hlc, updateCandidate] at hc
    rcases List.mem_map.mp hc with ⟨c0, hc0, he⟩
    rw [← he]
    have : ((fun c => if c.cid = cid then f c else c) c0).cid = c0.cid := hg c0
    rw [this]
    exact lt_of_lt_of_le (hB c0 hc0) hnc

end Ice

namespace Ice

theorem ice_add_candidate_facts (lst : List IceCandidate) (ct ip : String)
    (port cpid nc : Nat) (l2 : List IceCandidate) (cand : IceCandidate)
    (h : ice_add_candidate lst ct ip port cpid nc = some (l2, cand)) :
    l2 = lst ++ [cand] ∧ cand.cid = nc ∧ cand.componentID = cpid := by
  unfold ice_add_candidate at h
  split at h
  · cases h
  · rcases hp : parseCandidateType ct with _ | t
    · simp only [hp] at h
      cases h
    · simp only [hp] at h
      injection h with h1
      injection h1 with ha hb
      subst hb
      exact ⟨ha.symm, rfl, rfl⟩

theorem updateCandidate_append_fresh (l : List IceCandidate) (c0 c1 : IceCandidate)
    (hcid : c1.cid = c0.cid) (hfresh : ∀ c ∈ l, ¬c.cid = c0.cid) :
    updateCandidate (l ++ [c0]) c0.cid (fun _ => c1) = l ++ [c1] := by
  induction l with
  | nil =>
    simp [updateCandidate]
  | cons r rs ih =>
    simp only [List.cons_append, updateCandidate, List.map_cons] at *
    rw [if_neg (hfresh r (List.mem_cons_self r rs)),
      ih (fun c hc => hfresh c (List.mem_cons_of_mem _ hc))]

theorem Pstep_cand_append (s s2 : IceState) (newc : IceCandidate) (h : C8WF s)
    (hreg2 : newc.componentID ∈ s2.componentIDs)
    (hlc : s2.local_candidates = s.local_candidates ++ [newc])
    (hbound2 : newc.cid < s2.next_cid)
    (hcids : s2.componentIDs = s.componentIDs)
    (hp : s2.pairs = s.pairs)
    (hvl : s2.valid_list = s.valid_list)
    (hcl : s2.clstate = s.clstate)
    (hnc : s.next_cid ≤ s2.next_cid) : Pstep s s2 := by
  obtain ⟨hW2, hW3, hB⟩ := h
  refine ⟨⟨hcids, fun vp hvp => hvl ▸ hvp, ?_, ?_⟩, ⟨?_, ?_, ?_⟩, hcl⟩
  · intro cid c hf
    exact ⟨c, by rw [hlc]; exact findCandidate_append_left _ _ _ _ hf, rfl⟩
  · intro pid p hf
    exact ⟨p, hp ▸ hf, rfl, fun hn => hn⟩
  · intro p2 hp2
    rw [hp] at hp2
    have hsome := hW2 p2 hp2
    rcases hflc : findCandidate s.local_candidates p2.localId with _ | c
    · rw [hflc] at hsome
      simp at hsome
    · rw [hlc, findCandidate_append_left _ _ _ _ hflc]
      rfl
  · intro c hc
    rw [hlc] at hc
    rcases List.mem_append.mp hc with h1 | h1
    · rw [hcids]
      exact hW3 c h1
    · rw [List.mem_singleton.mp h1]
      exact hreg2
  · intro c hc
    rw [hlc] at hc
    rcases List.mem_append.mp hc with h1 | h1
    · exact lt_of_lt_of_le (hB c h1) hnc
    · rw [List.mem_singleton.mp h1]
      exact hbound2

theorem Pstep_add_local (s : IceState) (ct ip : String) (port cpid : Nat)
    (base : Option Nat) (h : C8WF s) (hreg : cpid ∈ s.componentIDs) :
    Pstep s (ice_add_local_candidate s ct ip port cpid base).1 ∧
    (∀ c, (ice_add_local_candidate s ct ip port cpid base).2 = some c →
      (findCandidate (ice_add_local_candidate s ct ip port cpid base).1.local_candidates
        c.cid).isSome) := by
  unfold ice_add_local_candidate
  rcases hadd : ice_add_candidate s.local_candidates ct ip port cpid s.next_cid
      with _ | ⟨lst, cand0⟩
  · simp only [hadd]
    exact ⟨Pstep_refl s h, by intro c hc; cases hc⟩
  · simp only [hadd]
    obtain ⟨hlst, hcid0, hcomp0⟩ := ice_add_candidate_facts _ _ _ _ _ _ _ _ hadd
    have hfresh : ∀ c ∈ s.local_candidates, ¬c.cid = cand0.cid := by
      intro c hc
      rw [hcid0]
      exact Nat.ne_of_lt (h.2.2 c hc)
    have hrw : updateCandidate lst
        ({ { cand0 with
              base := if cand0.base.isNone then base else cand0.base } with
            priority := ice_compute_candidate_priority
              { cand0 with
                base := if cand0.base.isNone then base else cand0.base }.ctype
              { cand0 with
                base := if cand0.base.isNone then base else cand0.base }.componentID }).cid
        (fun _ => { { cand0 with
              base := if cand0.base.isNone then base else cand0.base } with
            priority := ice_compute_candidate_priority
              { cand0 with
                base := if cand0.base.isNone then base else cand0.base }.ctype
              { cand0 with
                base := if cand0.base.isNone then base else cand0.base }.componentID }) =
        s.local_candidates ++ [{ { cand0 with
              base := if cand0.base.isNone then base else cand0.base } with
            priority := ice_compute_candidate_priority
              { cand0 with
                base := if cand0.base.isNone then base else cand0.base }.ctype
              { cand0 with
                base := if cand0.base.isNone then base else cand0.base }.componentID }] := by
      rw [hlst]
      exact updateCandidate_append_fresh s.local_candidates cand0 _ rfl hfresh
    constructor
    · refine Pstep_cand_append s _ _ h ?_ hrw ?_ ?_ rfl rfl rfl (Nat.le_succ _)
      · show cand0.componentID ∈ ice_add_componentID s.componentIDs cand0.componentID
        rw [add_componentID_mem s.componentIDs cand0.componentID (hcomp0 ▸ hreg)]
        exact hcomp0 ▸ hreg
      · show cand0.cid < s.next_cid + 1
        rw [hcid0]
        exact Nat.lt_succ_self _
      · show ice_add_componentID s.componentIDs cand0.componentID = s.componentIDs
        exact add_componentID_mem s.componentIDs cand0.componentID (hcomp0 ▸ hreg)
    · intro c hc
      injection hc with hc
      subst hc
      rw [hrw]
      exact findCandidate_isSome_of_mem _ _ (List.mem_append_right _ (List.mem_singleton_self _))

end Ice

namespace Ice

theorem Pstep_compute_foundation (s : IceState) (cid : Nat) (h : C8WF s) :
    Pstep s (ice_compute_candidate_foundation s cid) := by
  unfold ice_compute_candidate_foundation
  rcases hl : lookupCand s cid with _ | cand
  · simp only [hl]
    exact Pstep_refl s h
  · simp only [hl]
    rcases ho : s.local_candidates.find? (fun c => sameFoundationCandidate s c cand)
        with _ | other
    · simp only [ho]
      exact Pstep_updateCandidate s _ cid
        (fun c => { c with foundation := toString s.foundation_generator }) h
        (fun c => rfl) (fun c => rfl) rfl rfl rfl rfl rfl (le_refl _)
    · simp only [ho]
      split
      · exact Pstep_updateCandidate s _ cid
          (fun c => { c with foundation := other.foundation.take 31 }) h
          (fun c => rfl) (fun c => rfl) rfl rfl rfl rfl rfl (le_refl _)
      · exact Pstep_updateCandidate s _ cid
          (fun c => { c with foundation := toString s.foundation_generator }) h
          (fun c => rfl) (fun c => rfl) rfl rfl rfl rfl rfl (le_refl _)

theorem Pstep_discover (s : IceState) (sp : IceCandidatePair) (msg : StunResponseMsg)
    (h : C8WF s) (hsp : sp ∈ s.pairs) :
    Pstep s (ice_discover_peer_reflexive_candidate s sp msg).1 ∧
    (∀ c, (ice_discover_peer_reflexive_candidate s sp msg).2 = some c →
      (findCandidate (ice_discover_peer_reflexive_candidate s sp msg).1.local_candidates
        c.cid).isSome) := by
  unfold ice_discover_peer_reflexive_candidate
  dsimp only
  by_cases hany : (s.local_candidates.any fun c => taddrEq c.taddr msg.xorMappedAddress) = true
  · simp only [if_pos hany]
    exact ⟨Pstep_refl s h, by intro c hc; cases hc⟩
  · simp only [if_neg hany]
    have hsome := h.1 sp hsp
    rcases hflc : findCandidate s.local_candidates sp.localId with _ | c0
    · rw [hflc] at hsome
      simp at hsome
    have hreg : (((lookupCand s sp.localId).map (fun c => c.componentID))).getD 0 ∈
        s.componentIDs := by
      unfold lookupCand
      rw [hflc]
      exact h.2.1 c0 (findCandidate_mem _ _ _ hflc).1
    rcases hadd : ice_add_local_candidate s "prflx" msg.xorMappedAddress.ip
        msg.xorMappedAddress.port
        ((((lookupCand s sp.localId).map (fun c => c.componentID))).getD 0)
        (some sp.localId) with ⟨s1, candOpt⟩
    simp only [hadd]
    have hal := Pstep_add_local s "prflx" msg.xorMappedAddress.ip
      msg.xorMappedAddress.port
      ((((lookupCand s sp.localId).map (fun c => c.componentID))).getD 0)
      (some sp.localId) h hreg
    rw [hadd] at hal
    cases candOpt with
    | none =>
      exact ⟨hal.1, by intro c hc; cases hc⟩
    | some cand =>
      simp only
      have hcf := Pstep_compute_foundation s1 cand.cid hal.1.2.1
      refine ⟨Pstep_trans hal.1 hcf, ?_⟩
      intro c hc
      injection hc with hc
      subst hc
      have h2 := hal.2 cand rfl
      rcases hf1 : findCandidate s1.local_candidates cand.cid with _ | cc
      · rw [hf1] at h2
        simp at h2
      · obtain ⟨c2, hf2, _⟩ := hcf.1.2.2.1 cand.cid cc hf1
        rw [hf2]
        rfl

theorem Pstep_addValid (s : IceState) (a b : Nat) (h : C8WF s) :
    Pstep s (addValidPair s a b) := by
  simp only [addValidPair]
  split
  · exact Pstep_refl s h
  · exact Pstep_valid_insert s _ (fun v => prioOf s.pairs v.validId) _ h
      rfl rfl rfl rfl rfl (le_refl _)

theorem Pstep_construct (s : IceState) (pkt : PacketInfo) (prflx : Option IceCandidate)
    (spid : Nat) (h : C8WF s)
    (hprflx : ∀ c, prflx = some c → (findCandidate s.local_candidates c.cid).isSome) :
    Pstep s (ice_construct_valid_pair s pkt prflx spid).1 := by
  unfold ice_construct_valid_pair
  rcases hsp : findPair s.pairs spid with _ | sp
  · simp only [hsp]
    exact Pstep_refl s h
  simp only [hsp]
  rcases hloc : (match prflx with
      | some c => some c
      | none =>
        match ice_get_recv_port pkt with
        | none => none
        | some recvport =>
          s.local_candidates.find? (fun c =>
            taddrEq c.taddr { ip := pkt.dstIp, port := recvport })) with _ | localCand
  · simp only [hloc]
    exact Pstep_refl s h
  simp only [hloc]
  have hlres : (findCandidate s.local_candidates localCand.cid).isSome := by
    rcases prflx with _ | pc
    · simp only at hloc
      rcases hrp : ice_get_recv_port pkt with _ | recvport
      · rw [hrp] at hloc
        cases hloc
      · rw [hrp] at hloc
        exact findCandidate_isSome_of_mem _ _ (List.mem_of_find?_eq_some hloc)
    · simp only at hloc
      injection hloc with he
      exact he ▸ hprflx pc rfl
  rcases hcl : (clPairs s).find? (fun p =>
      decide (p.localId = localCand.cid) && decide (p.remoteId = sp.remoteId)) with _ | p
  · simp only [hcl]
    rcases hrem : lookupCand s sp.remoteId with _ | remoteCand
    · simp only [hrem]
      exact Pstep_refl s h
    · simp only [hrem, ice_pair_new]
      have hA : Pstep s { s with
          pairs := s.pairs ++ [(ice_pair_new s localCand remoteCand).2]
          next_pid := s.next_pid + 1 } := by
        refine Pstep_pairs_append s _ [(ice_pair_new s localCand remoteCand).2] h ?_
          rfl rfl rfl rfl rfl (le_refl _)
        intro q hq
        rw [List.mem_singleton.mp hq]
        exact hlres
      have hB := Pstep_addValid { s with
          pairs := s.pairs ++ [(ice_pair_new s localCand remoteCand).2]
          next_pid := s.next_pid + 1 }
        (ice_pair_new s localCand remoteCand).2.pid spid hA.2.1
      exact Pstep_trans hA hB
  · simp only [hcl]
    exact Pstep_addValid s _ _ h

end Ice

namespace Ice

theorem C8_conclude (s : IceState) (time : Nat) (hWF : C8WF s)
    (hInv : s.clstate = IceCheckListState.completed → allComponentsNominated s = true) :
    cbCount (ice_conclude_processing s time).2 + completedFlag s =
      completedFlag (ice_conclude_processing s time).1 ∧
    ((ice_conclude_processing s time).1.clstate = IceCheckListState.completed →
      allComponentsNominated (ice_conclude_processing s time).1 = true) ∧
    C8WF (ice_conclude_processing s time).1 := by
  have h1 : Pstep s (if s.role = .controlling then ice_perform_regular_nomination s else s) := by
    split
    · exact Pstep_regular_nomination s hWF
    · exact Pstep_refl s hWF
  have h2 : Pstep s (ice_conclude_waiting_frozen_and_inprogress_pairs
      (if s.role = IceRole.controlling then ice_perform_regular_nomination s else s)) :=
    Pstep_trans h1 (Pstep_wfip _ h1.2.1)
  simp only [ice_conclude_processing]
  generalize hX : ice_conclude_waiting_frozen_and_inprogress_pairs
      (if s.role = IceRole.controlling then ice_perform_regular_nomination s else s) = X at h2 ⊢
  split
  · rename_i hall
    split
    · rename_i hnc
      have hs : ¬s.clstate = IceCheckListState.completed := by
        rw [← h2.2.2]
        exact hnc
      refine ⟨?_, fun _ => hall, h2.2.1⟩
      simp [cbCount, completedFlag, hs]
    · rename_i hnc
      have hx : X.clstate = IceCheckListState.completed := not_not.mp hnc
      have hs : s.clstate = IceCheckListState.completed := h2.2.2.symm.trans hx
      refine ⟨?_, fun _ => hall, h2.2.1⟩
      simp [cbCount, completedFlag, hs, hx]
  · rename_i hall
    have hs : ¬s.clstate = IceCheckListState.completed := by
      intro hcc
      exact hall (allComponentsNominated_mono s X h2.1 hWF.1 (hInv hcc))
  
    split
    · split
      · refine ⟨?_, ?_, h2.2.1⟩
        · simp [cbCount, completedFlag, hs]
        · intro hfc
          simp at hfc
      · rename_i hnf
        have hxf : X.clstate = IceCheckListState.failed := not_not.mp hnf
        refine ⟨?_, ?_, h2.2.1⟩
        · simp [cbCount, completedFlag, h2.2.2, hs]
        · intro hxc
          rw [hxf] at hxc
          cases hxc
    · refine ⟨?_, ?_, h2.2.1⟩
      · simp [cbCount, completedFlag, h2.2.2, hs]
      · intro hxc
        exact absurd (h2.2.2.symm.trans hxc) hs

end Ice

namespace Ice

theorem completedFlag_congr (s1 s2 : IceState) (h : s1.clstate = s2.clstate) :
    completedFlag s1 = completedFlag s2 := by
  unfold completedFlag
  rw [h]

theorem C8_idle_leaf (s0 sX : IceState) (pre : List IceOutput)
    (hP : Pstep s0 sX) (hpre : cbCount pre = 0)
    (hInv : s0.clstate = IceCheckListState.completed → allComponentsNominated s0 = true)
    (hW2 : ∀ p ∈ s0.pairs, (findCandidate s0.local_candidates p.localId).isSome) :
    cbCount pre + completedFlag s0 = completedFlag sX ∧
    (sX.clstate = IceCheckListState.completed → allComponentsNominated sX = true) ∧
    C8WF sX := by
  refine ⟨?_, ?_, hP.2.1⟩
  · rw [hpre, Nat.zero_add]
    exact (completedFlag_congr s0 sX hP.2.2.symm)
  · intro hc
    exact allComponentsNominated_mono s0 sX hP.1 hW2 (hInv (hP.2.2.symm.trans hc))

theorem C8_conclude_pre (s0 sX : IceState) (time : Nat) (pre : List IceOutput)
    (hP : Pstep s0 sX) (hpre : cbCount pre = 0)
    (hInv : s0.clstate = IceCheckListState.completed → allComponentsNominated s0 = true)
    (hW2 : ∀ p ∈ s0.pairs, (findCandidate s0.local_candidates p.localId).isSome) :
    cbCount (pre ++ (ice_conclude_processing sX time).2) + completedFlag s0 =
      completedFlag (ice_conclude_processing sX time).1 ∧
    ((ice_conclude_processing sX time).1.clstate = IceCheckListState.completed →
      allComponentsNominated (ice_conclude_processing sX time).1 = true) ∧
    C8WF (ice_conclude_processing sX time).1 := by
  have hIT : sX.clstate = IceCheckListState.completed → allComponentsNominated sX = true :=
    fun hc => allComponentsNominated_mono s0 sX hP.1 hW2 (hInv (hP.2.2.symm.trans hc))
  have h5 := C8_conclude sX time hP.2.1 hIT
  refine ⟨?_, h5.2.1, h5.2.2⟩
  rw [cbCount_append, hpre, Nat.zero_add, completedFlag_congr s0 sX hP.2.2.symm]
  exact h5.1

theorem C8_request_tail (s0 sT : IceState) (time : Nat) (resp : List IceOutput)
    (h3 : Pstep s0 sT)
    (hW2 : ∀ p ∈ s0.pairs, (findCandidate s0.local_candidates p.localId).isSome)
    (hInv : s0.clstate = IceCheckListState.completed → allComponentsNominated s0 = true)
    (hresp : cbCount resp = 0)
    (sC : IceState) (couts : List IceOutput)
    (hconc : ice_conclude_processing sT time = (sC, couts)) :
    cbCount (resp ++ couts) + completedFlag s0 = completedFlag sC ∧
    (sC.clstate = IceCheckListState.completed → allComponentsNominated sC = true) ∧
    C8WF sC := by
  have h5 := C8_conclude_pre s0 sT time resp h3 hresp hInv hW2
  rw [hconc] at h5
  exact h5

theorem C8_send_leaf (s0 sX : IceState) (pid tid time : Nat) (pre : List IceOutput)
    (hP : Pstep s0 sX) (hpre : cbCount pre = 0)
    (hInv : s0.clstate = IceCheckListState.completed → allComponentsNominated s0 = true)
    (hW2 : ∀ p ∈ s0.pairs, (findCandidate s0.local_candidates p.localId).isSome) :
    cbCount (pre ++ (ice_send_binding_request sX pid tid time).2) + completedFlag s0 =
      completedFlag (ice_send_binding_request sX pid tid time).1 ∧
    ((ice_send_binding_request sX pid tid time).1.clstate = IceCheckListState.completed →
      allComponentsNominated (ice_send_binding_request sX pid tid time).1 = true) ∧
    C8WF (ice_send_binding_request sX pid tid time).1 := by
  have hs := Pstep_send sX pid tid time hP.2.1
  have htot : Pstep s0 (ice_send_binding_request sX pid tid time).1 := Pstep_trans hP hs
  refine ⟨?_, ?_, htot.2.1⟩
  · rw [cbCount_append, hpre, cbCount_send, completedFlag_congr s0 _ htot.2.2.symm]
    omega
  · intro hc
    exact allComponentsNominated_mono s0 _ htot.1 hW2 (hInv (htot.2.2.symm.trans hc))

theorem cbCount_errorResponseOut (pkt : PacketInfo) (a b : Nat) :
    cbCount (errorResponseOut pkt a b) = 0 := by
  unfold errorResponseOut
  cases pkt.socketKind <;> rfl

theorem cbCount_keepalive (s : IceState) :
    cbCount (ice_send_keepalive_packets s) = 0 := by
  refine cbCount_eq_zero _ ?_
  intro o ho
  unfold ice_send_keepalive_packets at ho
  rcases List.mem_filterMap.mp ho with ⟨cid, _, hbind⟩
  rcases Option.bind_eq_some.mp hbind with ⟨vp, _, hf⟩
  rcases hfp : findPair s.pairs vp.validId with _ | p
  · rw [hfp] at hf
    cases hf
  · rw [hfp] at hf
    simp only at hf
    split at hf
    · injection hf with hf
      rw [← hf]
      intro hcontra
      cases hcontra
    · cases hf

theorem C8_retransmissions (s : IceState) (time : Nat) (h : C8WF s) :
    Pstep s (ice_handle_retransmissions s time).1 ∧
    cbCount (ice_handle_retransmissions s time).2 = 0 := by
  unfold ice_handle_retransmissions
  suffices hgen : ∀ (l : List Nat) (acc : IceState × List IceOutput),
      C8WF acc.1 → cbCount acc.2 = 0 →
      Pstep acc.1 (l.foldl
        (fun acc pid =>
          match findPair acc.1.pairs pid with
          | none => acc
          | some p =>
            if p.pstate = .inProgress ∧ time - p.transmission_time ≥ p.rto then
              let (s2, o2) := ice_send_binding_request acc.1 pid 0 time
              (s2, acc.2 ++ o2)
            else acc) acc).1 ∧
      cbCount (l.foldl
        (fun acc pid =>
          match findPair acc.1.pairs pid with
          | none => acc
          | some p =>
            if p.pstate = .inProgress ∧ time - p.transmission_time ≥ p.rto then
              let (s2, o2) := ice_send_binding_request acc.1 pid 0 time
              (s2, acc.2 ++ o2)
            else acc) acc).2 = 0 by
    exact hgen s.check_list (s, []) h rfl
  intro l
  induction l with
  | nil =>
    intro acc hacc hcb
    exact ⟨Pstep_refl acc.1 hacc, hcb⟩
  | cons pid t ih =>
    intro acc hacc hcb
    simp only [List.foldl_cons]
    rcases hf : findPair acc.1.pairs pid with _ | p
    · simp only [hf]
      exact ih acc hacc hcb
    · simp only [hf]
      split
      · rcases hs : ice_send_binding_request acc.1 pid 0 time with ⟨s2, o2⟩
        simp only [hs]
        have hP : Pstep acc.1 s2 := by
          have hx := Pstep_send acc.1 pid 0 time hacc
          rw [hs] at hx
          exact hx
        have hcb2 : cbCount (acc.2 ++ o2) = 0 := by
          rw [cbCount_append, hcb]
          have hx := cbCount_send acc.1 pid 0 time
          rw [hs] at hx
          simpa using hx
        have hrest := ih (s2, acc.2 ++ o2) hP.2.1 hcb2
        exact ⟨Pstep_trans hP hrest.1, hrest.2⟩
      · exact ih acc hacc hcb

end Ice

namespace Ice

theorem C8_conclude_from (s0 sX : IceState) (time : Nat)
    (hP : Pstep s0 sX)
    (hInv : s0.clstate = IceCheckListState.completed → allComponentsNominated s0 = true)
    (hW2 : ∀ p ∈ s0.pairs, (findCandidate s0.local_candidates p.localId).isSome) :
    cbCount (ice_conclude_processing sX time).2 + completedFlag s0 =
      completedFlag (ice_conclude_processing sX time).1 ∧
    ((ice_conclude_processing sX time).1.clstate = IceCheckListState.completed →
      allComponentsNominated (ice_conclude_processing sX time).1 = true) ∧
    C8WF (ice_conclude_processing sX time).1 := by
  have hIT : sX.clstate = IceCheckListState.completed → allComponentsNominated sX = true :=
    fun hc => allComponentsNominated_mono s0 sX hP.1 hW2 (hInv (hP.2.2.symm.trans hc))
  have h5 := C8_conclude sX time hP.2.1 hIT
  refine ⟨?_, h5.2.1, h5.2.2⟩
  rw [completedFlag_congr s0 sX hP.2.2.symm]
  exact h5.1

theorem Pstep_error_branch (s1 : IceState) (pid : Nat) (r : IceRole) (h1 : C8WF s1) :
    Pstep s1 (let sA := ice_session_set_role s1 r
      let sB := { sA with
        pairs := updatePair sA.pairs pid
          (fun q => ice_pair_set_state q IceCandidatePairState.waiting) }
      { sB with
        triggered_checks_queue :=
          ice_check_list_queue_triggered_check sB.triggered_checks_queue pid }) := by
  have hA := Pstep_set_role s1 r h1
  refine Pstep_trans hA ?_
  exact Pstep_updatePair (ice_session_set_role s1 r) _ pid
    (fun q => ice_pair_set_state q IceCandidatePairState.waiting) hA.2.1
    (fun q _ => (ice_pair_set_state_fields q _).1)
    (fun q _ => (ice_pair_set_state_fields q _).2.1)
    (fun q _ hn => ((ice_pair_set_state_fields q _).2.2.2.1).trans hn)
    rfl rfl rfl rfl rfl (le_refl _)

theorem C8_request (s : IceState) (msg : StunRequestMsg) (pkt : PacketInfo)
    (fnd : String) (time : Nat) (hWF : C8WF s)
    (hInv : s.clstate = IceCheckListState.completed → allComponentsNominated s = true) :
    cbCount (ice_handle_received_binding_request s msg pkt fnd time).2 + completedFlag s =
      completedFlag (ice_handle_received_binding_request s msg pkt fnd time).1 ∧
    ((ice_handle_received_binding_request s msg pkt fnd time).1.clstate =
        IceCheckListState.completed →
      allComponentsNominated (ice_handle_received_binding_request s msg pkt fnd time).1 = true) ∧
    C8WF (ice_handle_received_binding_request s msg pkt fnd time).1 := by
  unfold ice_handle_received_binding_request
  split
  · exact C8_idle_leaf s s _ (Pstep_refl s hWF) (cbCount_errorResponseOut pkt 4 0) hInv hWF.1
  split
  · exact C8_idle_leaf s s _ (Pstep_refl s hWF) (cbCount_errorResponseOut pkt 4 1) hInv hWF.1
  split
  · exact C8_idle_leaf s s _ (Pstep_refl s hWF) (cbCount_errorResponseOut pkt 4 1) hInv hWF.1
  cases hrc : ice_check_received_binding_request_role_conflict s.role s.tie_breaker msg with
  | reply487 =>
    simp only [hrc]
    exact C8_idle_leaf s s _ (Pstep_refl s hWF) (cbCount_errorResponseOut pkt 4 87) hInv hWF.1
  | continueWith newRole =>
    simp only [hrc]
    have h1 : Pstep s (ice_session_set_role s newRole) := Pstep_set_role s newRole hWF
    rcases hlearn : ice_learn_peer_reflexive_candidate (ice_session_set_role s newRole) pkt
        msg pkt.srcAddr fnd with ⟨sL, prflx⟩
    simp only [hlearn]
    have h2 : Pstep s sL := by
      refine Pstep_trans h1 ?_
      have hx := Pstep_learn (ice_session_set_role s newRole) pkt msg pkt.srcAddr fnd h1.2.1
      rw [hlearn] at hx
      exact hx
    rcases htrig : ice_trigger_connectivity_check_on_binding_request sL pkt prflx pkt.srcAddr
      with ⟨sT, pairOpt⟩
    simp only [htrig]
    have h3 : Pstep s sT := by
      refine Pstep_trans h2 ?_
      have hx := Pstep_trigger sL pkt prflx pkt.srcAddr h2.2.1
      rw [htrig] at hx
      exact hx
    cases pairOpt with
    | none =>
      rcases hconc : ice_conclude_processing sT time with ⟨sC, couts⟩
      simp only [hconc]
      exact C8_request_tail s sT time _ h3 hWF.1 hInv
        (by cases pkt.socketKind <;> rfl) sC couts hconc
    | some pid =>
      have h4 : Pstep s (ice_update_nominated_flag_on_binding_request sT msg pid) :=
        Pstep_trans h3 (Pstep_nominate_req sT msg pid h3.2.1)
      rcases hconc : ice_conclude_processing
          (ice_update_nominated_flag_on_binding_request sT msg pid) time with ⟨sC, couts⟩
      simp only [hconc]
      exact C8_request_tail s _ time _ h4 hWF.1 hInv
        (by cases pkt.socketKind <;> rfl) sC couts hconc

theorem C8_error (s : IceState) (msg : StunErrorMsg) (time : Nat) (hWF : C8WF s)
    (hInv : s.clstate = IceCheckListState.completed → allComponentsNominated s = true) :
    cbCount (ice_handle_received_error_response s msg time).2 + completedFlag s =
      completedFlag (ice_handle_received_error_response s msg time).1 ∧
    ((ice_handle_received_error_response s msg time).1.clstate =
        IceCheckListState.completed →
      allComponentsNominated (ice_handle_received_error_response s msg time).1 = true) ∧
    C8WF (ice_handle_received_error_response s msg time).1 := by
  unfold ice_handle_received_error_response
  rcases hfind : (clPairs s).find? (fun p => decide (p.transactionID = msg.trId)) with _ | p
  · simp only [hfind]
    exact C8_idle_leaf s s [] (Pstep_refl s hWF) rfl hInv hWF.1
  simp only [hfind]
  have h1 : Pstep s { s with
      pairs := updatePair s.pairs p.pid (fun q => ice_pair_set_state q .failed) } :=
    Pstep_updatePair s _ p.pid _ hWF
      (fun q _ => (ice_pair_set_state_fields q _).1)
      (fun q _ => (ice_pair_set_state_fields q _).2.1)
      (fun q _ hn => ((ice_pair_set_state_fields q _).2.2.2.1).trans hn)
      rfl rfl rfl rfl rfl (le_refl _)
  refine C8_conclude_from s _ time ?_ hInv hWF.1
  split
  · exact Pstep_trans h1 (Pstep_error_branch _ p.pid _ h1.2.1)
  · exact h1

end Ice

namespace Ice

theorem C8_response (s : IceState) (msg : StunResponseMsg) (pkt : PacketInfo)
    (time : Nat) (hWF : C8WF s)
    (hInv : s.clstate = IceCheckListState.completed → allComponentsNominated s = true) :
    cbCount (ice_handle_received_binding_response s msg pkt time).2 + completedFlag s =
      completedFlag (ice_handle_received_binding_response s msg pkt time).1 ∧
    ((ice_handle_received_binding_response s msg pkt time).1.clstate =
        IceCheckListState.completed →
      allComponentsNominated (ice_handle_received_binding_response s msg pkt time).1 = true) ∧
    C8WF (ice_handle_received_binding_response s msg pkt time).1 := by
  unfold ice_handle_received_binding_response
  rcases hfind : (clPairs s).find? (fun p => decide (p.transactionID = msg.trId)) with _ | sp
  · simp only [hfind]
    exact C8_idle_leaf s s [] (Pstep_refl s hWF) rfl hInv hWF.1
  simp only [hfind]
  have hsp := clPairs_find?_some s _ sp hfind
  rcases hrp : ice_get_recv_port pkt with _ | recvport
  · simp only [hrp]
    exact C8_idle_leaf s s [] (Pstep_refl s hWF) rfl hInv hWF.1
  simp only [hrp]
  split
  · refine C8_idle_leaf s _ [] ?_ rfl hInv hWF.1
    exact Pstep_updatePair s _ sp.pid (fun p => ice_pair_set_state p .failed) hWF
      (fun q _ => (ice_pair_set_state_fields q _).1)
      (fun q _ => (ice_pair_set_state_fields q _).2.1)
      (fun q _ hn => ((ice_pair_set_state_fields q _).2.2.2.1).trans hn)
      rfl rfl rfl rfl rfl (le_refl _)
  split
  · exact C8_idle_leaf s s [] (Pstep_refl s hWF) rfl hInv hWF.1
  rcases hdisc : ice_discover_peer_reflexive_candidate s sp msg with ⟨s1, prflx⟩
  simp only [hdisc]
  have hd := Pstep_discover s sp msg hWF hsp.1
  rw [hdisc] at hd
  rcases hcon : ice_construct_valid_pair s1 pkt prflx sp.pid with ⟨s2, validPidOpt⟩
  simp only [hcon]
  have hc2 : Pstep s s2 := by
    have hx := Pstep_construct s1 pkt prflx sp.pid hd.1.2.1 (fun c hc => hd.2 c hc)
    rw [hcon] at hx
    exact Pstep_trans hd.1 hx
  have h3 : Pstep s (ice_update_pair_states_on_binding_response s2 sp.pid) :=
    Pstep_trans hc2 (Pstep_update_pair_states s2 sp.pid hc2.2.1)
  have h4 : Pstep s (ice_update_nominated_flag_on_binding_response
      (ice_update_pair_states_on_binding_response s2 sp.pid) validPidOpt sp.pid sp.pstate) :=
    Pstep_trans h3 (Pstep_nominate_resp _ validPidOpt sp.pid sp.pstate h3.2.1)
  exact C8_conclude_from s _ time h4 hInv hWF.1

theorem C8_process (s : IceState) (time freshTid : Nat) (hWF : C8WF s)
    (hInv : s.clstate = IceCheckListState.completed → allComponentsNominated s = true) :
    cbCount (ice_check_list_process s time freshTid).2 + completedFlag s =
      completedFlag (ice_check_list_process s time freshTid).1 ∧
    ((ice_check_list_process s time freshTid).1.clstate = IceCheckListState.completed →
      allComponentsNominated (ice_check_list_process s time freshTid).1 = true) ∧
    C8WF (ice_check_list_process s time freshTid).1 := by
  unfold ice_check_list_process
  split
  · exact C8_idle_leaf s s [] (Pstep_refl s hWF) rfl hInv hWF.1
  split
  · exact C8_idle_leaf s s [] (Pstep_refl s hWF) rfl hInv hWF.1
  dsimp only
  rcases hka : (if s.clstate = IceCheckListState.completed then
      if time - s.keepalive_time ≥ s.keepalive_timeout * 1000 then
        ({ s with keepalive_time := time }, ice_send_keepalive_packets s)
      else (s, ([] : List IceOutput))
    else (s, ([] : List IceOutput))) with ⟨sk, kouts⟩
  simp only [hka]
  have hkP : Pstep s sk ∧ cbCount kouts = 0 := by
    split at hka
    · split at hka
      · injection hka with h1 h2
        subst h1
        subst h2
        exact ⟨Pstep_fields s _ hWF rfl rfl rfl rfl rfl (le_refl _), cbCount_keepalive s⟩
      · injection hka with h1 h2
        subst h1
        subst h2
        exact ⟨Pstep_refl s hWF, rfl⟩
    · injection hka with h1 h2
      subst h1
      subst h2
      exact ⟨Pstep_refl s hWF, rfl⟩
  rcases hrt : ice_handle_retransmissions sk time with ⟨sr, routs2⟩
  simp only [hrt]
  have hrP : Pstep s sr ∧ cbCount (kouts ++ routs2) = 0 := by
    have hx := C8_retransmissions sk time hkP.1.2.1
    rw [hrt] at hx
    exact ⟨Pstep_trans hkP.1 hx.1, by rw [cbCount_append, hkP.2, hx.2]⟩
  repeat'
    split
  all_goals
    first
    | exact C8_idle_leaf s _ _ (by exact hrP.1) hrP.2 hInv hWF.1
    | exact C8_send_leaf s _ _ freshTid time _ (by exact hrP.1) hrP.2 hInv hWF.1
    | exact C8_conclude_pre s _ time _ (by exact hrP.1) hrP.2 hInv hWF.1

theorem C8_step (s : IceState) (e : IceEvent) (hWF : C8WF s)
    (hInv : s.clstate = IceCheckListState.completed → allComponentsNominated s = true) :
    cbCount (step s e).2 + completedFlag s = completedFlag (step s e).1 ∧
    ((step s e).1.clstate = IceCheckListState.completed →
      allComponentsNominated (step s e).1 = true) ∧
    C8WF (step s e).1 := by
  rcases e with ⟨msg, pkt, pf, time⟩ | ⟨msg, pkt, time⟩ | ⟨msg, time⟩ | ⟨time, ftid⟩ | r
  · exact C8_request s msg pkt pf time hWF hInv
  · exact C8_response s msg pkt time hWF hInv
  · exact C8_error s msg time hWF hInv
  · exact C8_process s time ftid hWF hInv
  · exact C8_idle_leaf s _ [] (Pstep_set_role s r hWF) rfl hInv hWF.1

theorem C8_run_aux (es : List IceEvent) (s : IceState) (hWF : C8WF s)
    (hInv : s.clstate = IceCheckListState.completed → allComponentsNominated s = true) :
    (runEvents s es).2 + completedFlag s = completedFlag (runEvents s es).1 ∧
    ((runEvents s es).1.clstate = IceCheckListState.completed →
      allComponentsNominated (runEvents s es).1 = true) ∧
    C8WF (runEvents s es).1 := by
  induction es generalizing s with
  | nil =>
    exact ⟨by simp [runEvents], hInv, hWF⟩
  | cons e t ih =>
    simp only [runEvents]
    have h1 := C8_step s e hWF hInv
    have h2 := ih (step s e).1 h1.2.2 h1.2.1
    refine ⟨?_, h2.2.1, h2.2.2⟩
    have e1 := h1.1
    have e2 := h2.1
    omega

end Ice

namespace Ice

/-- A binding success response with matching symmetric addresses for the pair
of `onePairState`, used to complete its check list. -/
def c8Msg : StunResponseMsg :=
  { trId := 0, hasUsername := true, hasFingerprint := true,
    hasXorMappedAddress := true, xorMappedAddress := { ip := "10.0.0.1", port := 5000 } }

/-- Delivery of `c8Msg` from the pair's remote address to the pair's local
address. -/
def c8Pkt : PacketInfo :=
  { socketKind := .rtp, srcAddr := { ip := "10.0.0.2", port := 6000 },
    dstIp := "10.0.0.1", rtpLocPort := 5000, integrityOk := true }

/-- C8: confirmed.  Over any engine run from a well-formed state whose
completion flag is consistent, the number of success-callback invocations
equals the change of the completion flag: the callback fires exactly once, at
the run in which the check list first becomes Completed, and no sequence of
subsequent events produces a second invocation (a run starting Completed
yields zero callbacks). -/
theorem C8_success_callback_exactly_once (s : IceState) (es : List IceEvent)
    (hWF : C8WF s)
    (hInv : s.clstate = IceCheckListState.completed → allComponentsNominated s = true) :
    (runEvents s es).2 + completedFlag s = completedFlag (runEvents s es).1 :=
  (C8_run_aux es s hWF hInv).1

set_option maxRecDepth 100000 in
/-- C8 witness: the symmetric binding response completes the one-pair check
list; the run reports exactly one success-callback invocation. -/
theorem C8_success_callback_exactly_once_witness :
    (runEvents onePairState [IceEvent.response c8Msg c8Pkt 50]).2 +
        completedFlag onePairState =
      completedFlag (runEvents onePairState [IceEvent.response c8Msg c8Pkt 50]).1 :=
  C8_success_callback_exactly_once onePairState [IceEvent.response c8Msg c8Pkt 50]
    (by simp only [C8WF]; decide)
    (by decide)

end Ice
